import Mathlib

/-!
Verification of the `raytracer` repository

The C sources (`veclib3d.c`, `sphere.c`, `plane.c`, `fplane.c`, `tplane.c`,
`pplane.c`, `psphere.c`, `light.c`, `raytrace.c`, `object.c`, `model.c`,
`list.c`, `image.c`) are embedded shallowly:

* a `double` is an element of a linearly ordered field `K` (exact arithmetic);
  the two libm functions the sources call (`sqrt`, `sin`) are the fields of a
  record `Libm K` passed to every function that needs them, and the cast
  `(int)x` is truncation toward zero through the floor of `K`;
* a `double[3]` that a function fills completely is a returned `Vec K`; an
  output array that a function may leave untouched is passed in and returned;
* an `obj_t *` is an index into a heap `Nat → obj_t K`, `NULL` is `none`, and
  the `hits`/`getamb`/`getdiff`/`getspec` function pointers are tags that a
  dispatcher resolves to the embedded function of the same name;
* a `double *base` that may point at the `hitloc` field of a heap object is a
  `Ref K`, dereferenced at each use, so that aliasing is kept;
* the machine state also carries a call log: every call through a function
  pointer, every `process_light` entry and every recursive `ray_trace` call
  appends one entry.  Nothing reads the log; it only makes "this call is (not)
  made" a statement about the final state;
* a loader takes the values it reads as arguments; where it can end the program
  through `msg_exit` or index a table, its result is a `Run`, which tells a
  return from a fatal exit and from a read outside the table.
-/

namespace Raytracer

/-! ## veclib3d.h / veclib3d.c -/

/-- A `double[VEC_SIZE]` with `VEC_SIZE = 3`. -/
@[ext]
structure Vec (K : Type) where
  x : K
  y : K
  z : K
deriving DecidableEq

/-- A `double[VEC_SIZE][VEC_SIZE]`, stored by rows. -/
structure Mat (K : Type) where
  r0 : Vec K
  r1 : Vec K
  r2 : Vec K

/-- The libm functions called by the sources. -/
structure Libm (K : Type) where
  sqrt : K → K
  sin : K → K

section Defs

variable {K : Type} [LinearOrderedField K]

/-- The initialiser `{ 0.0, 0.0, 0.0 }`. -/
def Vec.zero : Vec K := ⟨0, 0, 0⟩

/-- Channel `i` of a vector (`*(v + i)`), for `i < VEC_SIZE`. -/
def Vec.chan (v : Vec K) (i : Fin 3) : K :=
  match i with
  | 0 => v.x
  | 1 => v.y
  | 2 => v.z

/-- The cast `(int)x`: truncation toward zero. -/
def c_int [FloorRing K] (x : K) : Int :=
  if 0 ≤ x then Int.floor x else Int.ceil x

/-- Source `vec_dot3`: the inner product. -/
def vec_dot3 (v1 v2 : Vec K) : K :=
  v1.x * v2.x + v1.y * v2.y + v1.z * v2.z

/-- Source `vec_scale3`: `v2[i] = v1[i] * fact`. -/
def vec_scale3 (fact : K) (v1 : Vec K) : Vec K :=
  ⟨v1.x * fact, v1.y * fact, v1.z * fact⟩

/-- Source `vec_length3`. -/
def vec_length3 (M : Libm K) (v1 : Vec K) : K :=
  M.sqrt (v1.x * v1.x + v1.y * v1.y + v1.z * v1.z)

/-- Source `vec_diff3`: `v3 = v2 - v1`. -/
def vec_diff3 (v1 v2 : Vec K) : Vec K :=
  ⟨v2.x - v1.x, v2.y - v1.y, v2.z - v1.z⟩

/-- Source `vec_sum3`: `v3 = v1 + v2`. -/
def vec_sum3 (v1 v2 : Vec K) : Vec K :=
  ⟨v1.x + v2.x, v1.y + v2.y, v1.z + v2.z⟩

/-- Source `vec_mul3`: the component-wise product. -/
def vec_mul3 (v1 v2 : Vec K) : Vec K :=
  ⟨v1.x * v2.x, v1.y * v2.y, v1.z * v2.z⟩

/-- Source `vec_unit3`: `v2` is the previous content of the output array, which
is kept when the input has length 0 (the source only prints a warning). -/
def vec_unit3 (M : Libm K) (v1 v2 : Vec K) : Vec K :=
  if vec_length3 M v1 = 0 then v2
  else vec_scale3 (1 / vec_length3 M v1) v1

/-- Source `vec_cross3`. -/
def vec_cross3 (v1 v2 : Vec K) : Vec K :=
  vec_scale3 1
    ⟨v1.y * v2.z - v1.z * v2.y, v1.z * v2.x - v1.x * v2.z, v1.x * v2.y - v1.y * v2.x⟩

/-- Source `vec_project3`: `w = v - (n.v) n`. -/
def vec_project3 (n v : Vec K) : Vec K :=
  vec_scale3 1 (vec_diff3 (vec_scale3 (vec_dot3 n v) n) v)

/-- Source `vec_reflect3`; `unitout` is the previous content of the output. -/
def vec_reflect3 (M : Libm K) (unitin unitnorm unitout : Vec K) : Vec K :=
  let u := vec_scale3 (-1) unitin
  let n := vec_scale3 (2 * vec_dot3 u unitnorm) unitnorm
  let v := vec_diff3 u n
  vec_unit3 M v unitout

/-- Source `mat_xform3`: the product of the matrix `y` with the column `x`. -/
def mat_xform3 (y : Mat K) (x : Vec K) : Vec K :=
  vec_scale3 1
    ⟨0 + y.r0.x * x.x + y.r0.y * x.y + y.r0.z * x.z,
     0 + y.r1.x * x.x + y.r1.y * x.y + y.r1.z * x.z,
     0 + y.r2.x * x.x + y.r2.y * x.y + y.r2.z * x.z⟩

/-! ## model.h constants -/

/-- The sentinel `#define MISS -1`. -/
def MISS : K := -1

/-- The constant `#define MAX_DIST 20`. -/
def MAX_DIST : K := 20

/-- The constant `INT_MAX` of limits.h (32-bit int), converted to double. -/
def INT_MAX : K := 2147483647

end Defs

/-! ## material.h, sphere.h, plane.h, fplane.h, tplane.h, light.h, object.h -/

/-- Source `material_t`. -/
structure material_t (K : Type) where
  ambient : Vec K
  diffuse : Vec K
  specular : Vec K

/-- Source `sphere_t`. -/
structure sphere_t (K : Type) where
  center : Vec K
  radius : K

/-- Source `fplane_t` (the two-element arrays are pairs). -/
structure fplane_t (K : Type) where
  xdir : Vec K
  size : K × K
  rotmat : Mat K
  lasthit : K × K

/-- Source `tplane_t`. -/
structure tplane_t (K : Type) where
  xdir : Vec K
  size : K × K
  rotmat : Mat K
  background : material_t K

/-- What `plane_t.priv` points to: `NULL`, an `fplane_t` or a `tplane_t`. -/
inductive plane_priv (K : Type) where
  | null : plane_priv K
  | fplane (f : fplane_t K) : plane_priv K
  | tplane (t : tplane_t K) : plane_priv K

/-- Source `plane_t`. -/
structure plane_t (K : Type) where
  normal : Vec K
  point : Vec K
  priv : plane_priv K

/-- Source `light_t`. -/
structure light_t (K : Type) where
  center : Vec K

/-- What `obj_t.priv` points to. -/
inductive obj_priv (K : Type) where
  | null : obj_priv K
  | sphere (s : sphere_t K) : obj_priv K
  | plane (p : plane_t K) : obj_priv K
  | light (l : light_t K) : obj_priv K

/-- The functions that the loaders store in `obj_t.hits`. -/
inductive hits_fn where
  | hits_sphere
  | hits_plane
  | hits_fplane
deriving DecidableEq

/-- The functions that the loaders store in `obj_t.getamb`. -/
inductive getamb_fn where
  | default_getamb
  | tp_amb
  | pplane0_amb
  | pplane1_amb
  | pplane2_amb
  | psphere0_amb
  | psphere1_amb
  | psphere2_amb
deriving DecidableEq

/-- The functions that the loaders store in `obj_t.getdiff`. -/
inductive getdiff_fn where
  | default_getdiff
  | tp_diff
deriving DecidableEq

/-- The functions that the loaders store in `obj_t.getspec`. -/
inductive getspec_fn where
  | default_getspec
  | tp_spec
deriving DecidableEq

/-- Source `obj_t` (the list link, `getemiss`, `destroy` and `dump` are not
used by the tracer and are left out). -/
structure obj_t (K : Type) where
  objid : Int
  objtype : Int
  priv : obj_priv K
  hits : hits_fn
  getamb : getamb_fn
  getdiff : getdiff_fn
  getspec : getspec_fn
  material : material_t K
  emissivity : Vec K
  hitloc : Vec K
  normal : Vec K

section Model

variable {K : Type} [LinearOrderedField K]

/-! ### Casts of the private-data pointers

The sources cast `obj->priv` and `plane->priv` to the type the called function
expects.  The loaders only ever pair a function with private data of its own
type; a cast of any other pointer is undefined in C and reads as a record of
zeros here. -/

/-- The cast `(sphere_t *)obj->priv`. -/
def obj_priv.as_sphere : obj_priv K → sphere_t K
  | .sphere s => s
  | _ => ⟨Vec.zero, 0⟩

/-- The cast `(plane_t *)obj->priv`. -/
def obj_priv.as_plane : obj_priv K → plane_t K
  | .plane p => p
  | _ => ⟨Vec.zero, Vec.zero, .null⟩

/-- The cast `(light_t *)lightobj->priv`. -/
def obj_priv.as_light : obj_priv K → light_t K
  | .light l => l
  | _ => ⟨Vec.zero⟩

/-- The cast `(fplane_t *)plane->priv`. -/
def plane_priv.as_fplane : plane_priv K → fplane_t K
  | .fplane f => f
  | _ => ⟨Vec.zero, (0, 0), ⟨Vec.zero, Vec.zero, Vec.zero⟩, (0, 0)⟩

/-- The cast `(tplane_t *)plane->priv`. -/
def plane_priv.as_tplane : plane_priv K → tplane_t K
  | .tplane t => t
  | _ => ⟨Vec.zero, (0, 0), ⟨Vec.zero, Vec.zero, Vec.zero⟩, ⟨Vec.zero, Vec.zero, Vec.zero⟩⟩

/-! ## sphere.c, plane.c, fplane.c: the intersection tests

Each test returns the distance together with the object after the call: the
only fields a test writes are `hitloc` and `normal` of the object it is given. -/

/-- Source `hits_sphere`. -/
def hits_sphere (M : Libm K) (base dir : Vec K) (obj : obj_t K) : K × obj_t K :=
  let sphere := obj.priv.as_sphere
  let view := vec_diff3 sphere.center base
  let a := vec_dot3 dir dir
  let b := 2 * vec_dot3 view dir
  let c := vec_dot3 view view - sphere.radius * sphere.radius
  let quad := b * b - 4 * a * c
  let distance := ((-1) * b - M.sqrt quad) / (2 * a)
  let hit_loc := vec_sum3 base (vec_scale3 distance dir)
  if quad ≤ 0 then
    (MISS, obj)
  else
    (distance,
      { obj with
        hitloc := vec_scale3 1 hit_loc
        normal := vec_unit3 M (vec_diff3 sphere.center hit_loc) obj.normal })

/-- Source `hits_plane` (the literal `0.01` is read as the exact 1/100). -/
def hits_plane (base dir : Vec K) (obj : obj_t K) : K × obj_t K :=
  let plane := obj.priv.as_plane
  let a := vec_dot3 plane.normal plane.point
  let b := vec_dot3 plane.normal base
  let c := vec_dot3 plane.normal dir
  let distance := (a - b) / c
  let hit_loc := vec_sum3 base (vec_scale3 distance dir)
  if distance < 0 ∨ hit_loc.z > 1 / 100 ∨ c = 0 then
    (MISS, obj)
  else
    (distance,
      { obj with
        hitloc := vec_scale3 1 hit_loc
        normal := vec_scale3 1 plane.normal })

/-- Source `hits_fplane`: the loop over the two local coordinates is unrolled. -/
def hits_fplane (base dir : Vec K) (obj : obj_t K) : K × obj_t K :=
  let plane := obj.priv.as_plane
  let fplane := plane.priv.as_fplane
  let r := hits_plane base dir obj
  if r.1 < 0 then
    r
  else
    let hitloc := mat_xform3 fplane.rotmat (vec_diff3 plane.point r.2.hitloc)
    if hitloc.x > fplane.size.1 ∨ hitloc.x < 0 then (MISS, r.2)
    else if hitloc.y > fplane.size.2 ∨ hitloc.y < 0 then (MISS, r.2)
    else (r.1, r.2)

/-- The call `obj->hits(base, dir, obj)`. -/
def call_hits (M : Libm K) (base dir : Vec K) (obj : obj_t K) : K × obj_t K :=
  match obj.hits with
  | .hits_sphere => hits_sphere M base dir obj
  | .hits_plane => hits_plane base dir obj
  | .hits_fplane => hits_fplane base dir obj

/-! ## light.c, tplane.c, pplane.c, psphere.c: the shading queries

Every query fills its whole output array, so it returns the array. -/

/-- Source `default_getamb`. -/
def default_getamb (obj : obj_t K) : Vec K :=
  vec_scale3 1 obj.material.ambient

/-- Source `default_getdiff`. -/
def default_getdiff (obj : obj_t K) : Vec K :=
  vec_scale3 1 obj.material.diffuse

/-- Source `default_getspec`. -/
def default_getspec (obj : obj_t K) : Vec K :=
  vec_scale3 1 obj.material.specular

variable [FloorRing K]

/-- Source `tp_select`; the C remainder `%` truncates toward zero.  The two
casts and their sum are computed in `Int` without wrap-around: the value is
that of the C function exactly when `relx`, `rely` and `relx + rely` lie in
the range of `int`, which the statements on `tp_select` derive from bounds
on the tile coordinates. -/
def tp_select (obj : obj_t K) : Int :=
  let plane := obj.priv.as_plane
  let tplane := plane.priv.as_tplane
  let hitloc := mat_xform3 tplane.rotmat (vec_diff3 plane.point obj.hitloc)
  let relx := c_int (10000 + hitloc.x / tplane.size.1)
  let rely := c_int (10000 + hitloc.y / tplane.size.2)
  Int.tmod (relx + rely) 2

/-- Source `tp_amb`. -/
def tp_amb (obj : obj_t K) : Vec K :=
  if tp_select obj ≠ 0 then vec_scale3 1 obj.material.ambient
  else vec_scale3 1 obj.priv.as_plane.priv.as_tplane.background.ambient

/-- Source `tp_diff`. -/
def tp_diff (obj : obj_t K) : Vec K :=
  if tp_select obj ≠ 0 then vec_scale3 1 obj.material.diffuse
  else vec_scale3 1 obj.priv.as_plane.priv.as_tplane.background.diffuse

/-- Source `tp_spec`. -/
def tp_spec (obj : obj_t K) : Vec K :=
  if tp_select obj ≠ 0 then vec_scale3 1 obj.material.specular
  else vec_scale3 1 obj.priv.as_plane.priv.as_tplane.background.specular

/-- Source `pplane0_amb`. -/
def pplane0_amb (obj : obj_t K) : Vec K :=
  let plane := obj.priv.as_plane
  let ivec := vec_scale3 1 obj.material.ambient
  let dir := vec_diff3 plane.point obj.hitloc
  let sum := 1000 + dir.x * dir.y * dir.y / 100 + dir.x * dir.y / 100
  if Int.land (c_int sum) 1 ≠ 0 then { ivec with x := 0 } else { ivec with z := 0 }

/-- Source `pplane1_amb`. -/
def pplane1_amb (M : Libm K) (obj : obj_t K) : Vec K :=
  let loc := obj.hitloc
  let sum := M.sqrt (loc.x * loc.x + loc.y * loc.y)
  if Int.tmod (c_int sum) 2 = 0 then ⟨1, 0, 0⟩ else ⟨2, 2, 2⟩

/-- Source `pplane2_amb` (the last factor in the source is `*loc + 2`). -/
def pplane2_amb (M : Libm K) (obj : obj_t K) : Vec K :=
  let loc := obj.hitloc
  let sum := M.sin (loc.x * loc.y * loc.z * (loc.x + 2))
  if sum < 1 / 2 then ⟨0, 0, 4⟩ else ⟨8, 8, 0⟩

/-- Source `psphere0_amb`. -/
def psphere0_amb (obj : obj_t K) : Vec K :=
  let sphere := obj.priv.as_sphere
  let ivec := vec_scale3 1 obj.material.ambient
  let dir := vec_diff3 sphere.center obj.hitloc
  let sum := 1000 + dir.x * dir.y * dir.y / 100 + dir.x * dir.y / 100
  if Int.land (c_int sum) 1 ≠ 0 then { ivec with x := 0 } else { ivec with z := 0 }

/-- Source `psphere1_amb`. -/
def psphere1_amb (M : Libm K) (obj : obj_t K) : Vec K :=
  let loc := obj.hitloc
  let sum := M.sqrt (loc.x * loc.x + loc.y * loc.y)
  if Int.tmod (c_int sum) 2 = 0 then ⟨1, 0, 0⟩ else ⟨1, 1, 1⟩

/-- Source `psphere2_amb`. -/
def psphere2_amb (M : Libm K) (obj : obj_t K) : Vec K :=
  let loc := obj.hitloc
  let sum := M.sin (loc.x * loc.y * loc.z * loc.z)
  if sum < 1 / 2 then ⟨0, 4, 1⟩ else ⟨8, 8, 0⟩

/-- The call `obj->getamb(obj, out)`. -/
def call_getamb (M : Libm K) (obj : obj_t K) : Vec K :=
  match obj.getamb with
  | .default_getamb => default_getamb obj
  | .tp_amb => tp_amb obj
  | .pplane0_amb => pplane0_amb obj
  | .pplane1_amb => pplane1_amb M obj
  | .pplane2_amb => pplane2_amb M obj
  | .psphere0_amb => psphere0_amb obj
  | .psphere1_amb => psphere1_amb M obj
  | .psphere2_amb => psphere2_amb M obj

/-- The call `obj->getdiff(obj, out)`. -/
def call_getdiff (obj : obj_t K) : Vec K :=
  match obj.getdiff with
  | .default_getdiff => default_getdiff obj
  | .tp_diff => tp_diff obj

/-- The call `obj->getspec(obj, out)`. -/
def call_getspec (obj : obj_t K) : Vec K :=
  match obj.getspec with
  | .default_getspec => default_getspec obj
  | .tp_spec => tp_spec obj

end Model

/-! ## Machine state -/

/-- One entry of the call log. -/
inductive Call (K : Type) where
  | hits (obj : Nat) (base dir : Vec K) : Call K
  | getamb (obj : Nat) : Call K
  | getdiff (obj : Nat) : Call K
  | getspec (obj : Nat) : Call K
  | process_light (hitobj lightobj : Nat) : Call K
  | ray_trace (base dir : Vec K) (total_dist : K) (last_hit : Option Nat) : Call K

/-- The heap of objects, addressed by pointer, and the call log. -/
structure State (K : Type) where
  heap : Nat → obj_t K
  log : List (Call K)

/-- A `double *` ray origin: a caller-owned array holding `v`, or a pointer to
the `hitloc` field of the heap object `obj`. -/
inductive Ref (K : Type) where
  | val (v : Vec K) : Ref K
  | hitloc (obj : Nat) : Ref K

/-- Dereference of a ray origin in a state. -/
def Ref.read {K : Type} (s : State K) : Ref K → Vec K
  | .val v => v
  | .hitloc obj => (s.heap obj).hitloc

/-- Source `model_t`: the two lists hold object pointers in list order; the
projection is not used by the tracer. -/
structure model_t where
  lights : List Nat
  scene : List Nat

section Trace

variable {K : Type} [LinearOrderedField K]

/-- The loop of `find_closest_obj` over the links from `cursor` on, started
with the current values of `closest` and `min`. -/
def find_closest_loop (M : Libm K) (base : Ref K) (dir : Vec K) (last_hit : Option Nat) :
    List Nat → State K → Option Nat → K → Option Nat × K × State K
  | [], s, closest, min => (closest, min, s)
  | obj :: cursor, s, closest, min =>
    if some obj ≠ last_hit then
      let r := call_hits M (base.read s) dir (s.heap obj)
      let s1 : State K :=
        ⟨Function.update s.heap obj r.2, s.log ++ [Call.hits obj (base.read s) dir]⟩
      let dist := r.1
      if dist < min ∧ dist > 0 then
        find_closest_loop M base dir last_hit cursor s1 (some obj) dist
      else
        find_closest_loop M base dir last_hit cursor s1 closest min
    else
      find_closest_loop M base dir last_hit cursor s closest min

/-- Source `find_closest_obj`: returns the closest object, the value stored to
`*min_dist`, and the state after the call. -/
def find_closest_obj (M : Libm K) (s : State K) (scene : List Nat) (base : Ref K)
    (dir : Vec K) (last_hit : Option Nat) : Option Nat × K × State K :=
  find_closest_loop M base dir last_hit scene s none INT_MAX

/-- Source `process_light`: returns the int result (`MISS` = -1 or
`EXIT_SUCCESS` = 0), the intensity array and the state after the call. -/
def process_light [FloorRing K] (M : Libm K) (s : State K) (lst : List Nat)
    (hitobj lightobj : Nat) (ivec : Vec K) : Int × Vec K × State K :=
  let light := (s.heap lightobj).priv.as_light
  let dir := vec_diff3 (s.heap hitobj).hitloc light.center
  let light_dist := vec_length3 M dir
  let dir := vec_unit3 M dir dir
  let cos := vec_dot3 (s.heap hitobj).normal dir
  if cos < 0 then
    (-1, ivec, s)
  else
    let r := find_closest_obj M s lst (.hitloc hitobj) dir (some hitobj)
    let obj := r.1
    let obj_dist := r.2.1
    let s1 := r.2.2
    if obj ≠ none ∧ obj_dist < light_dist then
      (-1, ivec, s1)
    else
      let diffuse := call_getdiff (s1.heap hitobj)
      let s2 : State K := ⟨s1.heap, s1.log ++ [Call.getdiff hitobj]⟩
      let emissivity := (s2.heap lightobj).emissivity
      (0,
       ⟨ivec.x + diffuse.x * emissivity.x * cos / light_dist,
        ivec.y + diffuse.y * emissivity.y * cos / light_dist,
        ivec.z + diffuse.z * emissivity.z * cos / light_dist⟩,
       s2)

/-- The loop of `diffuse_illumination` over the links of the lights list. -/
def diffuse_illumination_loop [FloorRing K] (M : Libm K) (scene : List Nat) (hitobj : Nat) :
    List Nat → State K → Vec K → Vec K × State K
  | [], s, ivec => (ivec, s)
  | lightobj :: cursor, s, ivec =>
    let s0 : State K := ⟨s.heap, s.log ++ [Call.process_light hitobj lightobj]⟩
    let r := process_light M s0 scene hitobj lightobj ivec
    diffuse_illumination_loop M scene hitobj cursor r.2.2 r.2.1

/-- Source `diffuse_illumination`. -/
def diffuse_illumination [FloorRing K] (M : Libm K) (model : model_t) (s : State K)
    (hitobj : Nat) (ivec : Vec K) : Vec K × State K :=
  diffuse_illumination_loop M model.scene hitobj model.lights s ivec

set_option linter.unusedVariables false in
/-- Source `ray_trace`.  The first argument bounds the depth of nested calls:
with none left the result is `none`. The call returns the intensity array and
the state after the call. -/
def ray_trace [FloorRing K] (M : Libm K) (model : model_t) :
    Nat → State K → Ref K → Vec K → Vec K → K → Option Nat → Option (Vec K × State K)
  | 0, _, _, _, _, _, _ => none
  | depth + 1, s, base, dir, ivec, total_dist, last_hit =>
    if total_dist > MAX_DIST then
      some (ivec, s)
    else
      let r := find_closest_obj M s model.scene base dir none
      match r.1 with
      | none => some (ivec, r.2.2)
      | some closest =>
        let mindist := r.2.1
        let s1 := r.2.2
        let total_dist := total_dist + mindist
        let ivec := call_getamb M (s1.heap closest)
        let specref := call_getspec (s1.heap closest)
        let s2 : State K := ⟨s1.heap, s1.log ++ [Call.getamb closest, Call.getspec closest]⟩
        let d := diffuse_illumination M model s2 closest ivec
        let ivec := vec_scale3 (1 / total_dist) d.1
        let s3 := d.2
        if vec_dot3 specref specref > 0 then
          let norm := vec_unit3 M (s3.heap closest).normal Vec.zero
          let refdir := vec_reflect3 M dir norm Vec.zero
          let s4 : State K :=
            ⟨s3.heap,
             s3.log ++ [Call.ray_trace (s3.heap closest).hitloc refdir total_dist (some closest)]⟩
          match ray_trace M model depth s4 (.hitloc closest) refdir Vec.zero total_dist
              (some closest) with
          | none => none
          | some (specint, s5) => some (vec_sum3 ivec (vec_mul3 specint specref), s5)
        else
          some (vec_sum3 ivec specref, s3)

end Trace

/-! ## Derived notions used in the statements -/

/-- The surface whose intersection test a log entry records, if it is one. -/
def Call.tested {K : Type} : Call K → Option Nat
  | .hits obj _ _ => some obj
  | _ => none

/-- Whether a log entry records a recursive `ray_trace` call. -/
def Call.is_ray_trace {K : Type} : Call K → Bool
  | .ray_trace _ _ _ _ => true
  | _ => false

/-- Whether a log entry records a shading query or a `process_light` call. -/
def Call.is_shading {K : Type} : Call K → Bool
  | .getamb _ => true
  | .getdiff _ => true
  | .getspec _ => true
  | .process_light _ _ => true
  | _ => false

/-- The fields of an object that no intersection test writes agree. -/
def same_shape {K : Type} (o1 o2 : obj_t K) : Prop :=
  o1.objid = o2.objid ∧ o1.objtype = o2.objtype ∧ o1.priv = o2.priv ∧ o1.hits = o2.hits ∧
  o1.getamb = o2.getamb ∧ o1.getdiff = o2.getdiff ∧ o1.getspec = o2.getspec ∧
  o1.material = o2.material ∧ o1.emissivity = o2.emissivity

/-- The ray origin is not the `hitloc` field of a surface that a query over
`scene` with excluded object `last_hit` tests: it is a caller-owned array, or
the hit point of the excluded object or of an object outside the list. -/
def Ref.untested {K : Type} (base : Ref K) (last_hit : Option Nat) (scene : List Nat) : Prop :=
  match base with
  | .val _ => True
  | .hitloc q => some q = last_hit ∨ q ∉ scene

/-- The log of `s2` is the log of `s1` followed by entries that all satisfy `P`. -/
def log_ext {K : Type} (P : Call K → Prop) (s1 s2 : State K) : Prop :=
  ∃ new, s2.log = s1.log ++ new ∧ ∀ e ∈ new, P e

section HitDist

variable {K : Type} [LinearOrderedField K]

/-- The hit distance of the surface `obj` for the ray `(base, dir)` in state
`s`: the value its intersection test returns. -/
def hit_dist (M : Libm K) (s : State K) (base : Ref K) (dir : Vec K) (obj : Nat) : K :=
  (call_hits M (base.read s) dir (s.heap obj)).1

/-- The selection made by the loop of `find_closest_obj` when surface `p`
answers `hd p`, as a function of the list alone. -/
def closest_scan (hd : Nat → K) (last_hit : Option Nat) :
    List Nat → Option Nat → K → Option Nat × K
  | [], closest, min => (closest, min)
  | obj :: cursor, closest, min =>
    if some obj ≠ last_hit then
      if hd obj < min ∧ hd obj > 0 then closest_scan hd last_hit cursor (some obj) (hd obj)
      else closest_scan hd last_hit cursor closest min
    else closest_scan hd last_hit cursor closest min

end HitDist


/-! ## object.c, plane.c, fplane.c, tplane.c: the loaders

A loader is embedded after its reads have succeeded (a short read ends the
run through `msg_exit`): the values read are arguments.  `Malloc` is `malloc`,
so a new block holds arbitrary content: that content is the `raw` argument,
and what the loader does not write keeps it. -/

section Loaders

variable {K : Type} [LinearOrderedField K]

/-- The constant `#define LIGHT 10`. -/
def LIGHT : Int := 10

/-- Source `object_init`: `objid` is the value of the static counter and `mat`
what `material_init` reads when the object is not a light. -/
def object_init (raw : obj_t K) (objid objtype : Int) (mat : material_t K) : obj_t K :=
  { raw with
    objtype := objtype
    objid := objid
    getamb := .default_getamb
    getdiff := .default_getdiff
    getspec := .default_getspec
    material := if objtype ≠ LIGHT then mat else raw.material }

/-- Source `plane_init`. -/
def plane_init (raw : obj_t K) (objid objtype : Int) (mat : material_t K)
    (normal point : Vec K) : obj_t K :=
  { object_init raw objid objtype mat with
    priv := .plane ⟨normal, point, .null⟩
    hits := .hits_plane }

/-- Source `fplane_init`: `rawf` is the content of the new `fplane_t` block. -/
def fplane_init (M : Libm K) (raw : obj_t K) (rawf : fplane_t K) (objid objtype : Int)
    (mat : material_t K) (normal point xdir : Vec K) (size : K × K) : obj_t K :=
  let obj := plane_init raw objid objtype mat normal point
  let plane := obj.priv.as_plane
  let xdir1 := vec_unit3 M xdir xdir
  let normal1 := vec_unit3 M plane.normal plane.normal
  let xdir2 := vec_project3 normal1 xdir1
  let row0 := vec_unit3 M xdir2 rawf.rotmat.r0
  let row2 := vec_unit3 M normal1 rawf.rotmat.r2
  let row1 := vec_cross3 row2 row0
  { obj with
    priv := .plane ⟨normal1, plane.point,
      .fplane ⟨xdir2, size, ⟨row0, row1, row2⟩, rawf.lasthit⟩⟩
    hits := .hits_fplane }

/-- Source `tplane_init`: `rawt` is the content of the new `tplane_t` block and
`background` what `material_init` reads for the background. -/
def tplane_init (M : Libm K) (raw : obj_t K) (rawt : tplane_t K) (objid objtype : Int)
    (mat : material_t K) (normal point xdir : Vec K) (size : K × K)
    (background : material_t K) : obj_t K :=
  let obj := plane_init raw objid objtype mat normal point
  let plane := obj.priv.as_plane
  let row0 := vec_unit3 M xdir rawt.rotmat.r0
  let row2 := vec_unit3 M plane.normal rawt.rotmat.r2
  let row1 := vec_cross3 row2 row0
  { obj with
    priv := .plane ⟨plane.normal, plane.point,
      .tplane ⟨xdir, size, ⟨row0, row1, row2⟩, background⟩⟩
    getamb := .tp_amb
    getdiff := .tp_diff
    getspec := .tp_spec
    hits := .hits_plane }

end Loaders

/-! ## sphere.c, light.c, pplane.c, psphere.c: the remaining loaders -/

/-- How a run of a loader ends: it returns a value, it ends the program
through `msg_exit` (which prints the message and calls `exit(EXIT_FAILURE)`),
or it reads an array outside its bounds, which C leaves undefined. -/
inductive Run (α : Type) where
  | done (a : α) : Run α
  | fatal (msg : String) : Run α
  | undefined : Run α

/-- The read `table[k]` of a static array with an `int` index: defined only for
an index inside the array. -/
def table_read {α : Type} (table : List α) (k : Int) : Option α :=
  if 0 ≤ k then table[k.toNat]? else none

/-- The conversion of an `int` to `size_t` (64 bits wide), which the comparison
of an `int` with a `sizeof` expression applies to the `int`. -/
def to_size_t (k : Int) : Int :=
  k % 2 ^ 64

/-- The table `plane_shaders` of pplane.h. -/
def plane_shaders : List getamb_fn :=
  [.pplane0_amb, .pplane1_amb, .pplane2_amb]

/-- The table `sphere_shaders` of psphere.h. -/
def sphere_shaders : List getamb_fn :=
  [.psphere0_amb, .psphere1_amb, .psphere2_amb]

/-- The constant `NUM_PSHADERS`: `sizeof(plane_shaders) / sizeof(void *)`. -/
def NUM_PSHADERS : Int := plane_shaders.length

/-- The constant `NUM_SSHADERS`: `sizeof(sphere_shaders) / sizeof(void *)`. -/
def NUM_SSHADERS : Int := sphere_shaders.length

section Loaders2

variable {K : Type} [LinearOrderedField K]

/-- Source `sphere_init`. -/
def sphere_init (raw : obj_t K) (objid objtype : Int) (mat : material_t K)
    (center : Vec K) (radius : K) : obj_t K :=
  { object_init raw objid objtype mat with
    priv := .sphere ⟨center, radius⟩
    hits := .hits_sphere }

/-- Source `light_init`: a light reads no material. -/
def light_init (raw : obj_t K) (objid objtype : Int) (mat : material_t K)
    (emissivity center : Vec K) : obj_t K :=
  { object_init raw objid objtype mat with
    priv := .light ⟨center⟩
    emissivity := emissivity }

variable [FloorRing K]

/-- Source `pplane_init`: `i` is the shader index read as a double. -/
def pplane_init (raw : obj_t K) (objid objtype : Int) (mat : material_t K)
    (normal point : Vec K) (i : K) : Run (obj_t K) :=
  let obj := plane_init raw objid objtype mat normal point
  if to_size_t (c_int i) ≥ NUM_PSHADERS then
    .fatal "pplane_init: error: shader index out of bounds"
  else
    match table_read plane_shaders (c_int i) with
    | some f => .done { obj with getamb := f }
    | none => .undefined

/-- Source `psphere_init`: `i` is the shader index read as a double. -/
def psphere_init (raw : obj_t K) (objid objtype : Int) (mat : material_t K)
    (center : Vec K) (radius : K) (i : K) : Run (obj_t K) :=
  let obj := sphere_init raw objid objtype mat center radius
  if to_size_t (c_int i) ≥ NUM_SSHADERS then
    .fatal "psphere_init: error: shader index out of bounds"
  else
    match table_read sphere_shaders (c_int i) with
    | some f => .done { obj with getamb := f }
    | none => .undefined

end Loaders2

/-! ## model.c, list.c: the scene loader -/

/-- The functions in the table `obj_loaders`. -/
inductive loader_fn where
  | light_init
  | dummy_init
  | sphere_init
  | plane_init
  | fplane_init
  | tplane_init
  | psphere_init
  | pplane_init
deriving DecidableEq

/-- The table `obj_loaders` of model.c (types 10 to 24). -/
def obj_loaders : List loader_fn :=
  [.light_init, .dummy_init, .dummy_init, .sphere_init, .plane_init, .fplane_init,
   .tplane_init, .dummy_init, .dummy_init, .psphere_init, .pplane_init, .dummy_init,
   .dummy_init, .dummy_init, .dummy_init]

/-- The constant `#define FIRST_TYPE 10`. -/
def FIRST_TYPE : Int := 10

/-- The constant `#define LAST_TYPE 25`. -/
def LAST_TYPE : Int := 25

/-- One pass of the loop of `model_init` as the scene file determines it: the
tag that `ivec_get1` reads, and what a loader other than `dummy_init` does
when it is called on the text that follows: it returns the pointer to the new
object, or one of its reads fails and it ends the run with a message. -/
structure record_t where
  obj_type : Int
  loaded : Except String Nat

/-- The call `(*obj_loaders[k])(in, obj_type)`: `dummy_init` returns `NULL`,
every other loader returns its new object or ends the run. -/
def call_loader (f : loader_fn) (loaded : Except String Nat) : Run (Option Nat) :=
  match f with
  | .dummy_init => .done none
  | _ =>
    match loaded with
    | .ok p => .done (some p)
    | .error msg => .fatal msg

/-- Source `list_add`: the list is the sequence of items from `head` on. -/
def list_add (list : List Nat) (entity : Nat) : List Nat :=
  list ++ [entity]

/-- Source `model_init`: the argument list holds the passes of the loop up to
the first tag that `ivec_get1` fails to read. -/
def model_init : List record_t → model_t → Run model_t
  | [], model => .done model
  | r :: rest, model =>
    if r.obj_type ≥ FIRST_TYPE ∧ r.obj_type ≤ LAST_TYPE then
      match table_read obj_loaders (r.obj_type - FIRST_TYPE) with
      | none => .undefined
      | some f =>
        match call_loader f r.loaded with
        | .done none => .fatal "model_init: error: initialization failed"
        | .done (some new) =>
          if r.obj_type = LIGHT then
            model_init rest { model with lights := list_add model.lights new }
          else
            model_init rest { model with scene := list_add model.scene new }
        | .fatal msg => .fatal msg
        | .undefined => .undefined
    else
      model_init rest model

/-- The tag of a pass lies in the range that `model_init` tests. -/
def record_t.recognized (r : record_t) : Prop :=
  FIRST_TYPE ≤ r.obj_type ∧ r.obj_type ≤ LAST_TYPE

/-- The pass calls a loader that returns a new object: the tag is in the range,
the table holds a loader other than `dummy_init` for it, and that loader
returns the object `p`. -/
def record_t.loads (r : record_t) (p : Nat) : Prop :=
  r.recognized ∧
  (∃ f, table_read obj_loaders (r.obj_type - FIRST_TYPE) = some f ∧ f ≠ .dummy_init) ∧
  r.loaded = .ok p

/-- The object that a pass with tag `LIGHT` in the range loads. -/
def record_t.light (r : record_t) : Option Nat :=
  if FIRST_TYPE ≤ r.obj_type ∧ r.obj_type ≤ LAST_TYPE ∧ r.obj_type = LIGHT then
    r.loaded.toOption
  else none

/-- The object that a pass with a tag other than `LIGHT` in the range loads. -/
def record_t.surface (r : record_t) : Option Nat :=
  if FIRST_TYPE ≤ r.obj_type ∧ r.obj_type ≤ LAST_TYPE ∧ r.obj_type ≠ LIGHT then
    r.loaded.toOption
  else none

/-! ## Derived notions for the intersection claims -/

section Geometry

variable {K : Type} [LinearOrderedField K]

/-- The point `O + t D` of a ray. -/
def ray_point (O D : Vec K) (t : K) : Vec K :=
  vec_sum3 O (vec_scale3 t D)

/-- The coefficient `a = D.D` of the sphere quadratic. -/
def sphere_a (D : Vec K) : K :=
  vec_dot3 D D

/-- The coefficient `b = 2 (O - C).D` of the sphere quadratic. -/
def sphere_b (C O D : Vec K) : K :=
  2 * vec_dot3 (vec_diff3 C O) D

/-- The coefficient `c = |O - C|^2 - r^2` of the sphere quadratic. -/
def sphere_c (C : Vec K) (r : K) (O : Vec K) : K :=
  vec_dot3 (vec_diff3 C O) (vec_diff3 C O) - r * r

/-- The discriminant `b^2 - 4ac` of the sphere quadratic. -/
def sphere_disc (C : Vec K) (r : K) (O D : Vec K) : K :=
  sphere_b C O D * sphere_b C O D - 4 * sphere_a D * sphere_c C r O

/-- The parameter `t` solves `|O + t D - C|^2 = r^2`. -/
def sphere_root (C : Vec K) (r : K) (O D : Vec K) (t : K) : Prop :=
  vec_dot3 (vec_diff3 C (ray_point O D t)) (vec_diff3 C (ray_point O D t)) = r * r

/-- The parameter `t = (N.P - N.O) / (N.D)` at which a ray meets a plane. -/
def plane_dist (N P O D : Vec K) : K :=
  (vec_dot3 N P - vec_dot3 N O) / vec_dot3 N D

/-- The rotation matrix stored with a finite plane (`fplane->rotmat`). -/
def fplane_rotmat (obj : obj_t K) : Mat K :=
  obj.priv.as_plane.priv.as_fplane.rotmat

/-- The rotation matrix stored with a tiled plane (`tplane->rotmat`). -/
def tplane_rotmat (obj : obj_t K) : Mat K :=
  obj.priv.as_plane.priv.as_tplane.rotmat

end Geometry

/-! ## Derived notions for the shading claims -/

section Shading

variable {K : Type} [LinearOrderedField K]

section Tiles

variable [FloorRing K]

/-- The local coordinates that `tp_select` computes for the recorded hit point
(`hitloc` after `vec_diff3` and `mat_xform3`). -/
def tp_local (obj : obj_t K) : Vec K :=
  mat_xform3 obj.priv.as_plane.priv.as_tplane.rotmat
    (vec_diff3 obj.priv.as_plane.point obj.hitloc)

/-- The tile sizes `tplane->size` of a tiled plane. -/
def tp_size (obj : obj_t K) : K × K :=
  obj.priv.as_plane.priv.as_tplane.size

/-- The material that the queries of a tiled plane draw from: the surface's
own when `tp_select` is nonzero, the background material otherwise. -/
def tp_material (obj : obj_t K) : material_t K :=
  if tp_select obj ≠ 0 then obj.material
  else obj.priv.as_plane.priv.as_tplane.background

end Tiles

/-- The vector from the recorded hit point of `hitobj` to the centre of the
light (`dir` after the call of `vec_diff3` in `process_light`). -/
def light_vec (s : State K) (hitobj lightobj : Nat) : Vec K :=
  vec_diff3 (s.heap hitobj).hitloc (s.heap lightobj).priv.as_light.center

/-- The distance from the recorded hit point to the light (`light_dist`). -/
def light_dist (M : Libm K) (s : State K) (hitobj lightobj : Nat) : K :=
  vec_length3 M (light_vec s hitobj lightobj)

/-- The direction from the recorded hit point to the light (`dir` after the
call of `vec_unit3` in `process_light`). -/
def light_dir (M : Libm K) (s : State K) (hitobj lightobj : Nat) : Vec K :=
  vec_unit3 M (light_vec s hitobj lightobj) (light_vec s hitobj lightobj)

/-- The value `cos` of `process_light`: the inner product of the recorded
normal and the direction to the light. -/
def light_cos (M : Libm K) (s : State K) (hitobj lightobj : Nat) : K :=
  vec_dot3 (s.heap hitobj).normal (light_dir M s hitobj lightobj)

/-- The hit distance of the surface `q` along the ray from the recorded hit
point of `hitobj` toward the light. -/
def shadow_dist (M : Libm K) (s : State K) (hitobj lightobj q : Nat) : K :=
  hit_dist M s (.hitloc hitobj) (light_dir M s hitobj lightobj) q

/-- What `process_light` adds for one light in state `s`: its result on an
accumulator holding zeros. -/
def light_contrib [FloorRing K] (M : Libm K) (s : State K) (lst : List Nat)
    (hitobj lightobj : Nat) : Vec K :=
  (process_light M s lst hitobj lightobj Vec.zero).2.1

end Shading

/-! ## Derived notions for the termination claim -/

section Termination

variable {K : Type} [LinearOrderedField K]

/-- The libm function `sqrt` is a square root on the non-negative numbers. -/
def Libm.sqrt_spec (M : Libm K) : Prop :=
  ∀ x, 0 ≤ x → 0 ≤ M.sqrt x ∧ M.sqrt x * M.sqrt x = x

/-- The recorded hit point of a plane object lies in its plane. -/
def on_plane (o : obj_t K) : Prop :=
  vec_dot3 o.priv.as_plane.normal o.hitloc =
    vec_dot3 o.priv.as_plane.normal o.priv.as_plane.point

/-- Every point of the plane of `o2` is at distance at least `g` from the plane
of `o1` (with the distance squared and the normal of `o1` not normalised). -/
def gap_apart (o1 o2 : obj_t K) (g : K) : Prop :=
  ∀ X : Vec K,
    vec_dot3 o2.priv.as_plane.normal X =
      vec_dot3 o2.priv.as_plane.normal o2.priv.as_plane.point →
    g * g * vec_dot3 o1.priv.as_plane.normal o1.priv.as_plane.normal ≤
      (vec_dot3 o1.priv.as_plane.normal X -
        vec_dot3 o1.priv.as_plane.normal o1.priv.as_plane.point) ^ 2

/-- The scene list holds planes tested by `hits_plane`, any two of which are at
least `g` apart: for a list of two, two parallel planes a gap `g` apart. -/
def parallel_planes (s : State K) (scene : List Nat) (g : K) : Prop :=
  ∀ p ∈ scene, (s.heap p).hits = .hits_plane ∧
    ∀ q ∈ scene, q ≠ p → gap_apart (s.heap p) (s.heap q) g

/-- The accumulated distance that a log entry of a recursive `ray_trace` call
records. -/
def Call.nested_dist : Call K → Option K
  | .ray_trace _ _ total_dist _ => some total_dist
  | _ => none

/-- The accumulated distances passed to the recursive `ray_trace` calls of a
log, in call order. -/
def nested_dists (log : List (Call K)) : List K :=
  log.filterMap Call.nested_dist

end Termination

/-! ## veclib3d.c on a memory of doubles, and the mirror image -/

section InPlace

variable {K : Type} [LinearOrderedField K]

/-- The array of three doubles at address `a` of a memory of doubles. -/
def vec_at (mem : Nat → K) (a : Nat) : Vec K :=
  ⟨mem a, mem (a + 1), mem (a + 2)⟩

/-- Source `vec_scale3` on a memory of doubles: `v1` and `v2` are the addresses
of the input and the output array, which may be the same array; the loop is
unrolled, each pass reading `*(v1 + i)` after the stores of the passes before
it. -/
def vec_scale3_at (fact : K) (v1 v2 : Nat) (mem : Nat → K) : Nat → K :=
  let m0 := Function.update mem v2 (mem v1 * fact)
  let m1 := Function.update m0 (v2 + 1) (m0 (v1 + 1) * fact)
  Function.update m1 (v2 + 2) (m1 (v1 + 2) * fact)

/-- Source `vec_unit3` on a memory of doubles. -/
def vec_unit3_at (M : Libm K) (v1 v2 : Nat) (mem : Nat → K) : Nat → K :=
  if vec_length3 M (vec_at mem v1) = 0 then mem
  else vec_scale3_at (1 / vec_length3 M (vec_at mem v1)) v1 v2 mem

/-- The mirror image `d - 2 (d.n) n` of `d` about the plane with normal `n`. -/
def mirror (d n : Vec K) : Vec K :=
  ⟨d.x - 2 * vec_dot3 d n * n.x, d.y - 2 * vec_dot3 d n * n.y, d.z - 2 * vec_dot3 d n * n.z⟩

end InPlace

/-! ## projection.h, image.h, image.c -/

/-- Source `proj_t`. -/
structure proj_t (K : Type) where
  win_size_pixel : Int × Int
  win_size_world : K × K
  view_point : Vec K

section Image

variable {K : Type} [LinearOrderedField K]

/-- The constant `#define MAX_COLOR 255`. -/
def MAX_COLOR : K := 255

/-- Source `randpix`: `u` is the value of `(double)rand() / RAND_MAX`. -/
def randpix (x : Int) (u : K) : K :=
  (x : K) + (u - 1 / 2)

/-- Source `map_pix_to_world`: `ux` and `uy` are the values of
`(double)rand() / RAND_MAX` in the two calls of `randpix`. -/
def map_pix_to_world (proj : proj_t K) (x y : Int) (ux uy : K) : Vec K :=
  let rx := randpix x ux
  let ry := randpix y uy
  ⟨rx / ((proj.win_size_pixel.1 - 1 : Int) : K) * proj.win_size_world.1 -
      proj.win_size_world.1 / 2,
    ry / ((proj.win_size_pixel.2 - 1 : Int) : K) * proj.win_size_world.2 -
      proj.win_size_world.2 / 2,
    0⟩

/-- The body of the clamp loop of `make_pixel` for one channel. -/
def make_pixel_clamp (v : K) : K :=
  if v < 0 then 0 else if v > 1 then 1 else v

variable [FloorRing K]

/-- The body of the store loop of `make_pixel` for one channel: the conversion
of `*(ivec + i) * MAX_COLOR` to `unsigned char` discards the fraction (the C
conversion is defined for the values 0 to 255 only). -/
def make_pixel_store (v : K) : Int :=
  c_int (v * MAX_COLOR)

/-- The sampling loop of `make_pixel`: the list holds, for each of the
`AA_SAMPLES` passes, the two values of `(double)rand() / RAND_MAX`; `depth` is
the depth budget of each `ray_trace` call. -/
def make_pixel_loop (M : Libm K) (model : model_t) (proj : proj_t K) (depth : Nat) (x y : Int) :
    List (K × K) → State K → Vec K → Option (Vec K × State K)
  | [], s, total => some (total, s)
  | u :: rest, s, total =>
    let world := map_pix_to_world proj x y u.1 u.2
    let dir := vec_diff3 proj.view_point world
    let dir := vec_unit3 M dir dir
    match ray_trace M model depth s (.val proj.view_point) dir Vec.zero 0 none with
    | none => none
    | some (ivec, s1) =>
      make_pixel_loop M model proj depth x y rest s1 (vec_sum3 ivec total)

/-- Source `make_pixel`: returns the three bytes written to `pixval` and the
state after the call; `AA_SAMPLES` is the length of `samples`. -/
def make_pixel (M : Libm K) (model : model_t) (proj : proj_t K) (depth : Nat) (x y : Int)
    (samples : List (K × K)) (s : State K) : Option ((Int × Int × Int) × State K) :=
  match make_pixel_loop M model proj depth x y samples s Vec.zero with
  | none => none
  | some (total, s1) =>
    let ivec := vec_scale3 (1 / (samples.length : K)) total
    let ivec : Vec K := ⟨make_pixel_clamp ivec.x, make_pixel_clamp ivec.y, make_pixel_clamp ivec.z⟩
    some ((make_pixel_store ivec.x, make_pixel_store ivec.y, make_pixel_store ivec.z), s1)

end Image

/-! ## Derived notions for the calls of `ray_trace` -/

/-- The arguments of a `ray_trace` call that decide which calls it makes: the
state on entry, the ray and the accumulated distance. -/
structure call_t (K : Type) where
  s : State K
  base : Ref K
  dir : Vec K
  total_dist : K

section Calls

variable {K : Type} [LinearOrderedField K] [FloorRing K]

/-- The recursive call that `ray_trace` makes when it is entered with the
arguments `c`, if it makes one: the state in which the call is made (its log
entry included), the origin `closest->hitloc`, the reflected direction and the
accumulated distance `total_dist + mindist`. -/
def ray_trace_next (M : Libm K) (model : model_t) (c : call_t K) : Option (call_t K) :=
  if c.total_dist > MAX_DIST then none
  else
    let r := find_closest_obj M c.s model.scene c.base c.dir none
    match r.1 with
    | none => none
    | some closest =>
      let mindist := r.2.1
      let s1 := r.2.2
      let total_dist := c.total_dist + mindist
      let ivec := call_getamb M (s1.heap closest)
      let specref := call_getspec (s1.heap closest)
      let s2 : State K := ⟨s1.heap, s1.log ++ [Call.getamb closest, Call.getspec closest]⟩
      let d := diffuse_illumination M model s2 closest ivec
      let s3 := d.2
      if vec_dot3 specref specref > 0 then
        let norm := vec_unit3 M (s3.heap closest).normal Vec.zero
        let refdir := vec_reflect3 M c.dir norm Vec.zero
        let s4 : State K :=
          ⟨s3.heap,
           s3.log ++ [Call.ray_trace (s3.heap closest).hitloc refdir total_dist (some closest)]⟩
        some ⟨s4, .hitloc closest, refdir, total_dist⟩
      else none

/-- The call `c2` is reachable from the call `c1`: it is `c1` or a call made,
directly or through nested calls, while `c1` runs. -/
def ray_trace_reaches (M : Libm K) (model : model_t) (c1 c2 : call_t K) : Prop :=
  Relation.ReflTransGen (fun a b => ray_trace_next M model a = some b) c1 c2

end Calls

/-! ## Concrete scenes used to instantiate the statements -/

section Examples

variable {K : Type} [LinearOrderedField K]

/-- An object with every field zero and the default shading queries. -/
def ex_blank : obj_t K :=
  ⟨0, 0, .null, .hits_plane, .default_getamb, .default_getdiff, .default_getspec,
    ⟨Vec.zero, Vec.zero, Vec.zero⟩, Vec.zero, Vec.zero, Vec.zero⟩

/-- The plane through `(0, 0, z)` with normal `(0, 0, 1)`, as `plane_init` builds
it, with ambient and diffuse `(1, 1, 1)` and specular `(sp, sp, sp)`. -/
def ex_plane (z sp : K) : obj_t K :=
  { ex_blank with
    objtype := 14
    priv := .plane ⟨⟨0, 0, 1⟩, ⟨0, 0, z⟩, .null⟩
    hits := .hits_plane
    material := ⟨⟨1, 1, 1⟩, ⟨1, 1, 1⟩, ⟨sp, sp, sp⟩⟩ }

/-- The heap holding `o1` at pointer 1 and `o2` at pointer 2. -/
def ex_heap (o1 o2 : obj_t K) : Nat → obj_t K :=
  fun p => if p = 1 then o1 else if p = 2 then o2 else ex_blank

/-- Two planes with normal `(0, 0, 1)` through `(0, 0, z1)` and `(0, 0, z2)`,
at pointers 1 and 2, with specular `(sp, sp, sp)`, and an empty call log. -/
def ex_planes (z1 z2 sp : K) : State K :=
  ⟨ex_heap (ex_plane z1 sp) (ex_plane z2 sp), []⟩

/-- The sphere with the given center and radius, as `sphere_init` builds it,
with ambient and diffuse `(1, 1, 1)` and no specular reflectivity. -/
def ex_sphere (center : Vec K) (radius : K) : obj_t K :=
  { ex_blank with
    objtype := 13
    priv := .sphere ⟨center, radius⟩
    hits := .hits_sphere
    material := ⟨⟨1, 1, 1⟩, ⟨1, 1, 1⟩, Vec.zero⟩ }

/-- The finite plane `z = 0` with normal `(0, 0, 1)`, reference point the
origin, the coordinate axes as rows of the rotation matrix and sizes
`(sx, sy)`. -/
def ex_fplane (sx sy : K) : obj_t K :=
  { ex_blank with
    objtype := 15
    priv := .plane ⟨⟨0, 0, 1⟩, ⟨0, 0, 0⟩,
      .fplane ⟨⟨1, 0, 0⟩, (sx, sy), ⟨⟨1, 0, 0⟩, ⟨0, 1, 0⟩, ⟨0, 0, 1⟩⟩, (0, 0)⟩⟩
    hits := .hits_fplane
    material := ⟨⟨1, 1, 1⟩, ⟨1, 1, 1⟩, Vec.zero⟩ }

/-- The tiled plane `z = 0` with normal `(0, 0, 1)`, reference point the origin,
the coordinate axes as rows of the rotation matrix, tile sizes `(sx, sy)`, a
black background and recorded hit point `hit`. -/
def ex_tplane (sx sy : K) (hit : Vec K) : obj_t K :=
  { ex_blank with
    objtype := 16
    priv := .plane ⟨⟨0, 0, 1⟩, ⟨0, 0, 0⟩,
      .tplane ⟨⟨1, 0, 0⟩, (sx, sy), ⟨⟨1, 0, 0⟩, ⟨0, 1, 0⟩, ⟨0, 0, 1⟩⟩,
        ⟨Vec.zero, Vec.zero, Vec.zero⟩⟩⟩
    hits := .hits_plane
    getamb := .tp_amb
    getdiff := .tp_diff
    getspec := .tp_spec
    material := ⟨⟨1, 1, 1⟩, ⟨1, 1, 1⟩, Vec.zero⟩
    hitloc := hit }

/-- A new `fplane_t` block holding zeros. -/
def ex_raw_fplane : fplane_t K :=
  ⟨Vec.zero, (0, 0), ⟨Vec.zero, Vec.zero, Vec.zero⟩, (0, 0)⟩

/-- A new `tplane_t` block holding zeros. -/
def ex_raw_tplane : tplane_t K :=
  ⟨Vec.zero, (0, 0), ⟨Vec.zero, Vec.zero, Vec.zero⟩, ⟨Vec.zero, Vec.zero, Vec.zero⟩⟩


/-- A light at `center` with emissivity `(1, 1, 1)`, as `light_init` builds it. -/
def ex_light (center : Vec K) : obj_t K :=
  { ex_blank with
    objtype := 10
    priv := .light ⟨center⟩
    emissivity := ⟨1, 1, 1⟩ }

/-- The plane through the origin with normal `n`, ambient and diffuse
`(1, 1, 1)` and no specular reflectivity, holding the hit state that
`hits_plane` records for a hit at the origin. -/
def ex_shaded (n : Vec K) : obj_t K :=
  { ex_blank with
    objtype := 14
    priv := .plane ⟨n, ⟨0, 0, 0⟩, .null⟩
    hits := .hits_plane
    material := ⟨⟨1, 1, 1⟩, ⟨1, 1, 1⟩, Vec.zero⟩
    hitloc := ⟨0, 0, 0⟩
    normal := n }

/-- The state with the shaded plane of normal `n` at pointer 1, the plane
`z = z2` at pointer 2, a light at `center` at pointer 3 and an empty log. -/
def ex_lit (n : Vec K) (z2 : K) (center : Vec K) : State K :=
  ⟨fun p => if p = 1 then ex_shaded n else if p = 2 then ex_plane z2 0
    else if p = 3 then ex_light center else ex_blank, []⟩

/-- The sphere with center `(0, 0, -5)` and radius 1, as `sphere_init` builds
it, with ambient and diffuse `(1, 1, 1)` and specular `(sp, sp, sp)`. -/
def ex_ball (sp : K) : obj_t K :=
  { ex_sphere ⟨0, 0, -5⟩ 1 with material := ⟨⟨1, 1, 1⟩, ⟨1, 1, 1⟩, ⟨sp, sp, sp⟩⟩ }

/-- The state with the mirror sphere at pointer 1, the plane `z = -5` through
its center at pointer 2, and an empty call log. -/
def ex_ball_scene (sp : K) : State K :=
  ⟨ex_heap (ex_ball sp) (ex_plane (-5) 0), []⟩

end Examples

/-! # Theorems -/

/-! ## Lemmas on the intersection tests -/

theorem same_shape_refl {K : Type} (o : obj_t K) : same_shape o o :=
  ⟨rfl, rfl, rfl, rfl, rfl, rfl, rfl, rfl, rfl⟩

theorem same_shape_trans {K : Type} {o1 o2 o3 : obj_t K} (h1 : same_shape o1 o2)
    (h2 : same_shape o2 o3) : same_shape o1 o3 := by
  obtain ⟨a1, a2, a3, a4, a5, a6, a7, a8, a9⟩ := h1
  obtain ⟨b1, b2, b3, b4, b5, b6, b7, b8, b9⟩ := h2
  exact ⟨a1.trans b1, a2.trans b2, a3.trans b3, a4.trans b4, a5.trans b5, a6.trans b6,
    a7.trans b7, a8.trans b8, a9.trans b9⟩

theorem same_shape_symm {K : Type} {o1 o2 : obj_t K} (h : same_shape o1 o2) :
    same_shape o2 o1 := by
  obtain ⟨a1, a2, a3, a4, a5, a6, a7, a8, a9⟩ := h
  exact ⟨a1.symm, a2.symm, a3.symm, a4.symm, a5.symm, a6.symm, a7.symm, a8.symm, a9.symm⟩

section Lemmas

variable {K : Type} [LinearOrderedField K]

theorem hits_sphere_shape (M : Libm K) (b d : Vec K) (o : obj_t K) :
    same_shape (hits_sphere M b d o).2 o := by
  unfold hits_sphere
  simp only []
  split <;> exact same_shape_refl _

theorem hits_plane_shape (b d : Vec K) (o : obj_t K) :
    same_shape (hits_plane b d o).2 o := by
  unfold hits_plane
  simp only []
  split <;> exact same_shape_refl _

theorem hits_fplane_shape (b d : Vec K) (o : obj_t K) :
    same_shape (hits_fplane b d o).2 o := by
  unfold hits_fplane
  simp only []
  split
  · exact hits_plane_shape b d o
  · split
    · exact hits_plane_shape b d o
    · split <;> exact hits_plane_shape b d o

/-- An intersection test writes no field other than `hitloc` and `normal`. -/
theorem call_hits_shape (M : Libm K) (b d : Vec K) (o : obj_t K) :
    same_shape (call_hits M b d o).2 o := by
  unfold call_hits
  split
  · exact hits_sphere_shape M b d o
  · exact hits_plane_shape b d o
  · exact hits_fplane_shape b d o

theorem hits_sphere_dist_congr (M : Libm K) (b d : Vec K) {o1 o2 : obj_t K}
    (h : o1.priv = o2.priv) : (hits_sphere M b d o1).1 = (hits_sphere M b d o2).1 := by
  unfold hits_sphere
  simp only [h]
  split <;> rfl

theorem hits_plane_dist_congr (b d : Vec K) {o1 o2 : obj_t K}
    (h : o1.priv = o2.priv) : (hits_plane b d o1).1 = (hits_plane b d o2).1 := by
  unfold hits_plane
  simp only [h]
  split <;> rfl

theorem hits_plane_hitloc_congr (b d : Vec K) {o1 o2 : obj_t K}
    (h : o1.priv = o2.priv) (hhit : ¬ (hits_plane b d o1).1 < 0) :
    (hits_plane b d o1).2.hitloc = (hits_plane b d o2).2.hitloc := by
  unfold hits_plane at hhit ⊢
  simp only [h] at hhit ⊢
  split
  · rename_i hc
    rw [if_pos hc] at hhit
    exact absurd (by simp [MISS]) hhit
  · rfl

theorem hits_fplane_dist (b d : Vec K) (o : obj_t K) :
    (hits_fplane b d o).1 =
      if (hits_plane b d o).1 < 0 then (hits_plane b d o).1
      else
        let hitloc := mat_xform3 o.priv.as_plane.priv.as_fplane.rotmat
          (vec_diff3 o.priv.as_plane.point (hits_plane b d o).2.hitloc)
        if hitloc.x > o.priv.as_plane.priv.as_fplane.size.1 ∨ hitloc.x < 0 then MISS
        else if hitloc.y > o.priv.as_plane.priv.as_fplane.size.2 ∨ hitloc.y < 0 then MISS
        else (hits_plane b d o).1 := by
  unfold hits_fplane
  simp only []
  split_ifs <;> rfl

theorem hits_fplane_dist_congr (b d : Vec K) {o1 o2 : obj_t K}
    (h : o1.priv = o2.priv) : (hits_fplane b d o1).1 = (hits_fplane b d o2).1 := by
  have h1 := hits_plane_dist_congr b d h
  rw [hits_fplane_dist, hits_fplane_dist, ← h1, ← h]
  by_cases hm : (hits_plane b d o1).1 < 0
  · simp only [hm, if_true]
  · simp only [hm, if_false, ← hits_plane_hitloc_congr b d h hm]

/-- The distance an intersection test returns depends on the object only
through its private data and its `hits` pointer. -/
theorem call_hits_dist_congr (M : Libm K) (b d : Vec K) {o1 o2 : obj_t K}
    (h : same_shape o1 o2) : (call_hits M b d o1).1 = (call_hits M b d o2).1 := by
  obtain ⟨-, -, hp, hh, -⟩ := h
  unfold call_hits
  rw [hh]
  split
  · exact hits_sphere_dist_congr M b d hp
  · exact hits_plane_dist_congr b d hp
  · exact hits_fplane_dist_congr b d hp

end Lemmas

/-! ## Lemmas on `find_closest_obj` -/

section Closest

variable {K : Type} [LinearOrderedField K]

theorem hit_dist_congr (M : Libm K) {s1 s2 : State K} (base : Ref K) (dir : Vec K)
    (hr : base.read s1 = base.read s2) (hs : ∀ p, same_shape (s1.heap p) (s2.heap p)) :
    hit_dist M s1 base dir = hit_dist M s2 base dir := by
  funext p
  unfold hit_dist
  rw [hr]
  exact call_hits_dist_congr M _ _ (hs p)

omit [LinearOrderedField K] in
theorem untested_tail {base : Ref K} {lh : Option Nat} {p : Nat} {l : List Nat}
    (h : base.untested lh (p :: l)) : base.untested lh l := by
  cases base with
  | val v => trivial
  | hitloc q =>
    rcases h with h | h
    · exact Or.inl h
    · exact Or.inr (fun hq => h (List.mem_cons_of_mem _ hq))

omit [LinearOrderedField K] in
theorem read_update {base : Ref K} {lh : Option Nat} {p : Nat} {l : List Nat}
    (h : base.untested lh (p :: l)) (hp : some p ≠ lh) (s : State K) (o : obj_t K)
    (lg : List (Call K)) :
    base.read ⟨Function.update s.heap p o, lg⟩ = base.read s := by
  cases base with
  | val v => rfl
  | hitloc q =>
    have hqp : q ≠ p := by
      rintro rfl
      rcases h with h | h
      · exact hp h
      · exact h (List.mem_cons_self _ _)
    simp [Ref.read, Function.update_noteq hqp]

theorem update_shape (M : Libm K) (s : State K) (b d : Vec K) (p q : Nat) :
    same_shape (Function.update s.heap p (call_hits M b d (s.heap p)).2 q) (s.heap q) := by
  by_cases h : q = p
  · subst h
    rw [Function.update_same]
    exact call_hits_shape M b d _
  · rw [Function.update_noteq h]
    exact same_shape_refl _

theorem find_closest_loop_skip (M : Libm K) (base : Ref K) (dir : Vec K) {lh : Option Nat}
    {p : Nat} (hp : ¬ some p ≠ lh) (l : List Nat) (s : State K) (c : Option Nat) (m : K) :
    find_closest_loop M base dir lh (p :: l) s c m = find_closest_loop M base dir lh l s c m := by
  simp only [find_closest_loop, if_neg hp]

theorem find_closest_loop_take (M : Libm K) (base : Ref K) (dir : Vec K) {lh : Option Nat}
    {p : Nat} (hp : some p ≠ lh) (l : List Nat) (s : State K) (c : Option Nat) (m : K)
    (hc : hit_dist M s base dir p < m ∧ hit_dist M s base dir p > 0) :
    find_closest_loop M base dir lh (p :: l) s c m =
      find_closest_loop M base dir lh l
        ⟨Function.update s.heap p (call_hits M (base.read s) dir (s.heap p)).2,
          s.log ++ [Call.hits p (base.read s) dir]⟩ (some p) (hit_dist M s base dir p) := by
  unfold hit_dist at hc ⊢
  simp only [find_closest_loop, if_pos hp, if_pos hc]

theorem find_closest_loop_keep (M : Libm K) (base : Ref K) (dir : Vec K) {lh : Option Nat}
    {p : Nat} (hp : some p ≠ lh) (l : List Nat) (s : State K) (c : Option Nat) (m : K)
    (hc : ¬ (hit_dist M s base dir p < m ∧ hit_dist M s base dir p > 0)) :
    find_closest_loop M base dir lh (p :: l) s c m =
      find_closest_loop M base dir lh l
        ⟨Function.update s.heap p (call_hits M (base.read s) dir (s.heap p)).2,
          s.log ++ [Call.hits p (base.read s) dir]⟩ c m := by
  unfold hit_dist at hc
  simp only [find_closest_loop, if_pos hp, if_neg hc]

/-- With an origin that the query does not overwrite, the loop selects what
`closest_scan` selects from the hit distances in the initial state. -/
theorem find_closest_loop_scan (M : Libm K) (base : Ref K) (dir : Vec K) (lh : Option Nat) :
    ∀ (l : List Nat) (s : State K) (c : Option Nat) (m : K), base.untested lh l →
      ((find_closest_loop M base dir lh l s c m).1,
        (find_closest_loop M base dir lh l s c m).2.1) =
      closest_scan (hit_dist M s base dir) lh l c m := by
  intro l
  induction l with
  | nil => intro s c m _; rfl
  | cons p l ih =>
    intro s c m hu
    have hu2 := untested_tail hu
    by_cases hp : some p ≠ lh
    · have hcg := hit_dist_congr M base dir
        (read_update hu hp s (call_hits M (base.read s) dir (s.heap p)).2
          (s.log ++ [Call.hits p (base.read s) dir]))
        (fun q => update_shape M s (base.read s) dir p q)
      by_cases hc : hit_dist M s base dir p < m ∧ hit_dist M s base dir p > 0
      · rw [find_closest_loop_take M base dir hp l s c m hc, ih _ _ _ hu2, hcg]
        conv_rhs => rw [closest_scan, if_pos hp, if_pos hc]
      · rw [find_closest_loop_keep M base dir hp l s c m hc, ih _ _ _ hu2, hcg]
        conv_rhs => rw [closest_scan, if_pos hp, if_neg hc]
    · rw [find_closest_loop_skip M base dir hp l s c m, ih _ _ _ hu2]
      conv_rhs => rw [closest_scan, if_neg hp]

/-- What the loop does to the state, and where its answer comes from. -/
theorem find_closest_loop_frame (M : Libm K) (base : Ref K) (dir : Vec K) (lh : Option Nat) :
    ∀ (l : List Nat) (s : State K) (c : Option Nat) (m : K),
      (∀ p, same_shape ((find_closest_loop M base dir lh l s c m).2.2.heap p) (s.heap p)) ∧
      (∀ p, (p ∉ l ∨ some p = lh) →
        (find_closest_loop M base dir lh l s c m).2.2.heap p = s.heap p) ∧
      (∃ new, (find_closest_loop M base dir lh l s c m).2.2.log = s.log ++ new ∧
        (∀ e ∈ new, ∃ p, e.tested = some p ∧ p ∈ l ∧ some p ≠ lh) ∧
        (∀ p ∈ l, some p ≠ lh → ∃ e ∈ new, e.tested = some p)) ∧
      ((find_closest_loop M base dir lh l s c m).1 = c ∨
        ∃ p ∈ l, some p ≠ lh ∧ (find_closest_loop M base dir lh l s c m).1 = some p) := by
  intro l
  induction l with
  | nil =>
    intro s c m
    refine ⟨fun p => same_shape_refl _, fun p _ => rfl, ⟨[], by simp [find_closest_loop], ?_, ?_⟩,
      Or.inl rfl⟩
    · intro e he; simp at he
    · intro p hp; simp at hp
  | cons p l ih =>
    intro s c m
    by_cases hp : some p ≠ lh
    ·
      have key : ∀ (c2 : Option Nat) (m2 : K), (c2 = c ∨ c2 = some p) →
          (∀ q, same_shape ((find_closest_loop M base dir lh l
              ⟨Function.update s.heap p (call_hits M (base.read s) dir (s.heap p)).2,
                s.log ++ [Call.hits p (base.read s) dir]⟩ c2 m2).2.2.heap q) (s.heap q)) ∧
          (∀ q, (q ∉ p :: l ∨ some q = lh) →
            (find_closest_loop M base dir lh l
              ⟨Function.update s.heap p (call_hits M (base.read s) dir (s.heap p)).2,
                s.log ++ [Call.hits p (base.read s) dir]⟩ c2 m2).2.2.heap q = s.heap q) ∧
          (∃ new, (find_closest_loop M base dir lh l
              ⟨Function.update s.heap p (call_hits M (base.read s) dir (s.heap p)).2,
                s.log ++ [Call.hits p (base.read s) dir]⟩ c2 m2).2.2.log = s.log ++ new ∧
            (∀ e ∈ new, ∃ q, e.tested = some q ∧ q ∈ p :: l ∧ some q ≠ lh) ∧
            (∀ q ∈ p :: l, some q ≠ lh → ∃ e ∈ new, e.tested = some q)) ∧
          ((find_closest_loop M base dir lh l
              ⟨Function.update s.heap p (call_hits M (base.read s) dir (s.heap p)).2,
                s.log ++ [Call.hits p (base.read s) dir]⟩ c2 m2).1 = c ∨
            ∃ q ∈ p :: l, some q ≠ lh ∧ (find_closest_loop M base dir lh l
              ⟨Function.update s.heap p (call_hits M (base.read s) dir (s.heap p)).2,
                s.log ++ [Call.hits p (base.read s) dir]⟩ c2 m2).1 = some q) := by
        intro c2 m2 hc2
        obtain ⟨h1, h2, ⟨new, h3, h4, h5⟩, h6⟩ := ih
          ⟨Function.update s.heap p (call_hits M (base.read s) dir (s.heap p)).2,
            s.log ++ [Call.hits p (base.read s) dir]⟩ c2 m2
        refine ⟨fun q => same_shape_trans (h1 q) (update_shape M s _ dir p q), ?_, ?_, ?_⟩
        · intro q hq
          have hqp : q ≠ p := by
            rintro rfl
            rcases hq with hq | hq
            · exact hq (List.mem_cons_self _ _)
            · exact hp hq
          have hq2 : q ∉ l ∨ some q = lh := by
            rcases hq with hq | hq
            · exact Or.inl (fun h => hq (List.mem_cons_of_mem _ h))
            · exact Or.inr hq
          rw [h2 q hq2]
          exact Function.update_noteq hqp _ _
        · refine ⟨Call.hits p (base.read s) dir :: new, ?_, ?_, ?_⟩
          · rw [h3]; simp
          · intro e he
            rcases List.mem_cons.mp he with rfl | he
            · exact ⟨p, rfl, List.mem_cons_self _ _, hp⟩
            · obtain ⟨q, hq1, hq2, hq3⟩ := h4 e he
              exact ⟨q, hq1, List.mem_cons_of_mem _ hq2, hq3⟩
          · intro q hq hql
            rcases List.mem_cons.mp hq with rfl | hq
            · exact ⟨_, List.mem_cons_self _ _, rfl⟩
            · obtain ⟨e, he1, he2⟩ := h5 q hq hql
              exact ⟨e, List.mem_cons_of_mem _ he1, he2⟩
        · rcases h6 with h6 | ⟨q, hq1, hq2, hq3⟩
          · rcases hc2 with rfl | rfl
            · exact Or.inl h6
            · exact Or.inr ⟨p, List.mem_cons_self _ _, hp, h6⟩
          · exact Or.inr ⟨q, List.mem_cons_of_mem _ hq1, hq2, hq3⟩
      by_cases hc : hit_dist M s base dir p < m ∧ hit_dist M s base dir p > 0
      · rw [find_closest_loop_take M base dir hp l s c m hc]
        exact key _ _ (Or.inr rfl)
      · rw [find_closest_loop_keep M base dir hp l s c m hc]
        exact key _ _ (Or.inl rfl)
    · rw [find_closest_loop_skip M base dir hp l s c m]
      obtain ⟨h1, h2, ⟨new, h3, h4, h5⟩, h6⟩ := ih s c m
      refine ⟨h1, ?_, ⟨new, h3, ?_, ?_⟩, ?_⟩
      · intro q hq
        by_cases hqp : q = p
        · subst hqp
          exact h2 q (Or.inr (not_not.mp hp))
        · apply h2 q
          rcases hq with hq | hq
          · exact Or.inl (fun h => hq (List.mem_cons_of_mem _ h))
          · exact Or.inr hq
      · intro e he
        obtain ⟨q, hq1, hq2, hq3⟩ := h4 e he
        exact ⟨q, hq1, List.mem_cons_of_mem _ hq2, hq3⟩
      · intro q hq hql
        rcases List.mem_cons.mp hq with rfl | hq
        · exact absurd hql hp
        · exact h5 q hq hql
      · rcases h6 with h6 | ⟨q, hq1, hq2, hq3⟩
        · exact Or.inl h6
        · exact Or.inr ⟨q, List.mem_cons_of_mem _ hq1, hq2, hq3⟩

end Closest

section Scan

variable {K : Type} [LinearOrderedField K]

/-- What `closest_scan` selects: either nothing new, and then no candidate lies
below `m`, or the first of the candidates of least distance below `m`. -/
theorem closest_scan_spec (hd : Nat → K) (lh : Option Nat) :
    ∀ (l : List Nat) (c : Option Nat) (m : K),
      (closest_scan hd lh l c m = (c, m) ∧ ∀ q ∈ l, some q ≠ lh → 0 < hd q → m ≤ hd q) ∨
      (∃ pre p post, l = pre ++ p :: post ∧ closest_scan hd lh l c m = (some p, hd p) ∧
        some p ≠ lh ∧ 0 < hd p ∧ hd p < m ∧
        (∀ q ∈ pre, some q ≠ lh → 0 < hd q → hd p < hd q) ∧
        (∀ q ∈ post, some q ≠ lh → 0 < hd q → hd p ≤ hd q)) := by
  intro l
  induction l with
  | nil =>
    intro c m
    exact Or.inl ⟨rfl, fun q hq => absurd hq (List.not_mem_nil q)⟩
  | cons a l ih =>
    intro c m
    by_cases hc : some a ≠ lh ∧ hd a < m ∧ hd a > 0
    · obtain ⟨ha, ham, ha0⟩ := hc
      have hstep : closest_scan hd lh (a :: l) c m = closest_scan hd lh l (some a) (hd a) := by
        conv_lhs => rw [closest_scan, if_pos ha, if_pos ⟨ham, ha0⟩]
      rw [hstep]
      rcases ih (some a) (hd a) with ⟨h1, h2⟩ | ⟨pre, p, post, h1, h2, h3, h4, h5, h6, h7⟩
      · exact Or.inr ⟨[], a, l, rfl, h1, ha, ha0, ham, fun q hq => absurd hq (List.not_mem_nil q),
          h2⟩
      · refine Or.inr ⟨a :: pre, p, post, by rw [h1]; rfl, h2, h3, h4, lt_trans h5 ham, ?_, h7⟩
        intro q hq hq1 hq2
        rcases List.mem_cons.mp hq with rfl | hq
        · exact h5
        · exact h6 q hq hq1 hq2
    · have hstep : closest_scan hd lh (a :: l) c m = closest_scan hd lh l c m := by
        by_cases ha : some a ≠ lh
        · have : ¬ (hd a < m ∧ hd a > 0) := fun h => hc ⟨ha, h.1, h.2⟩
          conv_lhs => rw [closest_scan, if_pos ha, if_neg this]
        · conv_lhs => rw [closest_scan, if_neg ha]
      rw [hstep]
      have hma : some a ≠ lh → 0 < hd a → m ≤ hd a := by
        intro h1 h2
        by_contra h3
        exact hc ⟨h1, not_le.mp h3, h2⟩
      rcases ih c m with ⟨h1, h2⟩ | ⟨pre, p, post, h1, h2, h3, h4, h5, h6, h7⟩
      · refine Or.inl ⟨h1, ?_⟩
        intro q hq hq1 hq2
        rcases List.mem_cons.mp hq with rfl | hq
        · exact hma hq1 hq2
        · exact h2 q hq hq1 hq2
      · refine Or.inr ⟨a :: pre, p, post, by rw [h1]; rfl, h2, h3, h4, h5, ?_, h7⟩
        intro q hq hq1 hq2
        rcases List.mem_cons.mp hq with rfl | hq
        · exact lt_of_lt_of_le h5 (hma hq1 hq2)
        · exact h6 q hq hq1 hq2

/-- The answer of `find_closest_obj` for an origin that the query does not
overwrite: nothing, when no tested surface has a hit distance in
`(0, INT_MAX)`, and otherwise the first surface of least such distance. -/
theorem find_closest_obj_char (M : Libm K) (s : State K) (scene : List Nat) (base : Ref K)
    (dir : Vec K) (lh : Option Nat) (hb : base.untested lh scene) :
    ((find_closest_obj M s scene base dir lh).1 = none ∧
      (find_closest_obj M s scene base dir lh).2.1 = INT_MAX ∧
      ∀ q ∈ scene, some q ≠ lh → 0 < hit_dist M s base dir q →
        INT_MAX ≤ hit_dist M s base dir q) ∨
    (∃ pre p post, scene = pre ++ p :: post ∧
      (find_closest_obj M s scene base dir lh).1 = some p ∧
      (find_closest_obj M s scene base dir lh).2.1 = hit_dist M s base dir p ∧
      some p ≠ lh ∧ 0 < hit_dist M s base dir p ∧ hit_dist M s base dir p < INT_MAX ∧
      (∀ q ∈ pre, some q ≠ lh → 0 < hit_dist M s base dir q →
        hit_dist M s base dir p < hit_dist M s base dir q) ∧
      (∀ q ∈ post, some q ≠ lh → 0 < hit_dist M s base dir q →
        hit_dist M s base dir p ≤ hit_dist M s base dir q)) := by
  have hscan := find_closest_loop_scan M base dir lh scene s none INT_MAX hb
  unfold find_closest_obj
  rcases closest_scan_spec (hit_dist M s base dir) lh scene none INT_MAX with
    ⟨h1, h2⟩ | ⟨pre, p, post, h1, h2, h3, h4, h5, h6, h7⟩
  · rw [h1] at hscan
    have ha := congrArg Prod.fst hscan
    have hb2 := congrArg Prod.snd hscan
    exact Or.inl ⟨ha, hb2, h2⟩
  · rw [h2] at hscan
    have ha := congrArg Prod.fst hscan
    have hb2 := congrArg Prod.snd hscan
    exact Or.inr ⟨pre, p, post, h1, ha, hb2, h3, h4, h5, h6, h7⟩

end Scan

/-! ## Claims on `find_closest_obj` -/

section ClosestClaims

variable {K : Type} [LinearOrderedField K]

/-- The answer of `find_closest_obj` in terms of membership alone. -/
theorem find_closest_obj_min (M : Libm K) (s : State K) (scene : List Nat) (base : Ref K)
    (dir : Vec K) (lh : Option Nat) (hb : base.untested lh scene) :
    ((find_closest_obj M s scene base dir lh).1 = none ∧
      (find_closest_obj M s scene base dir lh).2.1 = INT_MAX ∧
      ∀ q ∈ scene, some q ≠ lh → 0 < hit_dist M s base dir q →
        INT_MAX ≤ hit_dist M s base dir q) ∨
    (∃ p ∈ scene, (find_closest_obj M s scene base dir lh).1 = some p ∧
      (find_closest_obj M s scene base dir lh).2.1 = hit_dist M s base dir p ∧
      some p ≠ lh ∧ 0 < hit_dist M s base dir p ∧ hit_dist M s base dir p < INT_MAX ∧
      ∀ q ∈ scene, some q ≠ lh → 0 < hit_dist M s base dir q →
        hit_dist M s base dir p ≤ hit_dist M s base dir q) := by
  rcases find_closest_obj_char M s scene base dir lh hb with
    h | ⟨pre, p, post, h1, h2, h3, h4, h5, h6, h7, h8⟩
  · exact Or.inl h
  · have hmem : p ∈ scene := by rw [h1]; simp
    refine Or.inr ⟨p, hmem, h2, h3, h4, h5, h6, ?_⟩
    intro q hq hql hq0
    rw [h1] at hq
    rcases List.mem_append.mp hq with hq | hq
    · exact le_of_lt (h7 q hq hql hq0)
    · rcases List.mem_cons.mp hq with rfl | hq
      · exact le_refl _
      · exact h8 q hq hql hq0

/-- What `find_closest_obj` does to the state, and where its answer comes from. -/
theorem find_closest_obj_frame (M : Libm K) (s : State K) (scene : List Nat) (base : Ref K)
    (dir : Vec K) (lh : Option Nat) :
    (∀ p, same_shape ((find_closest_obj M s scene base dir lh).2.2.heap p) (s.heap p)) ∧
    (∀ p, (p ∉ scene ∨ some p = lh) →
      (find_closest_obj M s scene base dir lh).2.2.heap p = s.heap p) ∧
    (∃ new, (find_closest_obj M s scene base dir lh).2.2.log = s.log ++ new ∧
      (∀ e ∈ new, ∃ p, e.tested = some p ∧ p ∈ scene ∧ some p ≠ lh) ∧
      (∀ p ∈ scene, some p ≠ lh → ∃ e ∈ new, e.tested = some p)) ∧
    ((find_closest_obj M s scene base dir lh).1 = none ∨
      ∃ p ∈ scene, some p ≠ lh ∧ (find_closest_obj M s scene base dir lh).1 = some p) :=
  find_closest_loop_frame M base dir lh scene s none INT_MAX

/-- C9.  For every scene, ray and non-NULL `last_hit`, `find_closest_obj` never
returns `last_hit` and never runs the intersection test of `last_hit`: no entry
that the query appends to the call log is a test of `last_hit`, the object
`last_hit` is the same after the query as before it, and so are its recorded
hit point and normal (a ray origin that points at that hit point still reads
the same value). -/
theorem find_closest_obj_skips_last_hit (M : Libm K) (s : State K) (scene : List Nat)
    (base : Ref K) (dir : Vec K) (last_hit : Nat) :
    (find_closest_obj M s scene base dir (some last_hit)).1 ≠ some last_hit ∧
    (∃ new, (find_closest_obj M s scene base dir (some last_hit)).2.2.log = s.log ++ new ∧
      ∀ e ∈ new, e.tested ≠ some last_hit) ∧
    (find_closest_obj M s scene base dir (some last_hit)).2.2.heap last_hit = s.heap last_hit ∧
    ((find_closest_obj M s scene base dir (some last_hit)).2.2.heap last_hit).hitloc =
      (s.heap last_hit).hitloc ∧
    ((find_closest_obj M s scene base dir (some last_hit)).2.2.heap last_hit).normal =
      (s.heap last_hit).normal ∧
    Ref.read (find_closest_obj M s scene base dir (some last_hit)).2.2 (Ref.hitloc last_hit) =
      Ref.read s (Ref.hitloc last_hit) := by
  obtain ⟨-, h2, ⟨new, h3, h4, -⟩, h5⟩ :=
    find_closest_obj_frame M s scene base dir (some last_hit)
  have hq := h2 last_hit (Or.inr rfl)
  refine ⟨?_, ⟨new, h3, ?_⟩, hq, by rw [hq], by rw [hq], ?_⟩
  · rcases h5 with h5 | ⟨p, -, hp, h5⟩
    · rw [h5]
      simp
    · rw [h5]
      exact hp
  · intro e he
    obtain ⟨p, hp1, -, hp3⟩ := h4 e he
    rw [hp1]
    exact hp3
  · show ((find_closest_obj M s scene base dir (some last_hit)).2.2.heap last_hit).hitloc = _
    rw [hq]
    rfl

end ClosestClaims

/-! ### Instances of the claims on `find_closest_obj` -/

section ClosestInstances

end ClosestInstances

/-! ## Lemmas on `process_light` and `diffuse_illumination` -/

theorem log_ext_refl {K : Type} (P : Call K → Prop) (s : State K) : log_ext P s s :=
  ⟨[], by simp, fun e he => absurd he (List.not_mem_nil e)⟩

theorem log_ext_trans {K : Type} {P : Call K → Prop} {s1 s2 s3 : State K}
    (h1 : log_ext P s1 s2) (h2 : log_ext P s2 s3) : log_ext P s1 s3 := by
  obtain ⟨n1, e1, p1⟩ := h1
  obtain ⟨n2, e2, p2⟩ := h2
  refine ⟨n1 ++ n2, by rw [e2, e1, List.append_assoc], ?_⟩
  intro e he
  rcases List.mem_append.mp he with he | he
  · exact p1 e he
  · exact p2 e he

theorem log_ext_mono {K : Type} {P Q : Call K → Prop} {s1 s2 : State K}
    (h : ∀ e, P e → Q e) (h1 : log_ext P s1 s2) : log_ext Q s1 s2 := by
  obtain ⟨n1, e1, p1⟩ := h1
  exact ⟨n1, e1, fun e he => h e (p1 e he)⟩

theorem log_ext_push {K : Type} {P : Call K → Prop} (s : State K) (new : List (Call K))
    (h : ∀ e ∈ new, P e) : log_ext P s ⟨s.heap, s.log ++ new⟩ :=
  ⟨new, rfl, h⟩

section Light

variable {K : Type} [LinearOrderedField K] [FloorRing K]

omit [FloorRing K] in
theorem vec_sum3_zero_left (v : Vec K) : vec_sum3 Vec.zero v = v := by
  simp [vec_sum3, Vec.zero]

omit [FloorRing K] in
theorem vec_sum3_zero_right (v : Vec K) : vec_sum3 v Vec.zero = v := by
  simp [vec_sum3, Vec.zero]

omit [FloorRing K] in
theorem vec_sum3_assoc (u v w : Vec K) :
    vec_sum3 (vec_sum3 u v) w = vec_sum3 u (vec_sum3 v w) := by
  simp [vec_sum3, add_assoc]

/-- The state and the result code of `process_light` do not depend on the
accumulator, and the accumulator is changed by adding a vector that does not
depend on it. -/
theorem process_light_acc (M : Libm K) (s : State K) (lst : List Nat) (hitobj lightobj : Nat)
    (ivec : Vec K) :
    (process_light M s lst hitobj lightobj ivec).1 =
      (process_light M s lst hitobj lightobj Vec.zero).1 ∧
    (process_light M s lst hitobj lightobj ivec).2.1 =
      vec_sum3 ivec (process_light M s lst hitobj lightobj Vec.zero).2.1 ∧
    (process_light M s lst hitobj lightobj ivec).2.2 =
      (process_light M s lst hitobj lightobj Vec.zero).2.2 := by
  unfold process_light
  simp only []
  split_ifs
  · exact ⟨rfl, (vec_sum3_zero_right ivec).symm, rfl⟩
  · exact ⟨rfl, (vec_sum3_zero_right ivec).symm, rfl⟩
  · refine ⟨rfl, ?_, rfl⟩
    simp [vec_sum3, Vec.zero]

/-- What `process_light` does to the state: the shaded object is untouched, no
object changes shape, and the log grows by intersection tests of other
objects and shading queries only. -/
theorem process_light_frame (M : Libm K) (s : State K) (lst : List Nat) (hitobj lightobj : Nat)
    (ivec : Vec K) :
    (∀ p, same_shape ((process_light M s lst hitobj lightobj ivec).2.2.heap p) (s.heap p)) ∧
    (process_light M s lst hitobj lightobj ivec).2.2.heap hitobj = s.heap hitobj ∧
    log_ext (fun e => e.is_ray_trace = false ∧ e.tested ≠ some hitobj) s
      (process_light M s lst hitobj lightobj ivec).2.2 := by
  obtain ⟨h1, h2, ⟨new, h3, h4, -⟩, -⟩ :=
    find_closest_obj_frame M s lst (Ref.hitloc hitobj)
      (vec_unit3 M (vec_diff3 (s.heap hitobj).hitloc (s.heap lightobj).priv.as_light.center)
        (vec_diff3 (s.heap hitobj).hitloc (s.heap lightobj).priv.as_light.center)) (some hitobj)
  have hlog : log_ext (fun e => e.is_ray_trace = false ∧ e.tested ≠ some hitobj) s
      (find_closest_obj M s lst (Ref.hitloc hitobj)
      (vec_unit3 M (vec_diff3 (s.heap hitobj).hitloc (s.heap lightobj).priv.as_light.center)
        (vec_diff3 (s.heap hitobj).hitloc (s.heap lightobj).priv.as_light.center))
        (some hitobj)).2.2 := by
    refine ⟨new, h3, ?_⟩
    intro e he
    obtain ⟨p, hp1, -, hp3⟩ := h4 e he
    refine ⟨?_, by rw [hp1]; exact hp3⟩
    cases e with
    | hits => rfl
    | _ => simp [Call.tested] at hp1
  unfold process_light
  simp only []
  split_ifs
  · exact ⟨fun p => same_shape_refl _, rfl, log_ext_refl _ _⟩
  · exact ⟨h1, h2 hitobj (Or.inr rfl), hlog⟩
  · refine ⟨h1, h2 hitobj (Or.inr rfl), log_ext_trans hlog (log_ext_push _ _ ?_)⟩
    intro e he
    simp only [List.mem_singleton] at he
    subst he
    exact ⟨rfl, by simp [Call.tested]⟩

/-- The accumulator lemma for the loop of `diffuse_illumination`. -/
theorem diffuse_illumination_loop_acc (M : Libm K) (scene : List Nat) (hitobj : Nat) :
    ∀ (lights : List Nat) (s : State K) (ivec : Vec K),
      (diffuse_illumination_loop M scene hitobj lights s ivec).1 =
        vec_sum3 ivec (diffuse_illumination_loop M scene hitobj lights s Vec.zero).1 ∧
      (diffuse_illumination_loop M scene hitobj lights s ivec).2 =
        (diffuse_illumination_loop M scene hitobj lights s Vec.zero).2 := by
  intro lights
  induction lights with
  | nil =>
    intro s ivec
    exact ⟨(vec_sum3_zero_right ivec).symm, rfl⟩
  | cons l cursor ih =>
    intro s ivec
    simp only [diffuse_illumination_loop]
    obtain ⟨-, a2, a3⟩ := process_light_acc M
      ⟨s.heap, s.log ++ [Call.process_light hitobj l]⟩ scene hitobj l ivec
    rw [a2, a3]
    obtain ⟨b1, b2⟩ := ih (process_light M ⟨s.heap, s.log ++ [Call.process_light hitobj l]⟩
      scene hitobj l Vec.zero).2.2
      (vec_sum3 ivec (process_light M ⟨s.heap, s.log ++ [Call.process_light hitobj l]⟩
        scene hitobj l Vec.zero).2.1)
    obtain ⟨c1, c2⟩ := ih (process_light M ⟨s.heap, s.log ++ [Call.process_light hitobj l]⟩
      scene hitobj l Vec.zero).2.2
      (process_light M ⟨s.heap, s.log ++ [Call.process_light hitobj l]⟩
        scene hitobj l Vec.zero).2.1
    rw [b1, b2, c1, c2, vec_sum3_assoc]
    exact ⟨rfl, rfl⟩

/-- The frame lemma for the loop of `diffuse_illumination`. -/
theorem diffuse_illumination_loop_frame (M : Libm K) (scene : List Nat) (hitobj : Nat) :
    ∀ (lights : List Nat) (s : State K) (ivec : Vec K),
      (∀ p, same_shape ((diffuse_illumination_loop M scene hitobj lights s ivec).2.heap p)
        (s.heap p)) ∧
      (diffuse_illumination_loop M scene hitobj lights s ivec).2.heap hitobj = s.heap hitobj ∧
      log_ext (fun e => e.is_ray_trace = false ∧ e.tested ≠ some hitobj) s
        (diffuse_illumination_loop M scene hitobj lights s ivec).2 := by
  intro lights
  induction lights with
  | nil =>
    intro s ivec
    exact ⟨fun p => same_shape_refl _, rfl, log_ext_refl _ _⟩
  | cons l cursor ih =>
    intro s ivec
    simp only [diffuse_illumination_loop]
    obtain ⟨a1, a2, a3⟩ := process_light_frame M
      ⟨s.heap, s.log ++ [Call.process_light hitobj l]⟩ scene hitobj l ivec
    obtain ⟨b1, b2, b3⟩ := ih (process_light M ⟨s.heap, s.log ++ [Call.process_light hitobj l]⟩
      scene hitobj l ivec).2.2
      (process_light M ⟨s.heap, s.log ++ [Call.process_light hitobj l]⟩
        scene hitobj l ivec).2.1
    refine ⟨fun p => same_shape_trans (b1 p) (a1 p), by rw [b2, a2], ?_⟩
    refine log_ext_trans (log_ext_trans (log_ext_push s [Call.process_light hitobj l] ?_) a3) b3
    intro e he
    simp only [List.mem_singleton] at he
    subst he
    exact ⟨rfl, by simp [Call.tested]⟩

end Light

/-! ## Lemmas on `ray_trace` -/

section TraceLemmas

variable {K : Type} [LinearOrderedField K] [FloorRing K]

omit [FloorRing K] in
/-- The loop only ever stores a strictly positive distance. -/
theorem find_closest_loop_pos (M : Libm K) (base : Ref K) (dir : Vec K) (lh : Option Nat) :
    ∀ (l : List Nat) (s : State K) (c : Option Nat) (m : K), (c = none ∨ 0 < m) →
      ((find_closest_loop M base dir lh l s c m).1 = none ∨
        0 < (find_closest_loop M base dir lh l s c m).2.1) := by
  intro l
  induction l with
  | nil => intro s c m h; exact h
  | cons p l ih =>
    intro s c m h
    by_cases hp : some p ≠ lh
    · by_cases hc : hit_dist M s base dir p < m ∧ hit_dist M s base dir p > 0
      · rw [find_closest_loop_take M base dir hp l s c m hc]
        exact ih _ _ _ (Or.inr hc.2)
      · rw [find_closest_loop_keep M base dir hp l s c m hc]
        exact ih _ _ _ h
    · rw [find_closest_loop_skip M base dir hp l s c m]
      exact ih _ _ _ h

omit [FloorRing K] in
/-- A surface is only returned together with a strictly positive distance. -/
theorem find_closest_obj_pos (M : Libm K) (s : State K) (scene : List Nat) (base : Ref K)
    (dir : Vec K) (lh : Option Nat) (c : Nat)
    (h : (find_closest_obj M s scene base dir lh).1 = some c) :
    0 < (find_closest_obj M s scene base dir lh).2.1 := by
  rcases find_closest_loop_pos M base dir lh scene s none INT_MAX (Or.inl rfl) with h1 | h1
  · unfold find_closest_obj at h
    rw [h1] at h
    exact absurd h (by simp)
  · exact h1

/-- The terminal path of `ray_trace`. -/
theorem ray_trace_terminal (M : Libm K) (model : model_t) (depth : Nat) (s : State K)
    (base : Ref K) (dir ivec : Vec K) (total_dist : K) (last_hit : Option Nat)
    (h : total_dist > MAX_DIST) :
    ray_trace M model (depth + 1) s base dir ivec total_dist last_hit = some (ivec, s) := by
  simp only [ray_trace, if_pos h]

/-- The no-hit path of `ray_trace`. -/
theorem ray_trace_no_hit (M : Libm K) (model : model_t) (depth : Nat) (s : State K)
    (base : Ref K) (dir ivec : Vec K) (total_dist : K) (last_hit : Option Nat)
    (h : ¬ total_dist > MAX_DIST)
    (hn : (find_closest_obj M s model.scene base dir none).1 = none) :
    ray_trace M model (depth + 1) s base dir ivec total_dist last_hit =
      some (ivec, (find_closest_obj M s model.scene base dir none).2.2) := by
  simp only [ray_trace, if_neg h]
  rw [hn]

/-- The hit path of `ray_trace` without specular reflectivity. -/
theorem ray_trace_hit_plain (M : Libm K) (model : model_t) (depth : Nat) (s : State K)
    (base : Ref K) (dir ivec : Vec K) (total_dist : K) (last_hit : Option Nat) (c : Nat)
    (h : ¬ total_dist > MAX_DIST)
    (hc : (find_closest_obj M s model.scene base dir none).1 = some c)
    (hs : ¬ vec_dot3 (call_getspec ((find_closest_obj M s model.scene base dir none).2.2.heap c))
      (call_getspec ((find_closest_obj M s model.scene base dir none).2.2.heap c)) > 0) :
    ray_trace M model (depth + 1) s base dir ivec total_dist last_hit =
      some (vec_sum3
        (vec_scale3 (1 / (total_dist + (find_closest_obj M s model.scene base dir none).2.1))
          (diffuse_illumination M model
            ⟨(find_closest_obj M s model.scene base dir none).2.2.heap,
              (find_closest_obj M s model.scene base dir none).2.2.log ++
                [Call.getamb c, Call.getspec c]⟩ c
            (call_getamb M ((find_closest_obj M s model.scene base dir none).2.2.heap c))).1)
        (call_getspec ((find_closest_obj M s model.scene base dir none).2.2.heap c)),
        (diffuse_illumination M model
            ⟨(find_closest_obj M s model.scene base dir none).2.2.heap,
              (find_closest_obj M s model.scene base dir none).2.2.log ++
                [Call.getamb c, Call.getspec c]⟩ c
            (call_getamb M ((find_closest_obj M s model.scene base dir none).2.2.heap c))).2) := by
  simp only [ray_trace, if_neg h]
  rw [hc]
  simp only [if_neg hs]

/-- The hit path of `ray_trace` with specular reflectivity. -/
theorem ray_trace_hit_mirror (M : Libm K) (model : model_t) (depth : Nat) (s : State K)
    (base : Ref K) (dir ivec : Vec K) (total_dist : K) (last_hit : Option Nat) (c : Nat)
    (h : ¬ total_dist > MAX_DIST)
    (hc : (find_closest_obj M s model.scene base dir none).1 = some c)
    (hs : vec_dot3 (call_getspec ((find_closest_obj M s model.scene base dir none).2.2.heap c))
      (call_getspec ((find_closest_obj M s model.scene base dir none).2.2.heap c)) > 0) :
    ray_trace M model (depth + 1) s base dir ivec total_dist last_hit =
      (ray_trace M model depth
        ⟨(diffuse_illumination M model
            ⟨(find_closest_obj M s model.scene base dir none).2.2.heap,
              (find_closest_obj M s model.scene base dir none).2.2.log ++
                [Call.getamb c, Call.getspec c]⟩ c
            (call_getamb M ((find_closest_obj M s model.scene base dir none).2.2.heap c))).2.heap,
          (diffuse_illumination M model
            ⟨(find_closest_obj M s model.scene base dir none).2.2.heap,
              (find_closest_obj M s model.scene base dir none).2.2.log ++
                [Call.getamb c, Call.getspec c]⟩ c
            (call_getamb M ((find_closest_obj M s model.scene base dir none).2.2.heap c))).2.log ++
            [Call.ray_trace
              ((diffuse_illumination M model
                ⟨(find_closest_obj M s model.scene base dir none).2.2.heap,
                  (find_closest_obj M s model.scene base dir none).2.2.log ++
                    [Call.getamb c, Call.getspec c]⟩ c
                (call_getamb M
                  ((find_closest_obj M s model.scene base dir none).2.2.heap c))).2.heap c).hitloc
              (vec_reflect3 M dir (vec_unit3 M
                ((diffuse_illumination M model
                  ⟨(find_closest_obj M s model.scene base dir none).2.2.heap,
                    (find_closest_obj M s model.scene base dir none).2.2.log ++
                      [Call.getamb c, Call.getspec c]⟩ c
                  (call_getamb M
                    ((find_closest_obj M s model.scene base dir none).2.2.heap c))).2.heap c).normal
                Vec.zero) Vec.zero)
              (total_dist + (find_closest_obj M s model.scene base dir none).2.1) (some c)]⟩
        (Ref.hitloc c)
        (vec_reflect3 M dir (vec_unit3 M
          ((diffuse_illumination M model
            ⟨(find_closest_obj M s model.scene base dir none).2.2.heap,
              (find_closest_obj M s model.scene base dir none).2.2.log ++
                [Call.getamb c, Call.getspec c]⟩ c
            (call_getamb M
              ((find_closest_obj M s model.scene base dir none).2.2.heap c))).2.heap c).normal
          Vec.zero) Vec.zero)
        Vec.zero (total_dist + (find_closest_obj M s model.scene base dir none).2.1)
        (some c)).map
      (fun R => (vec_sum3
        (vec_scale3 (1 / (total_dist + (find_closest_obj M s model.scene base dir none).2.1))
          (diffuse_illumination M model
            ⟨(find_closest_obj M s model.scene base dir none).2.2.heap,
              (find_closest_obj M s model.scene base dir none).2.2.log ++
                [Call.getamb c, Call.getspec c]⟩ c
            (call_getamb M ((find_closest_obj M s model.scene base dir none).2.2.heap c))).1)
        (vec_mul3 R.1
          (call_getspec ((find_closest_obj M s model.scene base dir none).2.2.heap c))), R.2)) := by
  simp only [ray_trace, if_neg h]
  rw [hc]
  simp only [if_pos hs]
  cases ray_trace M model depth _ (Ref.hitloc c) _ Vec.zero _ (some c) with
  | none => rfl
  | some R => rfl

end TraceLemmas

/-! ## Claims on `ray_trace` -/

section TraceClaims

variable {K : Type} [LinearOrderedField K] [FloorRing K]

/-- On the hit path, `diffuse_illumination` adds a vector `D` that does not
depend on the accumulator, leaves the struck surface untouched, and makes no
recursive call. -/
theorem shade_facts (M : Libm K) (model : model_t) (s1 : State K) (c : Nat) :
    ∃ D s3,
      (∀ acc, diffuse_illumination M model
        ⟨s1.heap, s1.log ++ [Call.getamb c, Call.getspec c]⟩ c acc = (vec_sum3 acc D, s3)) ∧
      s3.heap c = s1.heap c ∧
      log_ext (fun e => e.is_ray_trace = false) s1 s3 := by
  refine ⟨(diffuse_illumination M model
      ⟨s1.heap, s1.log ++ [Call.getamb c, Call.getspec c]⟩ c Vec.zero).1,
    (diffuse_illumination M model
      ⟨s1.heap, s1.log ++ [Call.getamb c, Call.getspec c]⟩ c Vec.zero).2, ?_, ?_, ?_⟩
  · intro acc
    obtain ⟨h1, h2⟩ := diffuse_illumination_loop_acc M model.scene c model.lights
      ⟨s1.heap, s1.log ++ [Call.getamb c, Call.getspec c]⟩ acc
    exact Prod.ext h1 h2
  · exact (diffuse_illumination_loop_frame M model.scene c model.lights
      ⟨s1.heap, s1.log ++ [Call.getamb c, Call.getspec c]⟩ Vec.zero).2.1
  · refine log_ext_trans (log_ext_push s1 [Call.getamb c, Call.getspec c] ?_)
      (log_ext_mono (fun e he => he.1)
        (diffuse_illumination_loop_frame M model.scene c model.lights
          ⟨s1.heap, s1.log ++ [Call.getamb c, Call.getspec c]⟩ Vec.zero).2.2)
    intro e he
    simp only [List.mem_cons, List.mem_singleton, List.not_mem_nil, or_false] at he
    rcases he with rfl | rfl <;> rfl

omit [FloorRing K] in
/-- The nearest-hit query appends intersection tests only. -/
theorem find_closest_obj_log (M : Libm K) (s : State K) (scene : List Nat) (base : Ref K)
    (dir : Vec K) (lh : Option Nat) :
    log_ext (fun e => e.is_ray_trace = false ∧ e.is_shading = false) s
      (find_closest_obj M s scene base dir lh).2.2 := by
  obtain ⟨-, -, ⟨new, h3, h4, -⟩, -⟩ := find_closest_obj_frame M s scene base dir lh
  refine ⟨new, h3, ?_⟩
  intro e he
  obtain ⟨p, hp1, -, -⟩ := h4 e he
  cases e with
  | hits => exact ⟨rfl, rfl⟩
  | _ => simp [Call.tested] at hp1

omit [FloorRing K] in
theorem shaded_chan (amb D : Vec K) (t : K) (i : Fin 3) :
    (vec_scale3 (1 / t) (vec_sum3 amb D)).chan i = (amb.chan i + D.chan i) / t := by
  fin_cases i <;> simp [Vec.chan, vec_scale3, vec_sum3, div_eq_mul_inv]

omit [FloorRing K] in
theorem vec_dot3_self_pos_iff (v : Vec K) : ¬ vec_dot3 v v > 0 ↔ v = Vec.zero := by
  constructor
  · intro h
    have h1 : vec_dot3 v v ≤ 0 := not_lt.mp h
    unfold vec_dot3 at h1
    have hx := mul_self_nonneg v.x
    have hy := mul_self_nonneg v.y
    have hz := mul_self_nonneg v.z
    have ex : v.x * v.x = 0 := by linarith
    have ey : v.y * v.y = 0 := by linarith
    have ez : v.z * v.z = 0 := by linarith
    apply Vec.ext
    · exact mul_self_eq_zero.mp ex
    · exact mul_self_eq_zero.mp ey
    · exact mul_self_eq_zero.mp ez
  · rintro rfl
    simp [vec_dot3, Vec.zero]

/-- C1.  When the nearest-hit query of `ray_trace` returns the surface `c` at
distance `d` (the query only returns strictly positive distances), the
accumulated distance satisfies `0 ≤ total_dist ≤ MAX_DIST`, and the specular
query of `c` gives the zero vector, then `ray_trace` yields in every channel
`(ambient + D) / (total_dist + d)`, where `ambient` is the ambient query of `c`
and `D` is the vector that `diffuse_illumination` adds to its accumulator for
this hit; the result is the same for every entry content of the intensity
vector and is reached with a depth budget of one call, and no recursive call
is logged. -/
theorem ray_trace_plain_hit (M : Libm K) (model : model_t) (s s1 : State K) (base : Ref K)
    (dir : Vec K) (total_dist d : K) (c : Nat)
    (h0 : 0 ≤ total_dist) (hmax : total_dist ≤ MAX_DIST)
    (hq : find_closest_obj M s model.scene base dir none = (some c, d, s1))
    (hspec : call_getspec (s1.heap c) = Vec.zero) :
    ∃ D s3 r,
      (∀ acc, diffuse_illumination M model
        ⟨s1.heap, s1.log ++ [Call.getamb c, Call.getspec c]⟩ c acc = (vec_sum3 acc D, s3)) ∧
      0 < d ∧ 0 < total_dist + d ∧
      (∀ depth ivec last_hit,
        ray_trace M model (depth + 1) s base dir ivec total_dist last_hit = some (r, s3)) ∧
      (∀ i : Fin 3, r.chan i = ((call_getamb M (s1.heap c)).chan i + D.chan i) / (total_dist + d)) ∧
      log_ext (fun e => e.is_ray_trace = false) s s3 := by
  have q1 : (find_closest_obj M s model.scene base dir none).1 = some c := by rw [hq]
  have q2 : (find_closest_obj M s model.scene base dir none).2.1 = d := by rw [hq]
  have q3 : (find_closest_obj M s model.scene base dir none).2.2 = s1 := by rw [hq]
  have hd : 0 < d := by
    rw [← q2]
    exact find_closest_obj_pos M s model.scene base dir none c q1
  obtain ⟨D, s3, hD, -, hlog⟩ := shade_facts M model s1 c
  refine ⟨D, s3, vec_scale3 (1 / (total_dist + d)) (vec_sum3 (call_getamb M (s1.heap c)) D),
    hD, hd, by linarith, ?_, fun i => shaded_chan _ _ _ i, ?_⟩
  · intro depth ivec last_hit
    have hs : ¬ vec_dot3
        (call_getspec ((find_closest_obj M s model.scene base dir none).2.2.heap c))
        (call_getspec ((find_closest_obj M s model.scene base dir none).2.2.heap c)) > 0 := by
      rw [q3, hspec]
      simp [vec_dot3, Vec.zero]
    rw [ray_trace_hit_plain M model depth s base dir ivec total_dist last_hit c
      (not_lt.mpr hmax) q1 hs, q2, q3, hD, hspec, vec_sum3_zero_right]
  · have h1 := log_ext_mono (fun e he => he.1)
      (find_closest_obj_log M s model.scene base dir none)
    rw [q3] at h1
    exact log_ext_trans h1 hlog

/-- C2.  When the nearest-hit query of `ray_trace` returns the surface `c` at
distance `d` and `0 ≤ total_dist ≤ MAX_DIST` (so that the divisor
`total_dist + d` is strictly positive), write `sp` for the specular query of
`c`, `ambient` for its ambient query and `D` for the vector that
`diffuse_illumination` adds.  If
`sp . sp > 0`, `ray_trace` makes one recursive call - origin the recorded hit
point of `c`, direction the reflection of `dir` about the normalized recorded
normal, accumulated distance `total_dist + d`, intensity zero, last hit `c` -
and yields `(ambient + D) / (total_dist + d) + sp * R` channel by channel for
the recursive result `R`, without dividing `sp * R` again; a depth budget of
one call is then not enough.  If `sp . sp > 0` fails, the result is reached
with a depth budget of one call and no recursive call is logged. -/
theorem ray_trace_mirror_hit (M : Libm K) (model : model_t) (s s1 : State K) (base : Ref K)
    (dir : Vec K) (total_dist d : K) (c : Nat)
    (h0 : 0 ≤ total_dist) (hmax : total_dist ≤ MAX_DIST)
    (hq : find_closest_obj M s model.scene base dir none = (some c, d, s1)) :
    ∃ D s3,
      (∀ acc, diffuse_illumination M model
        ⟨s1.heap, s1.log ++ [Call.getamb c, Call.getspec c]⟩ c acc = (vec_sum3 acc D, s3)) ∧
      s3.heap c = s1.heap c ∧ 0 < total_dist + d ∧
      (vec_dot3 (call_getspec (s1.heap c)) (call_getspec (s1.heap c)) > 0 →
        (∀ depth ivec last_hit,
          ray_trace M model (depth + 1) s base dir ivec total_dist last_hit =
            (ray_trace M model depth
              ⟨s3.heap, s3.log ++ [Call.ray_trace (s1.heap c).hitloc
                (vec_reflect3 M dir (vec_unit3 M (s1.heap c).normal Vec.zero) Vec.zero)
                (total_dist + d) (some c)]⟩
              (Ref.hitloc c)
              (vec_reflect3 M dir (vec_unit3 M (s1.heap c).normal Vec.zero) Vec.zero)
              Vec.zero (total_dist + d) (some c)).map
            (fun R =>
              (⟨((call_getamb M (s1.heap c)).x + D.x) / (total_dist + d) +
                  (call_getspec (s1.heap c)).x * R.1.x,
                ((call_getamb M (s1.heap c)).y + D.y) / (total_dist + d) +
                  (call_getspec (s1.heap c)).y * R.1.y,
                ((call_getamb M (s1.heap c)).z + D.z) / (total_dist + d) +
                  (call_getspec (s1.heap c)).z * R.1.z⟩, R.2))) ∧
        (∀ ivec last_hit, ray_trace M model 1 s base dir ivec total_dist last_hit = none)) ∧
      (¬ vec_dot3 (call_getspec (s1.heap c)) (call_getspec (s1.heap c)) > 0 →
        (∃ r, ∀ depth ivec last_hit,
          ray_trace M model (depth + 1) s base dir ivec total_dist last_hit = some (r, s3)) ∧
        log_ext (fun e => e.is_ray_trace = false) s s3) := by
  have q1 : (find_closest_obj M s model.scene base dir none).1 = some c := by rw [hq]
  have q2 : (find_closest_obj M s model.scene base dir none).2.1 = d := by rw [hq]
  have q3 : (find_closest_obj M s model.scene base dir none).2.2 = s1 := by rw [hq]
  obtain ⟨D, s3, hD, hheap, hlog⟩ := shade_facts M model s1 c
  have heq : ∀ depth ivec last_hit,
      vec_dot3 (call_getspec (s1.heap c)) (call_getspec (s1.heap c)) > 0 →
      ray_trace M model (depth + 1) s base dir ivec total_dist last_hit =
        (ray_trace M model depth
          ⟨s3.heap, s3.log ++ [Call.ray_trace (s1.heap c).hitloc
            (vec_reflect3 M dir (vec_unit3 M (s1.heap c).normal Vec.zero) Vec.zero)
            (total_dist + d) (some c)]⟩
          (Ref.hitloc c)
          (vec_reflect3 M dir (vec_unit3 M (s1.heap c).normal Vec.zero) Vec.zero)
          Vec.zero (total_dist + d) (some c)).map
        (fun R =>
          (⟨((call_getamb M (s1.heap c)).x + D.x) / (total_dist + d) +
              (call_getspec (s1.heap c)).x * R.1.x,
            ((call_getamb M (s1.heap c)).y + D.y) / (total_dist + d) +
              (call_getspec (s1.heap c)).y * R.1.y,
            ((call_getamb M (s1.heap c)).z + D.z) / (total_dist + d) +
              (call_getspec (s1.heap c)).z * R.1.z⟩, R.2)) := by
    intro depth ivec last_hit hs
    have hs2 : vec_dot3
        (call_getspec ((find_closest_obj M s model.scene base dir none).2.2.heap c))
        (call_getspec ((find_closest_obj M s model.scene base dir none).2.2.heap c)) > 0 := by
      rw [q3]; exact hs
    rw [ray_trace_hit_mirror M model depth s base dir ivec total_dist last_hit c
      (not_lt.mpr hmax) q1 hs2, q2, q3, hD]
    simp only [hheap]
    congr 1
    funext R
    refine Prod.ext ?_ rfl
    apply Vec.ext <;>
      simp [vec_sum3, vec_scale3, vec_mul3, div_eq_mul_inv, mul_comm]
  have hd : 0 < d := by
    rw [← q2]
    exact find_closest_obj_pos M s model.scene base dir none c q1
  refine ⟨D, s3, hD, hheap, by linarith, ?_, ?_⟩
  · intro hs
    refine ⟨fun depth ivec last_hit => heq depth ivec last_hit hs, ?_⟩
    intro ivec last_hit
    rw [heq 0 ivec last_hit hs]
    rfl
  · intro hs
    have hs2 : ¬ vec_dot3
        (call_getspec ((find_closest_obj M s model.scene base dir none).2.2.heap c))
        (call_getspec ((find_closest_obj M s model.scene base dir none).2.2.heap c)) > 0 := by
      rw [q3]; exact hs
    refine ⟨⟨vec_sum3 (vec_scale3 (1 / (total_dist + d))
      (vec_sum3 (call_getamb M (s1.heap c)) D)) (call_getspec (s1.heap c)), ?_⟩, ?_⟩
    · intro depth ivec last_hit
      rw [ray_trace_hit_plain M model depth s base dir ivec total_dist last_hit c
        (not_lt.mpr hmax) q1 hs2, q2, q3, hD]
    · have h1 := log_ext_mono (fun e he => he.1)
        (find_closest_obj_log M s model.scene base dir none)
      rw [q3] at h1
      exact log_ext_trans h1 hlog

/-- The log of the state `ray_trace` returns extends the log it was given. -/
theorem ray_trace_log (M : Libm K) (model : model_t) :
    ∀ (depth : Nat) (s : State K) (base : Ref K) (dir ivec : Vec K) (total_dist : K)
      (last_hit : Option Nat) (r : Vec K × State K),
      ray_trace M model depth s base dir ivec total_dist last_hit = some r →
      log_ext (fun _ => True) s r.2 := by
  intro depth
  induction depth with
  | zero =>
    intro s base dir ivec total_dist last_hit r h
    simp [ray_trace] at h
  | succ depth ih =>
    intro s base dir ivec total_dist last_hit r h
    have hfind : log_ext (fun _ => True) s (find_closest_obj M s model.scene base dir none).2.2 :=
      log_ext_mono (fun _ _ => trivial) (find_closest_obj_log M s model.scene base dir none)
    by_cases ht : total_dist > MAX_DIST
    · rw [ray_trace_terminal M model depth s base dir ivec total_dist last_hit ht] at h
      cases h
      exact log_ext_refl _ _
    · cases hc : (find_closest_obj M s model.scene base dir none).1 with
      | none =>
        rw [ray_trace_no_hit M model depth s base dir ivec total_dist last_hit ht hc] at h
        cases h
        exact hfind
      | some c =>
        obtain ⟨D, s3, hD, -, hlog⟩ :=
          shade_facts M model (find_closest_obj M s model.scene base dir none).2.2 c
        have hlog2 : log_ext (fun _ => True) s s3 :=
          log_ext_trans hfind (log_ext_mono (fun _ _ => trivial) hlog)
        by_cases hs : vec_dot3
            (call_getspec ((find_closest_obj M s model.scene base dir none).2.2.heap c))
            (call_getspec ((find_closest_obj M s model.scene base dir none).2.2.heap c)) > 0
        · rw [ray_trace_hit_mirror M model depth s base dir ivec total_dist last_hit c ht hc hs,
            hD] at h
          simp only [Option.map_eq_some'] at h
          obtain ⟨R, hR, rfl⟩ := h
          exact log_ext_trans (log_ext_trans hlog2 (log_ext_push s3 _ (fun _ _ => trivial)))
            (ih _ _ _ _ _ _ R hR)
        · rw [ray_trace_hit_plain M model depth s base dir ivec total_dist last_hit c ht hc hs,
            hD] at h
          cases h
          exact hlog2

/-- C3 (as amended).  When `ray_trace` is called with `total_dist > MAX_DIST`
(`MAX_DIST = 20`) it returns at once: the intensity vector is left as it was
on entry (the zero vector when the caller passed zeros, as the recursive call
does), and the state is unchanged, so no intersection test is logged and no
recorded hit state changes.  A call with `total_dist = MAX_DIST` is not
terminal: it runs the nearest-hit query, so whenever it returns, the log holds
an intersection test of every surface of the scene list, and it does return,
in the state after that query, when the query finds no surface. -/
theorem ray_trace_beyond_max_dist (M : Libm K) (model : model_t) (depth : Nat) (s : State K)
    (base : Ref K) (dir ivec : Vec K) (total_dist : K) (last_hit : Option Nat) :
    (MAX_DIST < total_dist →
      ray_trace M model (depth + 1) s base dir ivec total_dist last_hit = some (ivec, s)) ∧
    (total_dist = MAX_DIST →
      (∀ r, ray_trace M model (depth + 1) s base dir ivec total_dist last_hit = some r →
        ∃ new, r.2.log = s.log ++ new ∧
          ∀ p ∈ model.scene, ∃ e ∈ new, e.tested = some p) ∧
      ((find_closest_obj M s model.scene base dir none).1 = none →
        ray_trace M model (depth + 1) s base dir ivec total_dist last_hit =
          some (ivec, (find_closest_obj M s model.scene base dir none).2.2))) := by
  refine ⟨fun h => ray_trace_terminal M model depth s base dir ivec total_dist last_hit h, ?_⟩
  intro heq
  have ht : ¬ total_dist > MAX_DIST := by rw [heq]; exact lt_irrefl _
  refine ⟨?_, fun hn => ray_trace_no_hit M model depth s base dir ivec total_dist last_hit ht hn⟩
  intro r hr
  obtain ⟨-, -, ⟨new, h3, -, h5⟩, -⟩ := find_closest_obj_frame M s model.scene base dir none
  have hext : log_ext (fun _ => True) (find_closest_obj M s model.scene base dir none).2.2 r.2 := by
    cases hc : (find_closest_obj M s model.scene base dir none).1 with
    | none =>
      rw [ray_trace_no_hit M model depth s base dir ivec total_dist last_hit ht hc] at hr
      cases hr
      exact log_ext_refl _ _
    | some c =>
      obtain ⟨D, s3, hD, -, hlog⟩ :=
        shade_facts M model (find_closest_obj M s model.scene base dir none).2.2 c
      have hlog2 := log_ext_mono (Q := fun _ => True) (fun _ _ => trivial) hlog
      by_cases hs : vec_dot3
          (call_getspec ((find_closest_obj M s model.scene base dir none).2.2.heap c))
          (call_getspec ((find_closest_obj M s model.scene base dir none).2.2.heap c)) > 0
      · rw [ray_trace_hit_mirror M model depth s base dir ivec total_dist last_hit c ht hc hs,
          hD] at hr
        simp only [Option.map_eq_some'] at hr
        obtain ⟨R, hR, rfl⟩ := hr
        exact log_ext_trans (log_ext_trans hlog2 (log_ext_push s3 _ (fun _ _ => trivial)))
          (ray_trace_log M model depth _ _ _ _ _ _ R hR)
      · rw [ray_trace_hit_plain M model depth s base dir ivec total_dist last_hit c ht hc hs,
          hD] at hr
        cases hr
        exact hlog2
  obtain ⟨new2, hn2, -⟩ := hext
  refine ⟨new ++ new2, by rw [hn2, h3, List.append_assoc], ?_⟩
  intro p hp
  obtain ⟨e, he1, he2⟩ := h5 p hp (by simp)
  exact ⟨e, List.mem_append_left _ he1, he2⟩

end TraceClaims

/-! ### Instances of the claims on `ray_trace` -/

section TraceInstances

/-- The nearest-hit query from `(0, 0, 1)` down the z axis on the plane `z = 0`. -/
theorem ex_query_down (sp : ℝ) :
    (find_closest_obj ⟨Real.sqrt, Real.sin⟩ (ex_planes (0 : ℝ) 0 sp) [1]
      (Ref.val ⟨0, 0, 1⟩) ⟨0, 0, -1⟩ none).1 = some 1 ∧
    (find_closest_obj ⟨Real.sqrt, Real.sin⟩ (ex_planes (0 : ℝ) 0 sp) [1]
      (Ref.val ⟨0, 0, 1⟩) ⟨0, 0, -1⟩ none).2.1 = 1 ∧
    call_getspec ((find_closest_obj ⟨Real.sqrt, Real.sin⟩ (ex_planes (0 : ℝ) 0 sp) [1]
      (Ref.val ⟨0, 0, 1⟩) ⟨0, 0, -1⟩ none).2.2.heap 1) = ⟨sp, sp, sp⟩ := by
  refine ⟨?_, ?_, ?_⟩ <;>
  · simp [find_closest_obj, find_closest_loop, call_hits, hits_plane, ex_planes, ex_heap,
      ex_plane, ex_blank, Ref.read, vec_dot3, vec_sum3, vec_scale3, obj_priv.as_plane, INT_MAX,
      MISS, call_getspec, default_getspec]
    try norm_num

/-- C1, an instance: the plane `z = 0` without specular reflectivity, seen from
`(0, 0, 1)` down the z axis with no light in the model. -/
theorem ray_trace_plain_hit_witness :
    ((0 : ℝ) ≤ 0 ∧ (0 : ℝ) ≤ MAX_DIST ∧
      call_getspec ((find_closest_obj ⟨Real.sqrt, Real.sin⟩ (ex_planes (0 : ℝ) 0 0) [1]
        (Ref.val ⟨0, 0, 1⟩) ⟨0, 0, -1⟩ none).2.2.heap 1) = Vec.zero) ∧
    ∃ r s3, ∀ depth ivec last_hit,
      ray_trace ⟨Real.sqrt, Real.sin⟩ ⟨[], [1]⟩ (depth + 1) (ex_planes (0 : ℝ) 0 0)
        (Ref.val ⟨0, 0, 1⟩) ⟨0, 0, -1⟩ ivec 0 last_hit = some (r, s3) := by
  have h1 : (0 : ℝ) ≤ MAX_DIST := by unfold MAX_DIST; norm_num
  have h2 := (ex_query_down 0).2.2
  obtain ⟨D, s3, r, -, -, -, h, -⟩ :=
    ray_trace_plain_hit ⟨Real.sqrt, Real.sin⟩ ⟨[], [1]⟩ (ex_planes (0 : ℝ) 0 0)
      (find_closest_obj ⟨Real.sqrt, Real.sin⟩ (ex_planes (0 : ℝ) 0 0) [1]
        (Ref.val ⟨0, 0, 1⟩) ⟨0, 0, -1⟩ none).2.2
      (Ref.val ⟨0, 0, 1⟩) ⟨0, 0, -1⟩ 0
      (find_closest_obj ⟨Real.sqrt, Real.sin⟩ (ex_planes (0 : ℝ) 0 0) [1]
        (Ref.val ⟨0, 0, 1⟩) ⟨0, 0, -1⟩ none).2.1
      1 (le_refl 0) h1 (Prod.ext (ex_query_down 0).1 rfl) h2
  exact ⟨⟨le_refl 0, h1, h2⟩, r, s3, h⟩

/-- C2, an instance: the plane `z = 0` with specular reflectivity
`(1/2, 1/2, 1/2)`, seen from `(0, 0, 1)` down the z axis. -/
theorem ray_trace_mirror_hit_witness :
    ((0 : ℝ) ≤ 0 ∧ (0 : ℝ) ≤ MAX_DIST ∧
      (find_closest_obj ⟨Real.sqrt, Real.sin⟩ (ex_planes (0 : ℝ) 0 (1 / 2)) [1]
        (Ref.val ⟨0, 0, 1⟩) ⟨0, 0, -1⟩ none).1 = some 1) ∧
    ∀ ivec last_hit, ray_trace ⟨Real.sqrt, Real.sin⟩ ⟨[], [1]⟩ 1 (ex_planes (0 : ℝ) 0 (1 / 2))
        (Ref.val ⟨0, 0, 1⟩) ⟨0, 0, -1⟩ ivec 0 last_hit = none := by
  have h1 : (0 : ℝ) ≤ MAX_DIST := by unfold MAX_DIST; norm_num
  obtain ⟨D, s3, -, -, -, h, -⟩ :=
    ray_trace_mirror_hit ⟨Real.sqrt, Real.sin⟩ ⟨[], [1]⟩ (ex_planes (0 : ℝ) 0 (1 / 2))
      (find_closest_obj ⟨Real.sqrt, Real.sin⟩ (ex_planes (0 : ℝ) 0 (1 / 2)) [1]
        (Ref.val ⟨0, 0, 1⟩) ⟨0, 0, -1⟩ none).2.2
      (Ref.val ⟨0, 0, 1⟩) ⟨0, 0, -1⟩ 0
      (find_closest_obj ⟨Real.sqrt, Real.sin⟩ (ex_planes (0 : ℝ) 0 (1 / 2)) [1]
        (Ref.val ⟨0, 0, 1⟩) ⟨0, 0, -1⟩ none).2.1
      1 (le_refl 0) h1 (Prod.ext (ex_query_down (1 / 2)).1 rfl)
  refine ⟨⟨le_refl 0, h1, (ex_query_down (1 / 2)).1⟩, (h ?_).2⟩
  rw [(ex_query_down (1 / 2)).2.2]
  simp [vec_dot3]
  norm_num

/-- C3, the claim as stated fails: called with `total_dist = 21 > MAX_DIST` and
an intensity vector holding `(7, 7, 7)`, `ray_trace` does not return the zero
vector. -/
theorem ray_trace_beyond_max_dist_not_black :
    ¬ ∃ st, ray_trace ⟨Real.sqrt, Real.sin⟩ ⟨[], [1]⟩ 1 (ex_planes (0 : ℝ) 0 0)
      (Ref.val ⟨0, 0, 1⟩) ⟨0, 0, -1⟩ ⟨7, 7, 7⟩ 21 none = some (Vec.zero, st) := by
  rintro ⟨st, h⟩
  have ht : (21 : ℝ) > MAX_DIST := by unfold MAX_DIST; norm_num
  rw [ray_trace_terminal _ _ _ _ _ _ _ _ _ ht] at h
  simp [Vec.zero] at h

/-- C3, an instance: `total_dist = 21`, intensity vector `(7, 7, 7)` on entry. -/
theorem ray_trace_beyond_max_dist_witness :
    (MAX_DIST : ℝ) < 21 ∧
    ray_trace ⟨Real.sqrt, Real.sin⟩ ⟨[], [1]⟩ (0 + 1) (ex_planes (0 : ℝ) 0 0)
      (Ref.val ⟨0, 0, 1⟩) ⟨0, 0, -1⟩ ⟨7, 7, 7⟩ 21 none =
      some (⟨7, 7, 7⟩, ex_planes (0 : ℝ) 0 0) :=
  ⟨by unfold MAX_DIST; norm_num,
    (ray_trace_beyond_max_dist ⟨Real.sqrt, Real.sin⟩ ⟨[], [1]⟩ 0 (ex_planes (0 : ℝ) 0 0)
      (Ref.val ⟨0, 0, 1⟩) ⟨0, 0, -1⟩ ⟨7, 7, 7⟩ 21 none).1 (by unfold MAX_DIST; norm_num)⟩

/-- C5, the code at the failing input: a single plane `z = 0` with specular
reflectivity `(1/2, 1/2, 1/2)` is struck from `(0, 0, 1)` down the z axis.  The
recursive call is made with last hit 1, and it then runs the intersection
test of surface 1 against the reflected ray from `(0, 0, 0)` up the z axis:
the last two log entries. -/
theorem ray_trace_reflected_ray_tests_reflector :
    (ray_trace ⟨Real.sqrt, Real.sin⟩ ⟨[], [1]⟩ 2 (ex_planes (0 : ℝ) 0 (1 / 2))
      (Ref.val ⟨0, 0, 1⟩) ⟨0, 0, -1⟩ Vec.zero 0 none).map (fun r => (r.1, r.2.log)) =
    some (⟨1, 1, 1⟩, [Call.hits 1 ⟨0, 0, 1⟩ ⟨0, 0, -1⟩, Call.getamb 1, Call.getspec 1,
      Call.ray_trace ⟨0, 0, 0⟩ ⟨0, 0, 1⟩ 1 (some 1), Call.hits 1 ⟨0, 0, 0⟩ ⟨0, 0, 1⟩]) := by
  simp [ray_trace, find_closest_obj, find_closest_loop, call_hits, hits_plane, ex_planes,
    ex_heap, ex_plane, ex_blank, Ref.read, vec_dot3, vec_sum3, vec_scale3, obj_priv.as_plane,
    INT_MAX, MISS, MAX_DIST, diffuse_illumination, diffuse_illumination_loop, call_getamb,
    call_getspec, default_getamb, default_getspec, vec_unit3, vec_reflect3, vec_length3,
    vec_diff3, vec_mul3, Vec.zero]
  norm_num
  exact ⟨_, _, ⟨rfl, rfl⟩, rfl, rfl⟩

end TraceInstances

/-! ## Claims on `hits_sphere` -/

section SphereClaims

/-- C10.  For every sphere with center `C` and radius `r > 0` and every origin
`O` strictly outside it (`|O - C| > r`), `hits_sphere` called with the unit
direction `(C - O) / |C - O|` returns exactly `|O - C| - r`, in exact real
arithmetic with the real square root. -/
theorem hits_sphere_toward_center (obj : obj_t ℝ) (C O : Vec ℝ) (r : ℝ)
    (hpriv : obj.priv = obj_priv.sphere ⟨C, r⟩) (hr : 0 < r)
    (hout : r < vec_length3 ⟨Real.sqrt, Real.sin⟩ (vec_diff3 C O)) :
    (hits_sphere ⟨Real.sqrt, Real.sin⟩ O
      (vec_scale3 (1 / vec_length3 ⟨Real.sqrt, Real.sin⟩ (vec_diff3 O C)) (vec_diff3 O C))
      obj).1 = vec_length3 ⟨Real.sqrt, Real.sin⟩ (vec_diff3 C O) - r := by
  have hS : 0 ≤ (C.x - O.x) * (C.x - O.x) + (C.y - O.y) * (C.y - O.y) +
      (C.z - O.z) * (C.z - O.z) :=
    add_nonneg (add_nonneg (mul_self_nonneg _) (mul_self_nonneg _)) (mul_self_nonneg _)
  have hlen : vec_length3 ⟨Real.sqrt, Real.sin⟩ (vec_diff3 C O) =
      vec_length3 ⟨Real.sqrt, Real.sin⟩ (vec_diff3 O C) := by
    unfold vec_length3 vec_diff3
    simp only []
    congr 1
    ring
  rw [hlen] at hout ⊢
  have hL : vec_length3 ⟨Real.sqrt, Real.sin⟩ (vec_diff3 O C) =
      Real.sqrt ((C.x - O.x) * (C.x - O.x) + (C.y - O.y) * (C.y - O.y) +
        (C.z - O.z) * (C.z - O.z)) := rfl
  generalize hLdef : vec_length3 ⟨Real.sqrt, Real.sin⟩ (vec_diff3 O C) = L at hout hL ⊢
  have hLL : L * L = (C.x - O.x) * (C.x - O.x) + (C.y - O.y) * (C.y - O.y) +
      (C.z - O.z) * (C.z - O.z) := by
    rw [hL]
    exact Real.mul_self_sqrt hS
  have hLpos : 0 < L := lt_trans hr hout
  have hLne : L ≠ 0 := ne_of_gt hLpos
  have ha : vec_dot3 (vec_scale3 (1 / L) (vec_diff3 O C)) (vec_scale3 (1 / L) (vec_diff3 O C))
      = 1 := by
    unfold vec_dot3 vec_scale3 vec_diff3
    simp only []
    field_simp
    linarith
  have hb : vec_dot3 (vec_diff3 C O) (vec_scale3 (1 / L) (vec_diff3 O C)) = -L := by
    unfold vec_dot3 vec_scale3 vec_diff3
    simp only []
    field_simp
    linarith
  have hc : vec_dot3 (vec_diff3 C O) (vec_diff3 C O) = L * L := by
    rw [hLL]
    unfold vec_dot3 vec_diff3
    simp only []
    ring
  have hquad : 2 * -L * (2 * -L) - 4 * 1 * (L * L - r * r) = (2 * r) ^ 2 := by ring
  have hsq : Real.sqrt ((2 * r) ^ 2) = 2 * r := Real.sqrt_sq (by linarith)
  have hnot : ¬ (2 * r) ^ 2 ≤ 0 := not_le.mpr (by positivity)
  simp only [hits_sphere, hpriv, obj_priv.as_sphere, ha, hb, hc, hquad, hsq, if_neg hnot]
  field_simp
  ring

/-- C10, an instance: the unit sphere centred at `(0, 0, -5)` seen from the
origin, which lies at distance 5 from the center. -/
theorem hits_sphere_toward_center_witness :
    ((0 : ℝ) < 1 ∧
      (1 : ℝ) < vec_length3 ⟨Real.sqrt, Real.sin⟩ (vec_diff3 ⟨0, 0, -5⟩ ⟨0, 0, 0⟩)) ∧
    (hits_sphere ⟨Real.sqrt, Real.sin⟩ ⟨0, 0, 0⟩
      (vec_scale3 (1 / vec_length3 ⟨Real.sqrt, Real.sin⟩ (vec_diff3 ⟨0, 0, 0⟩ ⟨0, 0, -5⟩))
        (vec_diff3 ⟨0, 0, 0⟩ ⟨0, 0, -5⟩))
      (ex_sphere ⟨0, 0, -5⟩ 1)).1 =
      vec_length3 ⟨Real.sqrt, Real.sin⟩ (vec_diff3 ⟨0, 0, -5⟩ ⟨0, 0, 0⟩) - 1 := by
  have hout : (1 : ℝ) < vec_length3 ⟨Real.sqrt, Real.sin⟩ (vec_diff3 ⟨0, 0, -5⟩ ⟨0, 0, 0⟩) := by
    unfold vec_length3 vec_diff3
    simp only []
    rw [Real.lt_sqrt (by norm_num)]
    norm_num
  exact ⟨⟨one_pos, hout⟩,
    hits_sphere_toward_center (ex_sphere ⟨0, 0, -5⟩ 1) ⟨0, 0, -5⟩ ⟨0, 0, 0⟩ 1 rfl one_pos hout⟩

end SphereClaims

/-! ## Claims on `hits_sphere`: roots, misses and the recorded hit -/

section SphereRoots

variable {K : Type} [LinearOrderedField K]

/-- The discriminant is at most `4 a r^2` (Cauchy-Schwarz). -/
theorem sphere_disc_le (C : Vec K) (r : K) (O D : Vec K) :
    sphere_disc C r O D ≤ 4 * sphere_a D * (r * r) := by
  unfold sphere_disc sphere_a sphere_b sphere_c vec_dot3 vec_diff3
  simp only []
  nlinarith [sq_nonneg ((O.y - C.y) * D.z - (O.z - C.z) * D.y),
    sq_nonneg ((O.z - C.z) * D.x - (O.x - C.x) * D.z),
    sq_nonneg ((O.x - C.x) * D.y - (O.y - C.y) * D.x)]

theorem sphere_a_nonneg (D : Vec K) : 0 ≤ sphere_a D := by
  unfold sphere_a vec_dot3
  nlinarith [mul_self_nonneg D.x, mul_self_nonneg D.y, mul_self_nonneg D.z]

/-- A positive discriminant forces a nonzero direction and a nonzero radius. -/
theorem sphere_disc_pos (C : Vec K) (r : K) (O D : Vec K) (h : 0 < sphere_disc C r O D) :
    0 < sphere_a D ∧ 0 < r * r := by
  have h1 := sphere_disc_le C r O D
  have h2 := sphere_a_nonneg D
  have h3 : 0 ≤ r * r := mul_self_nonneg r
  have h4 : 0 < 4 * sphere_a D * (r * r) := lt_of_lt_of_le h h1
  constructor
  · rcases eq_or_lt_of_le h2 with h5 | h5
    · rw [← h5] at h4
      simp at h4
    · exact h5
  · rcases eq_or_lt_of_le h3 with h5 | h5
    · rw [← h5] at h4
      simp at h4
    · exact h5

/-- The quadratic in its geometric form. -/
theorem sphere_root_iff (C : Vec K) (r : K) (O D : Vec K) (t : K) :
    sphere_root C r O D t ↔
      sphere_a D * t * t + sphere_b C O D * t + sphere_c C r O = 0 := by
  unfold sphere_root sphere_a sphere_b sphere_c ray_point vec_dot3 vec_diff3 vec_sum3 vec_scale3
  simp only []
  constructor
  · intro h
    linear_combination h
  · intro h
    linear_combination h

/-- With a square root `s` of the discriminant, `(-b - s) / (2a)` is the least
root of the quadratic. -/
theorem sphere_least_root (C : Vec K) (r : K) (O D : Vec K) (s : K)
    (ha : 0 < sphere_a D) (hs0 : 0 ≤ s) (hs : s * s = sphere_disc C r O D) :
    sphere_root C r O D ((-1 * sphere_b C O D - s) / (2 * sphere_a D)) ∧
    ∀ t, sphere_root C r O D t → (-1 * sphere_b C O D - s) / (2 * sphere_a D) ≤ t := by
  have hne : sphere_a D ≠ 0 := ne_of_gt ha
  constructor
  · rw [sphere_root_iff]
    unfold sphere_disc at hs
    have h2 : 2 * sphere_a D * ((-1 * sphere_b C O D - s) / (2 * sphere_a D)) =
        -1 * sphere_b C O D - s := by
      field_simp
    have h3 : 4 * sphere_a D *
        (sphere_a D * ((-1 * sphere_b C O D - s) / (2 * sphere_a D)) *
            ((-1 * sphere_b C O D - s) / (2 * sphere_a D)) +
          sphere_b C O D * ((-1 * sphere_b C O D - s) / (2 * sphere_a D)) +
          sphere_c C r O) = 0 := by
      linear_combination
        (2 * sphere_a D * ((-1 * sphere_b C O D - s) / (2 * sphere_a D)) +
          sphere_b C O D - s) * h2 + hs
    rcases mul_eq_zero.mp h3 with h4 | h4
    · exact absurd h4 (by positivity)
    · exact h4
  · intro t ht
    rw [sphere_root_iff] at ht
    unfold sphere_disc at hs
    rw [div_le_iff₀ (by linarith)]
    by_contra hlt
    have hlt2 : t * (2 * sphere_a D) + sphere_b C O D < -s := by linarith [not_le.mp hlt]
    have hsq : (t * (2 * sphere_a D) + sphere_b C O D) *
        (t * (2 * sphere_a D) + sphere_b C O D) = s * s := by
      rw [hs]
      linear_combination 4 * sphere_a D * ht
    nlinarith

end SphereRoots

section SphereEval

variable {K : Type} [LinearOrderedField K]

theorem vec_scale3_one (v : Vec K) : vec_scale3 1 v = v := by
  simp [vec_scale3]

theorem vec_length3_eq (M : Libm K) (v : Vec K) : vec_length3 M v = M.sqrt (vec_dot3 v v) := rfl

/-- The two branches of `hits_sphere` in terms of the quadratic. -/
theorem hits_sphere_eval (M : Libm K) (obj : obj_t K) (C O D : Vec K) (r : K)
    (hpriv : obj.priv = obj_priv.sphere ⟨C, r⟩) :
    hits_sphere M O D obj =
      if sphere_disc C r O D ≤ 0 then (MISS, obj)
      else
        ((-1 * sphere_b C O D - M.sqrt (sphere_disc C r O D)) / (2 * sphere_a D),
          { obj with
            hitloc := vec_scale3 1 (ray_point O D
              ((-1 * sphere_b C O D - M.sqrt (sphere_disc C r O D)) / (2 * sphere_a D)))
            normal := vec_unit3 M (vec_diff3 C (ray_point O D
              ((-1 * sphere_b C O D - M.sqrt (sphere_disc C r O D)) / (2 * sphere_a D))))
              obj.normal }) := by
  simp only [hits_sphere, hpriv, obj_priv.as_sphere, sphere_disc, sphere_a, sphere_b, sphere_c,
    ray_point]

end SphereEval

section UnitReal

/-- Normalisation of a nonzero real vector. -/
theorem vec_unit3_real (v w : Vec ℝ) (hv : 0 < vec_dot3 v v) :
    0 < vec_length3 ⟨Real.sqrt, Real.sin⟩ v ∧
    vec_unit3 ⟨Real.sqrt, Real.sin⟩ v w =
      vec_scale3 (1 / vec_length3 ⟨Real.sqrt, Real.sin⟩ v) v ∧
    vec_dot3 (vec_unit3 ⟨Real.sqrt, Real.sin⟩ v w) (vec_unit3 ⟨Real.sqrt, Real.sin⟩ v w) = 1 ∧
    vec_length3 ⟨Real.sqrt, Real.sin⟩ (vec_unit3 ⟨Real.sqrt, Real.sin⟩ v w) = 1 := by
  have hL : 0 < vec_length3 ⟨Real.sqrt, Real.sin⟩ v := by
    rw [vec_length3_eq]
    exact Real.sqrt_pos.mpr hv
  have hLL : vec_length3 ⟨Real.sqrt, Real.sin⟩ v * vec_length3 ⟨Real.sqrt, Real.sin⟩ v =
      vec_dot3 v v := by
    rw [vec_length3_eq]
    exact Real.mul_self_sqrt (le_of_lt hv)
  have hu : vec_unit3 ⟨Real.sqrt, Real.sin⟩ v w =
      vec_scale3 (1 / vec_length3 ⟨Real.sqrt, Real.sin⟩ v) v := by
    unfold vec_unit3
    rw [if_neg (ne_of_gt hL)]
  have hd : vec_dot3 (vec_unit3 ⟨Real.sqrt, Real.sin⟩ v w)
      (vec_unit3 ⟨Real.sqrt, Real.sin⟩ v w) = 1 := by
    rw [hu]
    generalize vec_length3 ⟨Real.sqrt, Real.sin⟩ v = L at hL hLL
    unfold vec_dot3 vec_scale3 at *
    simp only []
    field_simp
    linarith
  refine ⟨hL, hu, hd, ?_⟩
  rw [vec_length3_eq, hd]
  exact Real.sqrt_one

end UnitReal

section SphereClaims2

/-- C11 (as amended).  For every sphere and every ray whose discriminant is
positive, `hits_sphere` returns the smaller root `(-b - sqrt(b^2 - 4ac)) / (2a)`
of the quadratic `|O + tD - C|^2 = r^2`: the value is a root and no root is
smaller.  So it is the smallest positive root whenever it is positive; when
the smaller root is not positive, it is returned all the same. -/
theorem hits_sphere_smaller_root (obj : obj_t ℝ) (C O D : Vec ℝ) (r : ℝ)
    (hpriv : obj.priv = obj_priv.sphere ⟨C, r⟩) (hq : 0 < sphere_disc C r O D) :
    (hits_sphere ⟨Real.sqrt, Real.sin⟩ O D obj).1 =
      (-1 * sphere_b C O D - Real.sqrt (sphere_disc C r O D)) / (2 * sphere_a D) ∧
    sphere_root C r O D (hits_sphere ⟨Real.sqrt, Real.sin⟩ O D obj).1 ∧
    (∀ t, sphere_root C r O D t → (hits_sphere ⟨Real.sqrt, Real.sin⟩ O D obj).1 ≤ t) ∧
    (0 < (hits_sphere ⟨Real.sqrt, Real.sin⟩ O D obj).1 →
      ∀ t, 0 < t → sphere_root C r O D t →
        (hits_sphere ⟨Real.sqrt, Real.sin⟩ O D obj).1 ≤ t) := by
  have hval : (hits_sphere ⟨Real.sqrt, Real.sin⟩ O D obj).1 =
      (-1 * sphere_b C O D - Real.sqrt (sphere_disc C r O D)) / (2 * sphere_a D) := by
    rw [hits_sphere_eval _ obj C O D r hpriv, if_neg (not_le.mpr hq)]
  obtain ⟨h1, h2⟩ := sphere_least_root C r O D (Real.sqrt (sphere_disc C r O D))
    (sphere_disc_pos C r O D hq).1 (Real.sqrt_nonneg _) (Real.mul_self_sqrt (le_of_lt hq))
  rw [hval]
  exact ⟨rfl, h1, h2, fun _ t _ ht => h2 t ht⟩

/-- C12.  For every sphere and ray whose discriminant `b^2 - 4ac` is `≤ 0`
(`a = D.D`, `b = 2 (O - C).D`, `c = |O - C|^2 - r^2`), `hits_sphere` returns
`MISS = -1` and the object, with its recorded hit point and normal, is left as
it was; the zero direction is such a ray. -/
theorem hits_sphere_miss {K : Type} [LinearOrderedField K] (M : Libm K) (obj : obj_t K)
    (C O D : Vec K) (r : K) (hpriv : obj.priv = obj_priv.sphere ⟨C, r⟩) :
    (sphere_disc C r O D ≤ 0 →
      hits_sphere M O D obj = (MISS, obj) ∧ (hits_sphere M O D obj).1 = -1 ∧
      (hits_sphere M O D obj).2.hitloc = obj.hitloc ∧
      (hits_sphere M O D obj).2.normal = obj.normal) ∧
    sphere_disc C r O Vec.zero = 0 ∧
    hits_sphere M O Vec.zero obj = (MISS, obj) := by
  have hz : sphere_disc C r O Vec.zero = 0 := by
    simp [sphere_disc, sphere_a, sphere_b, vec_dot3, Vec.zero]
  refine ⟨?_, hz, ?_⟩
  · intro hq
    have h : hits_sphere M O D obj = (MISS, obj) := by
      rw [hits_sphere_eval M obj C O D r hpriv, if_pos hq]
    rw [h]
    exact ⟨rfl, rfl, rfl, rfl⟩
  · rw [hits_sphere_eval M obj C O Vec.zero r hpriv, if_pos (le_of_eq hz)]

/-- C13.  For every sphere and every ray with positive discriminant,
`hits_sphere` records as hit point `base + t * dir` for the `t` it returns; the
vector `hit - center` then has positive length, and the recorded normal is
`(hit - center) / |hit - center|`, a positive multiple of `hit - center` of
length 1. -/
theorem hits_sphere_records_hit (obj : obj_t ℝ) (C O D : Vec ℝ) (r : ℝ)
    (hpriv : obj.priv = obj_priv.sphere ⟨C, r⟩) (hq : 0 < sphere_disc C r O D) :
    (hits_sphere ⟨Real.sqrt, Real.sin⟩ O D obj).2.hitloc =
      ray_point O D (hits_sphere ⟨Real.sqrt, Real.sin⟩ O D obj).1 ∧
    0 < vec_length3 ⟨Real.sqrt, Real.sin⟩
      (vec_diff3 C (hits_sphere ⟨Real.sqrt, Real.sin⟩ O D obj).2.hitloc) ∧
    (hits_sphere ⟨Real.sqrt, Real.sin⟩ O D obj).2.normal =
      vec_scale3
        (1 / vec_length3 ⟨Real.sqrt, Real.sin⟩
          (vec_diff3 C (hits_sphere ⟨Real.sqrt, Real.sin⟩ O D obj).2.hitloc))
        (vec_diff3 C (hits_sphere ⟨Real.sqrt, Real.sin⟩ O D obj).2.hitloc) ∧
    vec_length3 ⟨Real.sqrt, Real.sin⟩
      (hits_sphere ⟨Real.sqrt, Real.sin⟩ O D obj).2.normal = 1 := by
  obtain ⟨h1, -⟩ := sphere_least_root C r O D (Real.sqrt (sphere_disc C r O D))
    (sphere_disc_pos C r O D hq).1 (Real.sqrt_nonneg _) (Real.mul_self_sqrt (le_of_lt hq))
  have hpos : 0 < vec_dot3
      (vec_diff3 C (ray_point O D
        ((-1 * sphere_b C O D - Real.sqrt (sphere_disc C r O D)) / (2 * sphere_a D))))
      (vec_diff3 C (ray_point O D
        ((-1 * sphere_b C O D - Real.sqrt (sphere_disc C r O D)) / (2 * sphere_a D)))) := by
    unfold sphere_root at h1
    rw [h1]
    exact (sphere_disc_pos C r O D hq).2
  obtain ⟨u1, u2, -, u4⟩ := vec_unit3_real _ obj.normal hpos
  rw [hits_sphere_eval _ obj C O D r hpriv, if_neg (not_le.mpr hq)]
  simp only [vec_scale3_one]
  exact ⟨trivial, u1, u2, u4⟩

end SphereClaims2

section SphereInstances

theorem real_sqrt_four : Real.sqrt 4 = 2 := by
  rw [show (4 : ℝ) = 2 ^ 2 by norm_num]
  exact Real.sqrt_sq (by norm_num)

/-- The discriminant for the unit sphere centred at `(0, 0, zc)` and the ray
from `(x, 0, z)` along `(0, 0, dz)`. -/
theorem ex_sphere_disc (zc x z dz : ℝ) :
    sphere_disc ⟨0, 0, zc⟩ 1 ⟨x, 0, z⟩ ⟨0, 0, dz⟩ =
      (2 * ((z - zc) * dz)) * (2 * ((z - zc) * dz)) -
        4 * (dz * dz) * (x * x + (z - zc) * (z - zc) - 1) := by
  simp [sphere_disc, sphere_a, sphere_b, sphere_c, vec_dot3, vec_diff3]

/-- C11, the claim as stated fails: from `(0, 0, 1/2)`, inside the unit sphere
centred at the origin, along `(0, 0, 1)` the discriminant is 4 and `1/2` is a
positive root, but `hits_sphere` returns the negative root `-3/2`. -/
theorem hits_sphere_inside_returns_negative_root :
    0 < sphere_disc (⟨0, 0, 0⟩ : Vec ℝ) 1 ⟨0, 0, 1 / 2⟩ ⟨0, 0, 1⟩ ∧
    ((0 : ℝ) < 1 / 2 ∧ sphere_root (⟨0, 0, 0⟩ : Vec ℝ) 1 ⟨0, 0, 1 / 2⟩ ⟨0, 0, 1⟩ (1 / 2)) ∧
    (hits_sphere ⟨Real.sqrt, Real.sin⟩ ⟨0, 0, 1 / 2⟩ ⟨0, 0, 1⟩
      (ex_sphere ⟨0, 0, 0⟩ 1)).1 = -3 / 2 := by
  have hd : sphere_disc (⟨0, 0, 0⟩ : Vec ℝ) 1 ⟨0, 0, 1 / 2⟩ ⟨0, 0, 1⟩ = 4 := by
    rw [ex_sphere_disc]
    norm_num
  refine ⟨by rw [hd]; norm_num, ⟨by norm_num, ?_⟩, ?_⟩
  · simp [sphere_root, ray_point, vec_dot3, vec_diff3, vec_sum3, vec_scale3]
    norm_num
  · rw [hits_sphere_eval _ (ex_sphere ⟨0, 0, 0⟩ 1) ⟨0, 0, 0⟩ ⟨0, 0, 1 / 2⟩ ⟨0, 0, 1⟩ 1 rfl, hd,
      if_neg (by norm_num)]
    simp only [real_sqrt_four]
    simp [sphere_a, sphere_b, vec_dot3, vec_diff3]
    norm_num

/-- C11, an instance: the unit sphere centred at `(0, 0, -5)` seen from the
origin along `(0, 0, -1)`; the discriminant is 4. -/
theorem hits_sphere_smaller_root_witness :
    0 < sphere_disc (⟨0, 0, -5⟩ : Vec ℝ) 1 ⟨0, 0, 0⟩ ⟨0, 0, -1⟩ ∧
    sphere_root (⟨0, 0, -5⟩ : Vec ℝ) 1 ⟨0, 0, 0⟩ ⟨0, 0, -1⟩
      (hits_sphere ⟨Real.sqrt, Real.sin⟩ ⟨0, 0, 0⟩ ⟨0, 0, -1⟩ (ex_sphere ⟨0, 0, -5⟩ 1)).1 := by
  have hd : 0 < sphere_disc (⟨0, 0, -5⟩ : Vec ℝ) 1 ⟨0, 0, 0⟩ ⟨0, 0, -1⟩ := by
    rw [ex_sphere_disc]
    norm_num
  exact ⟨hd, (hits_sphere_smaller_root (ex_sphere ⟨0, 0, -5⟩ 1) ⟨0, 0, -5⟩ ⟨0, 0, 0⟩
    ⟨0, 0, -1⟩ 1 rfl hd).2.1⟩

/-- C12, an instance: the ray from `(1, 0, -5)` along `(0, 0, 1)` is tangent to
the unit sphere centred at the origin; the discriminant is 0. -/
theorem hits_sphere_miss_witness :
    sphere_disc (⟨0, 0, 0⟩ : Vec ℝ) 1 ⟨1, 0, -5⟩ ⟨0, 0, 1⟩ ≤ 0 ∧
    hits_sphere ⟨Real.sqrt, Real.sin⟩ ⟨1, 0, -5⟩ ⟨0, 0, 1⟩ (ex_sphere ⟨0, 0, 0⟩ 1) =
      (MISS, ex_sphere ⟨0, 0, 0⟩ 1) := by
  have hd : sphere_disc (⟨0, 0, 0⟩ : Vec ℝ) 1 ⟨1, 0, -5⟩ ⟨0, 0, 1⟩ ≤ 0 := by
    rw [ex_sphere_disc]
    norm_num
  exact ⟨hd, ((hits_sphere_miss ⟨Real.sqrt, Real.sin⟩ (ex_sphere ⟨0, 0, 0⟩ 1) ⟨0, 0, 0⟩
    ⟨1, 0, -5⟩ ⟨0, 0, 1⟩ 1 rfl).1 hd).1⟩

/-- C13, an instance: the unit sphere centred at `(0, 0, -5)` seen from the
origin along `(0, 0, -1)`. -/
theorem hits_sphere_records_hit_witness :
    0 < sphere_disc (⟨0, 0, -5⟩ : Vec ℝ) 1 ⟨0, 0, 0⟩ ⟨0, 0, -1⟩ ∧
    vec_length3 ⟨Real.sqrt, Real.sin⟩
      (hits_sphere ⟨Real.sqrt, Real.sin⟩ ⟨0, 0, 0⟩ ⟨0, 0, -1⟩
        (ex_sphere ⟨0, 0, -5⟩ 1)).2.normal = 1 := by
  have hd : 0 < sphere_disc (⟨0, 0, -5⟩ : Vec ℝ) 1 ⟨0, 0, 0⟩ ⟨0, 0, -1⟩ := by
    rw [ex_sphere_disc]
    norm_num
  exact ⟨hd, (hits_sphere_records_hit (ex_sphere ⟨0, 0, -5⟩ 1) ⟨0, 0, -5⟩ ⟨0, 0, 0⟩
    ⟨0, 0, -1⟩ 1 rfl hd).2.2.2⟩

end SphereInstances

/-! ## Claims on `hits_plane` and `hits_fplane` -/

section PlaneClaims

variable {K : Type} [LinearOrderedField K]

/-- The two branches of `hits_plane` in terms of `plane_dist`. -/
theorem hits_plane_eval (obj : obj_t K) (N P O D : Vec K) (pp : plane_priv K)
    (hpriv : obj.priv = obj_priv.plane ⟨N, P, pp⟩) :
    hits_plane O D obj =
      if plane_dist N P O D < 0 ∨ (ray_point O D (plane_dist N P O D)).z > 1 / 100 ∨
          vec_dot3 N D = 0 then (MISS, obj)
      else
        (plane_dist N P O D,
          { obj with
            hitloc := vec_scale3 1 (ray_point O D (plane_dist N P O D))
            normal := vec_scale3 1 N }) := by
  simp only [hits_plane, hpriv, obj_priv.as_plane, plane_dist, ray_point]

/-- C14.  For every plane (normal `N`, point `P`) and origin `O`: if `N.D = 0`
`hits_plane` returns `MISS`, and if `N.D ≠ 0` but `t = (N.P - N.O) / (N.D) < 0`
it returns `MISS`; in both cases the object, with its recorded hit point and
normal, is left as it was. -/
theorem hits_plane_parallel_or_behind (obj : obj_t K) (N P O D : Vec K) (pp : plane_priv K)
    (hpriv : obj.priv = obj_priv.plane ⟨N, P, pp⟩) :
    (vec_dot3 N D = 0 →
      hits_plane O D obj = (MISS, obj) ∧ (hits_plane O D obj).2.hitloc = obj.hitloc ∧
      (hits_plane O D obj).2.normal = obj.normal) ∧
    (vec_dot3 N D ≠ 0 → plane_dist N P O D < 0 →
      hits_plane O D obj = (MISS, obj) ∧ (hits_plane O D obj).2.hitloc = obj.hitloc ∧
      (hits_plane O D obj).2.normal = obj.normal) := by
  constructor
  · intro h
    have e : hits_plane O D obj = (MISS, obj) := by
      rw [hits_plane_eval obj N P O D pp hpriv, if_pos (Or.inr (Or.inr h))]
    rw [e]
    exact ⟨rfl, rfl, rfl⟩
  · intro _ h
    have e : hits_plane O D obj = (MISS, obj) := by
      rw [hits_plane_eval obj N P O D pp hpriv, if_pos (Or.inl h)]
    rw [e]
    exact ⟨rfl, rfl, rfl⟩

/-- C15.  Whenever `hits_plane` returns a value `t` other than `MISS`, then
`N.D ≠ 0`, `t = (N.P - N.O) / (N.D) ≥ 0`, the recorded hit point is `O + t D`
and lies on the plane (`N.hit = N.P`), and the recorded normal is the stored
normal `N` itself. -/
theorem hits_plane_hit (obj : obj_t K) (N P O D : Vec K) (pp : plane_priv K)
    (hpriv : obj.priv = obj_priv.plane ⟨N, P, pp⟩)
    (hhit : (hits_plane O D obj).1 ≠ MISS) :
    vec_dot3 N D ≠ 0 ∧ (hits_plane O D obj).1 = plane_dist N P O D ∧
    0 ≤ (hits_plane O D obj).1 ∧
    (hits_plane O D obj).2.hitloc = ray_point O D (hits_plane O D obj).1 ∧
    vec_dot3 N (hits_plane O D obj).2.hitloc = vec_dot3 N P ∧
    (hits_plane O D obj).2.normal = N := by
  rw [hits_plane_eval obj N P O D pp hpriv] at hhit ⊢
  by_cases hc : plane_dist N P O D < 0 ∨ (ray_point O D (plane_dist N P O D)).z > 1 / 100 ∨
      vec_dot3 N D = 0
  · rw [if_pos hc] at hhit
    exact absurd rfl hhit
  · rw [if_neg hc]
    have h1 : ¬ plane_dist N P O D < 0 := fun h => hc (Or.inl h)
    have h3 : vec_dot3 N D ≠ 0 := fun h => hc (Or.inr (Or.inr h))
    simp only [vec_scale3_one]
    refine ⟨h3, trivial, not_lt.mp h1, trivial, ?_, trivial⟩
    have ht : plane_dist N P O D * vec_dot3 N D = vec_dot3 N P - vec_dot3 N O := by
      unfold plane_dist
      field_simp
    unfold ray_point vec_sum3 vec_scale3 vec_dot3 at *
    simp only []
    linear_combination ht

/-- C16.  `hits_plane` returns `MISS` whenever the z component of the computed
hit point `O + t D` exceeds `0.01`, whatever `t` is; when that component is at
most `0.01`, `t ≥ 0` and `N.D ≠ 0`, it returns `t`, which is not `MISS`. -/
theorem hits_plane_z_check (obj : obj_t K) (N P O D : Vec K) (pp : plane_priv K)
    (hpriv : obj.priv = obj_priv.plane ⟨N, P, pp⟩) :
    ((ray_point O D (plane_dist N P O D)).z > 1 / 100 →
      hits_plane O D obj = (MISS, obj)) ∧
    ((ray_point O D (plane_dist N P O D)).z ≤ 1 / 100 → 0 ≤ plane_dist N P O D →
      vec_dot3 N D ≠ 0 →
      (hits_plane O D obj).1 = plane_dist N P O D ∧ (hits_plane O D obj).1 ≠ MISS) := by
  constructor
  · intro h
    rw [hits_plane_eval obj N P O D pp hpriv, if_pos (Or.inr (Or.inl h))]
  · intro hz ht hc
    have hn : ¬ (plane_dist N P O D < 0 ∨ (ray_point O D (plane_dist N P O D)).z > 1 / 100 ∨
        vec_dot3 N D = 0) := by
      rintro (h | h | h)
      · exact absurd ht (not_le.mpr h)
      · exact absurd hz (not_le.mpr h)
      · exact hc h
    rw [hits_plane_eval obj N P O D pp hpriv, if_neg hn]
    refine ⟨rfl, ?_⟩
    intro h
    have h2 : plane_dist N P O D = -1 := h
    linarith

end PlaneClaims

section FplaneClaims

variable {K : Type} [LinearOrderedField K]

theorem mat_xform3_rows (y : Mat K) (x : Vec K) :
    mat_xform3 y x = ⟨vec_dot3 y.r0 x, vec_dot3 y.r1 x, vec_dot3 y.r2 x⟩ := by
  simp [mat_xform3, vec_scale3, vec_dot3]

/-- The result of `hits_fplane` in terms of the local coordinates. -/
theorem hits_fplane_eval (obj : obj_t K) (N P O D : Vec K) (f : fplane_t K)
    (hpriv : obj.priv = obj_priv.plane ⟨N, P, plane_priv.fplane f⟩) :
    (hits_fplane O D obj).1 =
      if (hits_plane O D obj).1 < 0 then (hits_plane O D obj).1
      else if vec_dot3 f.rotmat.r0 (vec_diff3 P (hits_plane O D obj).2.hitloc) > f.size.1 ∨
          vec_dot3 f.rotmat.r0 (vec_diff3 P (hits_plane O D obj).2.hitloc) < 0 then MISS
      else if vec_dot3 f.rotmat.r1 (vec_diff3 P (hits_plane O D obj).2.hitloc) > f.size.2 ∨
          vec_dot3 f.rotmat.r1 (vec_diff3 P (hits_plane O D obj).2.hitloc) < 0 then MISS
      else (hits_plane O D obj).1 := by
  rw [hits_fplane_dist]
  simp only [hpriv, obj_priv.as_plane, plane_priv.as_fplane, mat_xform3_rows]

theorem hits_plane_miss_or_nonneg (O D : Vec K) (obj : obj_t K) :
    (hits_plane O D obj).1 = MISS ∨ 0 ≤ (hits_plane O D obj).1 := by
  unfold hits_plane
  simp only []
  split_ifs with h
  · exact Or.inl rfl
  · exact Or.inr (not_lt.mp (fun h2 => h (Or.inl h2)))

/-- C17.  For every finite plane (reference point `P`, rotation matrix rows
`row0`, `row1`, sizes `(sx, sy)`) and every ray: if the infinite-plane test
hits at point `H` with distance `t`, then with `lx = row0.(H - P)` and
`ly = row1.(H - P)`, `hits_fplane` returns `t` when `0 ≤ lx ≤ sx` and
`0 ≤ ly ≤ sy` and `MISS` otherwise; with non-negative sizes a hit at `H = P` is
inside.  If the infinite-plane test misses, `hits_fplane` returns `MISS`. -/
theorem hits_fplane_bounds (obj : obj_t K) (N P O D : Vec K) (f : fplane_t K)
    (hpriv : obj.priv = obj_priv.plane ⟨N, P, plane_priv.fplane f⟩) :
    ((hits_plane O D obj).1 ≠ MISS →
      ((0 ≤ vec_dot3 f.rotmat.r0 (vec_diff3 P (hits_plane O D obj).2.hitloc) ∧
          vec_dot3 f.rotmat.r0 (vec_diff3 P (hits_plane O D obj).2.hitloc) ≤ f.size.1 ∧
          0 ≤ vec_dot3 f.rotmat.r1 (vec_diff3 P (hits_plane O D obj).2.hitloc) ∧
          vec_dot3 f.rotmat.r1 (vec_diff3 P (hits_plane O D obj).2.hitloc) ≤ f.size.2) →
        (hits_fplane O D obj).1 = (hits_plane O D obj).1) ∧
      (¬ (0 ≤ vec_dot3 f.rotmat.r0 (vec_diff3 P (hits_plane O D obj).2.hitloc) ∧
          vec_dot3 f.rotmat.r0 (vec_diff3 P (hits_plane O D obj).2.hitloc) ≤ f.size.1 ∧
          0 ≤ vec_dot3 f.rotmat.r1 (vec_diff3 P (hits_plane O D obj).2.hitloc) ∧
          vec_dot3 f.rotmat.r1 (vec_diff3 P (hits_plane O D obj).2.hitloc) ≤ f.size.2) →
        (hits_fplane O D obj).1 = MISS) ∧
      ((hits_plane O D obj).2.hitloc = P → 0 ≤ f.size.1 → 0 ≤ f.size.2 →
        (hits_fplane O D obj).1 = (hits_plane O D obj).1)) ∧
    ((hits_plane O D obj).1 = MISS → (hits_fplane O D obj).1 = MISS) := by
  have heval := hits_fplane_eval obj N P O D f hpriv
  constructor
  · intro hhit
    have hnn : ¬ (hits_plane O D obj).1 < 0 := by
      rcases hits_plane_miss_or_nonneg O D obj with h | h
      · exact absurd h hhit
      · exact not_lt.mpr h
    rw [if_neg hnn] at heval
    have hin : (0 ≤ vec_dot3 f.rotmat.r0 (vec_diff3 P (hits_plane O D obj).2.hitloc) ∧
          vec_dot3 f.rotmat.r0 (vec_diff3 P (hits_plane O D obj).2.hitloc) ≤ f.size.1 ∧
          0 ≤ vec_dot3 f.rotmat.r1 (vec_diff3 P (hits_plane O D obj).2.hitloc) ∧
          vec_dot3 f.rotmat.r1 (vec_diff3 P (hits_plane O D obj).2.hitloc) ≤ f.size.2) →
        (hits_fplane O D obj).1 = (hits_plane O D obj).1 := by
      rintro ⟨a1, a2, a3, a4⟩
      rw [heval, if_neg, if_neg]
      · rintro (h | h)
        · exact absurd a4 (not_le.mpr h)
        · exact absurd a3 (not_le.mpr h)
      · rintro (h | h)
        · exact absurd a2 (not_le.mpr h)
        · exact absurd a1 (not_le.mpr h)
    refine ⟨hin, ?_, ?_⟩
    · intro hout
      rw [heval]
      split_ifs with h1 h2
      · rfl
      · rfl
      · exfalso
        apply hout
        exact ⟨not_lt.mp (fun h => h1 (Or.inr h)), not_lt.mp (fun h => h1 (Or.inl h)),
          not_lt.mp (fun h => h2 (Or.inr h)), not_lt.mp (fun h => h2 (Or.inl h))⟩
    · intro hP h1 h2
      apply hin
      rw [hP]
      simp [vec_dot3, vec_diff3, h1, h2]
  · intro hmiss
    rw [heval, if_pos (by rw [hmiss]; simp [MISS]), hmiss]

end FplaneClaims

section PlaneInstances

/-- The infinite-plane test on `z = 0` from `(x, y, 1)` down the z axis. -/
theorem ex_hits_plane_down (x y : ℝ) (obj : obj_t ℝ) (pp : plane_priv ℝ)
    (hpriv : obj.priv = obj_priv.plane ⟨⟨0, 0, 1⟩, ⟨0, 0, 0⟩, pp⟩) :
    (hits_plane ⟨x, y, 1⟩ ⟨0, 0, -1⟩ obj).1 = 1 ∧
    (hits_plane ⟨x, y, 1⟩ ⟨0, 0, -1⟩ obj).2.hitloc = ⟨x, y, 0⟩ := by
  rw [hits_plane_eval obj _ _ _ _ pp hpriv]
  have ht : plane_dist (⟨0, 0, 1⟩ : Vec ℝ) ⟨0, 0, 0⟩ ⟨x, y, 1⟩ ⟨0, 0, -1⟩ = 1 := by
    simp [plane_dist, vec_dot3]
  rw [ht, if_neg]
  · simp [ray_point, vec_sum3, vec_scale3]
  · simp [ray_point, vec_sum3, vec_scale3, vec_dot3]

/-- C14, an instance: the ray from `(0, 0, 1)` along `(1, 0, 0)` is parallel to
the plane `z = 0`. -/
theorem hits_plane_parallel_or_behind_witness :
    vec_dot3 (⟨0, 0, 1⟩ : Vec ℝ) ⟨1, 0, 0⟩ = 0 ∧
    hits_plane ⟨0, 0, 1⟩ ⟨1, 0, 0⟩ (ex_plane (0 : ℝ) 0) = (MISS, ex_plane (0 : ℝ) 0) := by
  have h : vec_dot3 (⟨0, 0, 1⟩ : Vec ℝ) ⟨1, 0, 0⟩ = 0 := by simp [vec_dot3]
  exact ⟨h, ((hits_plane_parallel_or_behind (ex_plane (0 : ℝ) 0) ⟨0, 0, 1⟩ ⟨0, 0, 0⟩
    ⟨0, 0, 1⟩ ⟨1, 0, 0⟩ plane_priv.null rfl).1 h).1⟩

/-- C15, an instance: the plane `z = 0` met from `(0, 0, 1)` down the z axis at
distance 1. -/
theorem hits_plane_hit_witness :
    (hits_plane ⟨0, 0, 1⟩ ⟨0, 0, -1⟩ (ex_plane (0 : ℝ) 0)).1 ≠ MISS ∧
    vec_dot3 ⟨0, 0, 1⟩ (hits_plane ⟨0, 0, 1⟩ ⟨0, 0, -1⟩ (ex_plane (0 : ℝ) 0)).2.hitloc =
      vec_dot3 (⟨0, 0, 1⟩ : Vec ℝ) ⟨0, 0, 0⟩ := by
  have h : (hits_plane ⟨0, 0, 1⟩ ⟨0, 0, -1⟩ (ex_plane (0 : ℝ) 0)).1 ≠ MISS := by
    rw [(ex_hits_plane_down 0 0 (ex_plane (0 : ℝ) 0) plane_priv.null rfl).1]
    unfold MISS
    norm_num
  exact ⟨h, (hits_plane_hit (ex_plane (0 : ℝ) 0) ⟨0, 0, 1⟩ ⟨0, 0, 0⟩ ⟨0, 0, 1⟩ ⟨0, 0, -1⟩
    plane_priv.null rfl h).2.2.2.2.1⟩

/-- C16, an instance: the plane `z = 1` met from `(0, 0, 2)` down the z axis; the
hit point `(0, 0, 1)` has z component above `0.01`. -/
theorem hits_plane_z_check_witness :
    (ray_point (⟨0, 0, 2⟩ : Vec ℝ) ⟨0, 0, -1⟩
      (plane_dist ⟨0, 0, 1⟩ ⟨0, 0, 1⟩ ⟨0, 0, 2⟩ ⟨0, 0, -1⟩)).z > 1 / 100 ∧
    0 ≤ plane_dist (⟨0, 0, 1⟩ : Vec ℝ) ⟨0, 0, 1⟩ ⟨0, 0, 2⟩ ⟨0, 0, -1⟩ ∧
    hits_plane ⟨0, 0, 2⟩ ⟨0, 0, -1⟩ (ex_plane (1 : ℝ) 0) = (MISS, ex_plane (1 : ℝ) 0) := by
  have ht : plane_dist (⟨0, 0, 1⟩ : Vec ℝ) ⟨0, 0, 1⟩ ⟨0, 0, 2⟩ ⟨0, 0, -1⟩ = 1 := by
    simp [plane_dist, vec_dot3]
    norm_num
  have hz : (ray_point (⟨0, 0, 2⟩ : Vec ℝ) ⟨0, 0, -1⟩
      (plane_dist ⟨0, 0, 1⟩ ⟨0, 0, 1⟩ ⟨0, 0, 2⟩ ⟨0, 0, -1⟩)).z > 1 / 100 := by
    rw [ht]
    simp [ray_point, vec_sum3, vec_scale3]
    norm_num
  exact ⟨hz, by rw [ht]; norm_num,
    (hits_plane_z_check (ex_plane (1 : ℝ) 0) ⟨0, 0, 1⟩ ⟨0, 0, 1⟩ ⟨0, 0, 2⟩ ⟨0, 0, -1⟩
      plane_priv.null rfl).1 hz⟩

/-- C17, an instance: the finite plane `ex_fplane 2 2` met from `(1, 1, 1)` down
the z axis at `H = (1, 1, 0)`, local coordinates `(1, 1)`. -/
theorem hits_fplane_bounds_witness :
    (hits_plane ⟨1, 1, 1⟩ ⟨0, 0, -1⟩ (ex_fplane (2 : ℝ) 2)).1 ≠ MISS ∧
    (hits_fplane ⟨1, 1, 1⟩ ⟨0, 0, -1⟩ (ex_fplane (2 : ℝ) 2)).1 =
      (hits_plane ⟨1, 1, 1⟩ ⟨0, 0, -1⟩ (ex_fplane (2 : ℝ) 2)).1 := by
  obtain ⟨h1, h2⟩ := ex_hits_plane_down 1 1 (ex_fplane (2 : ℝ) 2) _ rfl
  have h : (hits_plane ⟨1, 1, 1⟩ ⟨0, 0, -1⟩ (ex_fplane (2 : ℝ) 2)).1 ≠ MISS := by
    rw [h1]
    unfold MISS
    norm_num
  refine ⟨h, ((hits_fplane_bounds (ex_fplane (2 : ℝ) 2) ⟨0, 0, 1⟩ ⟨0, 0, 0⟩ ⟨1, 1, 1⟩
    ⟨0, 0, -1⟩ _ rfl).1 h).1 ?_⟩
  rw [h2]
  simp [vec_dot3, vec_diff3]

end PlaneInstances

/-! ## Claims on the rotation matrices built by the loaders -/

section FrameLemmas

variable {K : Type} [LinearOrderedField K]

/-- Lagrange's identity for the source cross product. -/
theorem vec_cross3_dot_self (u w : Vec K) :
    vec_dot3 (vec_cross3 u w) (vec_cross3 u w) =
      vec_dot3 u u * vec_dot3 w w - vec_dot3 u w * vec_dot3 u w := by
  simp only [vec_cross3, vec_scale3, vec_dot3]
  ring

theorem vec_cross3_dot_left (u w : Vec K) : vec_dot3 (vec_cross3 u w) u = 0 := by
  simp only [vec_cross3, vec_scale3, vec_dot3]
  ring

theorem vec_cross3_dot_right (u w : Vec K) : vec_dot3 (vec_cross3 u w) w = 0 := by
  simp only [vec_cross3, vec_scale3, vec_dot3]
  ring

theorem vec_dot3_comm (u w : Vec K) : vec_dot3 u w = vec_dot3 w u := by
  simp only [vec_dot3]
  ring

theorem vec_dot3_scale (α β : K) (u w : Vec K) :
    vec_dot3 (vec_scale3 α u) (vec_scale3 β w) = α * β * vec_dot3 u w := by
  simp only [vec_scale3, vec_dot3]
  ring

theorem vec_dot3_self_pos {v : Vec K} (h : v ≠ Vec.zero) : 0 < vec_dot3 v v := by
  by_contra hn
  exact h ((vec_dot3_self_pos_iff v).mp hn)

/-- The projection of `v` on the plane with unit normal `n` is orthogonal to `n`. -/
theorem vec_project3_dot (n v : Vec K) (hn : vec_dot3 n n = 1) :
    vec_dot3 n (vec_project3 n v) = 0 := by
  simp only [vec_project3, vec_scale3, vec_diff3, vec_dot3] at hn ⊢
  linear_combination (-(n.x * v.x + n.y * v.y + n.z * v.z)) * hn

theorem vec_project3_dot_self (n v : Vec K) (hn : vec_dot3 n n = 1) :
    vec_dot3 (vec_project3 n v) (vec_project3 n v) =
      vec_dot3 n n * vec_dot3 v v - vec_dot3 n v * vec_dot3 n v := by
  simp only [vec_project3, vec_scale3, vec_diff3, vec_dot3] at hn ⊢
  linear_combination
    ((n.x * v.x + n.y * v.y + n.z * v.z) ^ 2 - (v.x * v.x + v.y * v.y + v.z * v.z)) * hn

end FrameLemmas

section FrameClaims

/-- An orthonormal pair and its cross product form an orthonormal frame. -/
theorem frame_of_pair (r0 r2 : Vec ℝ) (h0 : vec_dot3 r0 r0 = 1) (h2 : vec_dot3 r2 r2 = 1)
    (h20 : vec_dot3 r2 r0 = 0) :
    vec_length3 ⟨Real.sqrt, Real.sin⟩ r0 = 1 ∧
    vec_length3 ⟨Real.sqrt, Real.sin⟩ (vec_cross3 r2 r0) = 1 ∧
    vec_length3 ⟨Real.sqrt, Real.sin⟩ r2 = 1 ∧
    vec_dot3 r0 (vec_cross3 r2 r0) = 0 ∧ vec_dot3 r0 r2 = 0 ∧
    vec_dot3 (vec_cross3 r2 r0) r2 = 0 := by
  have h1 : vec_dot3 (vec_cross3 r2 r0) (vec_cross3 r2 r0) = 1 := by
    rw [vec_cross3_dot_self, h0, h2, h20]
    norm_num
  refine ⟨?_, ?_, ?_, ?_, ?_, ?_⟩
  · rw [vec_length3_eq, h0]; exact Real.sqrt_one
  · rw [vec_length3_eq, h1]; exact Real.sqrt_one
  · rw [vec_length3_eq, h2]; exact Real.sqrt_one
  · rw [vec_dot3_comm]; exact vec_cross3_dot_right r2 r0
  · rw [vec_dot3_comm]; exact h20
  · exact vec_cross3_dot_left r2 r0

/-- C18.  For every finite plane built by `fplane_init` from a nonzero normal
`n` and an x-direction `x` that is nonzero and not parallel to `n`
(`n × x ≠ 0`), the rows of the stored rotation matrix are: row 2 `= n / |n|`,
row 0 `=` the normalized projection of `x / |x|` onto the plane orthogonal to
`n`, row 1 `=` row 2 `×` row 0; all three rows have length 1 and are pairwise
orthogonal. -/
theorem fplane_init_frame (raw : obj_t ℝ) (rawf : fplane_t ℝ) (objid objtype : Int)
    (mat : material_t ℝ) (n P x : Vec ℝ) (size : ℝ × ℝ)
    (hn : n ≠ Vec.zero) (hx : x ≠ Vec.zero) (hnx : vec_cross3 n x ≠ Vec.zero) :
    (fplane_rotmat (fplane_init ⟨Real.sqrt, Real.sin⟩ raw rawf objid objtype mat n P x size)).r2 =
      vec_scale3 (1 / vec_length3 ⟨Real.sqrt, Real.sin⟩ n) n ∧
    (fplane_rotmat (fplane_init ⟨Real.sqrt, Real.sin⟩ raw rawf objid objtype mat n P x size)).r0 =
      vec_scale3
        (1 / vec_length3 ⟨Real.sqrt, Real.sin⟩
          (vec_project3 (vec_scale3 (1 / vec_length3 ⟨Real.sqrt, Real.sin⟩ n) n)
            (vec_scale3 (1 / vec_length3 ⟨Real.sqrt, Real.sin⟩ x) x)))
        (vec_project3 (vec_scale3 (1 / vec_length3 ⟨Real.sqrt, Real.sin⟩ n) n)
          (vec_scale3 (1 / vec_length3 ⟨Real.sqrt, Real.sin⟩ x) x)) ∧
    (fplane_rotmat (fplane_init ⟨Real.sqrt, Real.sin⟩ raw rawf objid objtype mat n P x size)).r1 =
      vec_cross3
        (fplane_rotmat
          (fplane_init ⟨Real.sqrt, Real.sin⟩ raw rawf objid objtype mat n P x size)).r2
        (fplane_rotmat
          (fplane_init ⟨Real.sqrt, Real.sin⟩ raw rawf objid objtype mat n P x size)).r0 ∧
    vec_length3 ⟨Real.sqrt, Real.sin⟩ (fplane_rotmat
      (fplane_init ⟨Real.sqrt, Real.sin⟩ raw rawf objid objtype mat n P x size)).r0 = 1 ∧
    vec_length3 ⟨Real.sqrt, Real.sin⟩ (fplane_rotmat
      (fplane_init ⟨Real.sqrt, Real.sin⟩ raw rawf objid objtype mat n P x size)).r1 = 1 ∧
    vec_length3 ⟨Real.sqrt, Real.sin⟩ (fplane_rotmat
      (fplane_init ⟨Real.sqrt, Real.sin⟩ raw rawf objid objtype mat n P x size)).r2 = 1 ∧
    vec_dot3
      (fplane_rotmat
        (fplane_init ⟨Real.sqrt, Real.sin⟩ raw rawf objid objtype mat n P x size)).r0
      (fplane_rotmat
        (fplane_init ⟨Real.sqrt, Real.sin⟩ raw rawf objid objtype mat n P x size)).r1 = 0 ∧
    vec_dot3
      (fplane_rotmat
        (fplane_init ⟨Real.sqrt, Real.sin⟩ raw rawf objid objtype mat n P x size)).r0
      (fplane_rotmat
        (fplane_init ⟨Real.sqrt, Real.sin⟩ raw rawf objid objtype mat n P x size)).r2 = 0 ∧
    vec_dot3
      (fplane_rotmat
        (fplane_init ⟨Real.sqrt, Real.sin⟩ raw rawf objid objtype mat n P x size)).r1
      (fplane_rotmat
        (fplane_init ⟨Real.sqrt, Real.sin⟩ raw rawf objid objtype mat n P x size)).r2 = 0 := by
  have hn0 := vec_dot3_self_pos hn
  have hx0 := vec_dot3_self_pos hx
  have hc0 := vec_dot3_self_pos hnx
  obtain ⟨nL, nU, nD, nLen⟩ := vec_unit3_real n n hn0
  obtain ⟨xL, xU, xD, -⟩ := vec_unit3_real x x hx0
  have hp0 : 0 < vec_dot3
      (vec_project3 (vec_unit3 ⟨Real.sqrt, Real.sin⟩ n n) (vec_unit3 ⟨Real.sqrt, Real.sin⟩ x x))
      (vec_project3 (vec_unit3 ⟨Real.sqrt, Real.sin⟩ n n)
        (vec_unit3 ⟨Real.sqrt, Real.sin⟩ x x)) := by
    rw [vec_project3_dot_self _ _ nD]
    rw [nU, xU, vec_dot3_scale, vec_dot3_scale, vec_dot3_scale]
    rw [vec_cross3_dot_self] at hc0
    have ha : 0 < 1 / vec_length3 ⟨Real.sqrt, Real.sin⟩ n := by positivity
    have hb : 0 < 1 / vec_length3 ⟨Real.sqrt, Real.sin⟩ x := by positivity
    have hab : 0 < (1 / vec_length3 ⟨Real.sqrt, Real.sin⟩ n) *
        (1 / vec_length3 ⟨Real.sqrt, Real.sin⟩ n) *
        ((1 / vec_length3 ⟨Real.sqrt, Real.sin⟩ x) *
          (1 / vec_length3 ⟨Real.sqrt, Real.sin⟩ x)) := by positivity
    nlinarith [mul_pos hab hc0]
  obtain ⟨-, pU, pD, -⟩ := vec_unit3_real
    (vec_project3 (vec_unit3 ⟨Real.sqrt, Real.sin⟩ n n) (vec_unit3 ⟨Real.sqrt, Real.sin⟩ x x))
    rawf.rotmat.r0 hp0
  have hn1 : 0 < vec_dot3 (vec_unit3 ⟨Real.sqrt, Real.sin⟩ n n)
      (vec_unit3 ⟨Real.sqrt, Real.sin⟩ n n) := by rw [nD]; norm_num
  obtain ⟨-, qU, qD, -⟩ := vec_unit3_real (vec_unit3 ⟨Real.sqrt, Real.sin⟩ n n)
    rawf.rotmat.r2 hn1
  have hq : vec_unit3 ⟨Real.sqrt, Real.sin⟩ (vec_unit3 ⟨Real.sqrt, Real.sin⟩ n n)
      rawf.rotmat.r2 = vec_unit3 ⟨Real.sqrt, Real.sin⟩ n n := by
    rw [qU, nLen]
    simp [vec_scale3]
  have h20 : vec_dot3 (vec_unit3 ⟨Real.sqrt, Real.sin⟩ n n)
      (vec_unit3 ⟨Real.sqrt, Real.sin⟩
        (vec_project3 (vec_unit3 ⟨Real.sqrt, Real.sin⟩ n n)
          (vec_unit3 ⟨Real.sqrt, Real.sin⟩ x x)) rawf.rotmat.r0) = 0 := by
    rw [pU]
    have h := vec_dot3_scale 1 (1 / vec_length3 ⟨Real.sqrt, Real.sin⟩
      (vec_project3 (vec_unit3 ⟨Real.sqrt, Real.sin⟩ n n)
        (vec_unit3 ⟨Real.sqrt, Real.sin⟩ x x)))
      (vec_unit3 ⟨Real.sqrt, Real.sin⟩ n n)
      (vec_project3 (vec_unit3 ⟨Real.sqrt, Real.sin⟩ n n)
        (vec_unit3 ⟨Real.sqrt, Real.sin⟩ x x))
    rw [vec_scale3_one, vec_project3_dot _ _ nD] at h
    rw [h]
    ring
  have e0 : (fplane_rotmat
      (fplane_init ⟨Real.sqrt, Real.sin⟩ raw rawf objid objtype mat n P x size)).r0 =
      vec_unit3 ⟨Real.sqrt, Real.sin⟩
        (vec_project3 (vec_unit3 ⟨Real.sqrt, Real.sin⟩ n n)
          (vec_unit3 ⟨Real.sqrt, Real.sin⟩ x x)) rawf.rotmat.r0 := rfl
  have e2 : (fplane_rotmat
      (fplane_init ⟨Real.sqrt, Real.sin⟩ raw rawf objid objtype mat n P x size)).r2 =
      vec_unit3 ⟨Real.sqrt, Real.sin⟩ (vec_unit3 ⟨Real.sqrt, Real.sin⟩ n n)
        rawf.rotmat.r2 := rfl
  have e1 : (fplane_rotmat
      (fplane_init ⟨Real.sqrt, Real.sin⟩ raw rawf objid objtype mat n P x size)).r1 =
      vec_cross3
        (fplane_rotmat
          (fplane_init ⟨Real.sqrt, Real.sin⟩ raw rawf objid objtype mat n P x size)).r2
        (fplane_rotmat
          (fplane_init ⟨Real.sqrt, Real.sin⟩ raw rawf objid objtype mat n P x size)).r0 := rfl
  rw [e1, e2, e0, hq]
  obtain ⟨f1, f2, f3, f4, f5, f6⟩ := frame_of_pair _ _ pD nD h20
  refine ⟨nU, ?_, rfl, f1, f2, f3, f4, f5, f6⟩
  rw [pU, nU, xU]

end FrameClaims

/-! ## Claims on `tp_select` -/

section TileClaims

variable {K : Type} [LinearOrderedField K] [FloorRing K]

/-- The cast `(int)(10000 + q)` for `-10000 ≤ q`. -/
theorem c_int_offset (q : K) (h : -10000 ≤ q) : c_int (10000 + q) = 10000 + Int.floor q := by
  unfold c_int
  rw [if_pos (by linarith)]
  have := Int.floor_int_add (10000 : ℤ) q
  push_cast at this
  exact this

/-- `tp_select` in terms of the local coordinates. -/
theorem tp_select_eval (obj : obj_t K) (N P : Vec K) (tp : tplane_t K)
    (hpriv : obj.priv = obj_priv.plane ⟨N, P, plane_priv.tplane tp⟩) :
    tp_select obj =
      Int.tmod
        (c_int (10000 + vec_dot3 tp.rotmat.r0 (vec_diff3 P obj.hitloc) / tp.size.1) +
          c_int (10000 + vec_dot3 tp.rotmat.r1 (vec_diff3 P obj.hitloc) / tp.size.2)) 2 := by
  simp only [tp_select, hpriv, obj_priv.as_plane, plane_priv.as_tplane, mat_xform3_rows]

set_option linter.unusedVariables false in
/-- C20.  For every tiled plane with positive tile sizes `(sx, sy)` and every
recorded hit point whose local coordinates `lx = row0.(hit - point)` and
`ly = row1.(hit - point)` satisfy `-10000 ≤ lx/sx < 10^9` and
`-10000 ≤ ly/sy < 10^9`, `tp_select` returns
`(floor(lx/sx) + floor(ly/sy)) mod 2`: 1 when that sum is odd and 0 when it is
even.  The two casts and their sum lie in the range of a 32-bit `int`. -/
theorem tp_select_parity (obj : obj_t K) (N P : Vec K) (tp : tplane_t K)
    (hpriv : obj.priv = obj_priv.plane ⟨N, P, plane_priv.tplane tp⟩)
    (hsx : 0 < tp.size.1) (hsy : 0 < tp.size.2)
    (hx1 : -10000 ≤ vec_dot3 tp.rotmat.r0 (vec_diff3 P obj.hitloc) / tp.size.1)
    (hx2 : vec_dot3 tp.rotmat.r0 (vec_diff3 P obj.hitloc) / tp.size.1 < 10 ^ 9)
    (hy1 : -10000 ≤ vec_dot3 tp.rotmat.r1 (vec_diff3 P obj.hitloc) / tp.size.2)
    (hy2 : vec_dot3 tp.rotmat.r1 (vec_diff3 P obj.hitloc) / tp.size.2 < 10 ^ 9) :
    tp_select obj =
      (Int.floor (vec_dot3 tp.rotmat.r0 (vec_diff3 P obj.hitloc) / tp.size.1) +
        Int.floor (vec_dot3 tp.rotmat.r1 (vec_diff3 P obj.hitloc) / tp.size.2)) % 2 ∧
    (Odd (Int.floor (vec_dot3 tp.rotmat.r0 (vec_diff3 P obj.hitloc) / tp.size.1) +
        Int.floor (vec_dot3 tp.rotmat.r1 (vec_diff3 P obj.hitloc) / tp.size.2)) →
      tp_select obj = 1) ∧
    (Even (Int.floor (vec_dot3 tp.rotmat.r0 (vec_diff3 P obj.hitloc) / tp.size.1) +
        Int.floor (vec_dot3 tp.rotmat.r1 (vec_diff3 P obj.hitloc) / tp.size.2)) →
      tp_select obj = 0) ∧
    (0 ≤ c_int (10000 + vec_dot3 tp.rotmat.r0 (vec_diff3 P obj.hitloc) / tp.size.1) ∧
      0 ≤ c_int (10000 + vec_dot3 tp.rotmat.r1 (vec_diff3 P obj.hitloc) / tp.size.2) ∧
      c_int (10000 + vec_dot3 tp.rotmat.r0 (vec_diff3 P obj.hitloc) / tp.size.1) +
        c_int (10000 + vec_dot3 tp.rotmat.r1 (vec_diff3 P obj.hitloc) / tp.size.2) <
        2 ^ 31) := by
  have ex := c_int_offset _ hx1
  have ey := c_int_offset _ hy1
  have fx1 : (-10000 : ℤ) ≤
      Int.floor (vec_dot3 tp.rotmat.r0 (vec_diff3 P obj.hitloc) / tp.size.1) := by
    rw [Int.le_floor]
    push_cast
    exact hx1
  have fy1 : (-10000 : ℤ) ≤
      Int.floor (vec_dot3 tp.rotmat.r1 (vec_diff3 P obj.hitloc) / tp.size.2) := by
    rw [Int.le_floor]
    push_cast
    exact hy1
  have fx2 : Int.floor (vec_dot3 tp.rotmat.r0 (vec_diff3 P obj.hitloc) / tp.size.1) <
      (10 ^ 9 : ℤ) := by
    rw [Int.floor_lt]
    push_cast
    norm_num at hx2 ⊢
    exact hx2
  have fy2 : Int.floor (vec_dot3 tp.rotmat.r1 (vec_diff3 P obj.hitloc) / tp.size.2) <
      (10 ^ 9 : ℤ) := by
    rw [Int.floor_lt]
    push_cast
    norm_num at hy2 ⊢
    exact hy2
  have hsel : tp_select obj =
      (Int.floor (vec_dot3 tp.rotmat.r0 (vec_diff3 P obj.hitloc) / tp.size.1) +
        Int.floor (vec_dot3 tp.rotmat.r1 (vec_diff3 P obj.hitloc) / tp.size.2)) % 2 := by
    rw [tp_select_eval obj N P tp hpriv, ex, ey, Int.tmod_eq_emod (by omega) (by norm_num)]
    omega
  rw [ex, ey]
  refine ⟨hsel, ?_, ?_, by omega, by omega, by omega⟩
  · intro h
    rw [hsel]
    exact Int.odd_iff.mp h
  · intro h
    rw [hsel]
    exact Int.even_iff.mp h

end TileClaims

section FrameInstances

theorem real_sqrt_twenty_five : Real.sqrt 25 = 5 := by
  rw [show (25 : ℝ) = 5 ^ 2 by norm_num]
  exact Real.sqrt_sq (by norm_num)

/-- C18, an instance: normal `(0, 0, 1)` and x-direction `(1, 0, 0)`. -/
theorem fplane_init_frame_witness :
    ((⟨0, 0, 1⟩ : Vec ℝ) ≠ Vec.zero ∧ (⟨1, 0, 0⟩ : Vec ℝ) ≠ Vec.zero ∧
      vec_cross3 (⟨0, 0, 1⟩ : Vec ℝ) ⟨1, 0, 0⟩ ≠ Vec.zero) ∧
    vec_dot3
      (fplane_rotmat (fplane_init ⟨Real.sqrt, Real.sin⟩ ex_blank ex_raw_fplane 0 15
        ⟨Vec.zero, Vec.zero, Vec.zero⟩ ⟨0, 0, 1⟩ ⟨0, 0, 0⟩ ⟨1, 0, 0⟩ (1, 1))).r0
      (fplane_rotmat (fplane_init ⟨Real.sqrt, Real.sin⟩ ex_blank ex_raw_fplane 0 15
        ⟨Vec.zero, Vec.zero, Vec.zero⟩ ⟨0, 0, 1⟩ ⟨0, 0, 0⟩ ⟨1, 0, 0⟩ (1, 1))).r2 = 0 := by
  have h1 : (⟨0, 0, 1⟩ : Vec ℝ) ≠ Vec.zero := by
    intro h
    have := congrArg Vec.z h
    simp [Vec.zero] at this
  have h2 : (⟨1, 0, 0⟩ : Vec ℝ) ≠ Vec.zero := by
    intro h
    have := congrArg Vec.x h
    simp [Vec.zero] at this
  have h3 : vec_cross3 (⟨0, 0, 1⟩ : Vec ℝ) ⟨1, 0, 0⟩ ≠ Vec.zero := by
    intro h
    have := congrArg Vec.y h
    simp [Vec.zero, vec_cross3, vec_scale3] at this
  exact ⟨⟨h1, h2, h3⟩,
    (fplane_init_frame ex_blank ex_raw_fplane 0 15 ⟨Vec.zero, Vec.zero, Vec.zero⟩
      ⟨0, 0, 1⟩ ⟨0, 0, 0⟩ ⟨1, 0, 0⟩ (1, 1) h1 h2 h3).2.2.2.2.2.2.2.1⟩

/-- C19, the code at the failing input: `tplane_init` with normal `(0, 0, 1)`
and x-direction `(3, 0, 4)`, which is nonzero and not parallel to the normal.
The stored rows are `(3/5, 0, 4/5)`, `(0, 3/5, 0)` and `(0, 0, 1)`: row 0 is not
orthogonal to row 2 and row 1 does not have length 1. -/
theorem tplane_init_skew_frame :
    (tplane_rotmat (tplane_init ⟨Real.sqrt, Real.sin⟩ ex_blank ex_raw_tplane 0 16
      ⟨Vec.zero, Vec.zero, Vec.zero⟩ ⟨0, 0, 1⟩ ⟨0, 0, 0⟩ ⟨3, 0, 4⟩ (1, 1)
      ⟨Vec.zero, Vec.zero, Vec.zero⟩)).r0 = (⟨3 / 5, 0, 4 / 5⟩ : Vec ℝ) ∧
    (tplane_rotmat (tplane_init ⟨Real.sqrt, Real.sin⟩ ex_blank ex_raw_tplane 0 16
      ⟨Vec.zero, Vec.zero, Vec.zero⟩ ⟨0, 0, 1⟩ ⟨0, 0, 0⟩ ⟨3, 0, 4⟩ (1, 1)
      ⟨Vec.zero, Vec.zero, Vec.zero⟩)).r1 = (⟨0, 3 / 5, 0⟩ : Vec ℝ) ∧
    (tplane_rotmat (tplane_init ⟨Real.sqrt, Real.sin⟩ ex_blank ex_raw_tplane 0 16
      ⟨Vec.zero, Vec.zero, Vec.zero⟩ ⟨0, 0, 1⟩ ⟨0, 0, 0⟩ ⟨3, 0, 4⟩ (1, 1)
      ⟨Vec.zero, Vec.zero, Vec.zero⟩)).r2 = (⟨0, 0, 1⟩ : Vec ℝ) ∧
    vec_dot3 (⟨3 / 5, 0, 4 / 5⟩ : Vec ℝ) ⟨0, 0, 1⟩ = 4 / 5 ∧
    vec_dot3 (⟨0, 3 / 5, 0⟩ : Vec ℝ) ⟨0, 3 / 5, 0⟩ = 9 / 25 := by
  have e0 : vec_unit3 ⟨Real.sqrt, Real.sin⟩ (⟨3, 0, 4⟩ : Vec ℝ) Vec.zero = ⟨3 / 5, 0, 4 / 5⟩ := by
    have hl : vec_length3 ⟨Real.sqrt, Real.sin⟩ (⟨3, 0, 4⟩ : Vec ℝ) = 5 := by
      rw [vec_length3_eq]
      simp only [vec_dot3]
      norm_num
      exact real_sqrt_twenty_five
    unfold vec_unit3
    rw [hl, if_neg (by norm_num)]
    simp [vec_scale3]
    norm_num
  have e2 : vec_unit3 ⟨Real.sqrt, Real.sin⟩ (⟨0, 0, 1⟩ : Vec ℝ) Vec.zero = ⟨0, 0, 1⟩ := by
    have hl : vec_length3 ⟨Real.sqrt, Real.sin⟩ (⟨0, 0, 1⟩ : Vec ℝ) = 1 := by
      rw [vec_length3_eq]
      simp [vec_dot3]
    unfold vec_unit3
    rw [hl, if_neg (by norm_num)]
    simp [vec_scale3]
  have r0 : (tplane_rotmat (tplane_init ⟨Real.sqrt, Real.sin⟩ ex_blank ex_raw_tplane 0 16
      ⟨Vec.zero, Vec.zero, Vec.zero⟩ ⟨0, 0, 1⟩ ⟨0, 0, 0⟩ ⟨3, 0, 4⟩ (1, 1)
      ⟨Vec.zero, Vec.zero, Vec.zero⟩)).r0 = (⟨3 / 5, 0, 4 / 5⟩ : Vec ℝ) := e0
  have r2 : (tplane_rotmat (tplane_init ⟨Real.sqrt, Real.sin⟩ ex_blank ex_raw_tplane 0 16
      ⟨Vec.zero, Vec.zero, Vec.zero⟩ ⟨0, 0, 1⟩ ⟨0, 0, 0⟩ ⟨3, 0, 4⟩ (1, 1)
      ⟨Vec.zero, Vec.zero, Vec.zero⟩)).r2 = (⟨0, 0, 1⟩ : Vec ℝ) := e2
  have r1 : (tplane_rotmat (tplane_init ⟨Real.sqrt, Real.sin⟩ ex_blank ex_raw_tplane 0 16
      ⟨Vec.zero, Vec.zero, Vec.zero⟩ ⟨0, 0, 1⟩ ⟨0, 0, 0⟩ ⟨3, 0, 4⟩ (1, 1)
      ⟨Vec.zero, Vec.zero, Vec.zero⟩)).r1 = (⟨0, 3 / 5, 0⟩ : Vec ℝ) := by
    show vec_cross3 (vec_unit3 ⟨Real.sqrt, Real.sin⟩ (⟨0, 0, 1⟩ : Vec ℝ) Vec.zero)
      (vec_unit3 ⟨Real.sqrt, Real.sin⟩ (⟨3, 0, 4⟩ : Vec ℝ) Vec.zero) = _
    rw [e0, e2]
    simp [vec_cross3, vec_scale3]
  refine ⟨r0, r1, r2, ?_, ?_⟩
  · simp [vec_dot3]
  · simp [vec_dot3]
    norm_num

/-- C20, an instance: tiles of size `(1, 1)` and the hit point `(3/2, 1/2, 0)`,
which lies in the tile with indices `(1, 0)`. -/
theorem tp_select_parity_witness :
    ((0 : ℝ) < 1 ∧
      (-10000 : ℝ) ≤ vec_dot3 (⟨1, 0, 0⟩ : Vec ℝ) (vec_diff3 ⟨0, 0, 0⟩ ⟨3 / 2, 1 / 2, 0⟩) / 1 ∧
      vec_dot3 (⟨1, 0, 0⟩ : Vec ℝ) (vec_diff3 ⟨0, 0, 0⟩ ⟨3 / 2, 1 / 2, 0⟩) / 1 < 10 ^ 9 ∧
      (-10000 : ℝ) ≤ vec_dot3 (⟨0, 1, 0⟩ : Vec ℝ) (vec_diff3 ⟨0, 0, 0⟩ ⟨3 / 2, 1 / 2, 0⟩) / 1 ∧
      vec_dot3 (⟨0, 1, 0⟩ : Vec ℝ) (vec_diff3 ⟨0, 0, 0⟩ ⟨3 / 2, 1 / 2, 0⟩) / 1 < 10 ^ 9) ∧
    tp_select (ex_tplane (1 : ℝ) 1 ⟨3 / 2, 1 / 2, 0⟩) =
      (Int.floor (vec_dot3 (⟨1, 0, 0⟩ : Vec ℝ) (vec_diff3 ⟨0, 0, 0⟩ ⟨3 / 2, 1 / 2, 0⟩) / 1) +
        Int.floor (vec_dot3 (⟨0, 1, 0⟩ : Vec ℝ) (vec_diff3 ⟨0, 0, 0⟩ ⟨3 / 2, 1 / 2, 0⟩) / 1)) %
        2 := by
  have hx : vec_dot3 (⟨1, 0, 0⟩ : Vec ℝ) (vec_diff3 ⟨0, 0, 0⟩ ⟨3 / 2, 1 / 2, 0⟩) / 1 = 3 / 2 := by
    simp [vec_dot3, vec_diff3]
  have hy : vec_dot3 (⟨0, 1, 0⟩ : Vec ℝ) (vec_diff3 ⟨0, 0, 0⟩ ⟨3 / 2, 1 / 2, 0⟩) / 1 = 1 / 2 := by
    simp [vec_dot3, vec_diff3]
  have a1 : (-10000 : ℝ) ≤
      vec_dot3 (⟨1, 0, 0⟩ : Vec ℝ) (vec_diff3 ⟨0, 0, 0⟩ ⟨3 / 2, 1 / 2, 0⟩) / 1 := by
    rw [hx]; norm_num
  have a2 : vec_dot3 (⟨1, 0, 0⟩ : Vec ℝ) (vec_diff3 ⟨0, 0, 0⟩ ⟨3 / 2, 1 / 2, 0⟩) / 1 <
      10 ^ 9 := by
    rw [hx]; norm_num
  have b1 : (-10000 : ℝ) ≤
      vec_dot3 (⟨0, 1, 0⟩ : Vec ℝ) (vec_diff3 ⟨0, 0, 0⟩ ⟨3 / 2, 1 / 2, 0⟩) / 1 := by
    rw [hy]; norm_num
  have b2 : vec_dot3 (⟨0, 1, 0⟩ : Vec ℝ) (vec_diff3 ⟨0, 0, 0⟩ ⟨3 / 2, 1 / 2, 0⟩) / 1 <
      10 ^ 9 := by
    rw [hy]; norm_num
  exact ⟨⟨one_pos, a1, a2, b1, b2⟩,
    (tp_select_parity (ex_tplane (1 : ℝ) 1 ⟨3 / 2, 1 / 2, 0⟩) ⟨0, 0, 1⟩ ⟨0, 0, 0⟩ _ rfl
      one_pos one_pos a1 a2 b1 b2).1⟩

end FrameInstances

/-! ## Claims on the queries of a tiled plane -/

section TileSteps

variable {K : Type} [LinearOrderedField K] [FloorRing K]

/-- The value of `tp_select` in terms of the local coordinates and tile sizes. -/
theorem tp_select_local (obj : obj_t K) :
    tp_select obj =
      Int.tmod (c_int (10000 + (tp_local obj).x / (tp_size obj).1) +
        c_int (10000 + (tp_local obj).y / (tp_size obj).2)) 2 := rfl

/-- The cast `(int)(10000 + (q + m s)/s)` for `-10000 ≤ q/s`. -/
theorem c_int_offset_step (q s : K) (m : ℕ) (hs : s ≠ 0) (h : -10000 ≤ q / s) :
    c_int (10000 + (q + m * s) / s) = 10000 + Int.floor (q / s) + m := by
  have e : (q + m * s) / s = q / s + m := by
    field_simp
  rw [e, c_int_offset _ (by have : (0 : K) ≤ m := Nat.cast_nonneg m; linarith),
    Int.floor_add_nat]
  ring

/-- The cast `(int)(10000 + q)` for `-10000 ≤ q < 10^9` lies in `[0, 10^9 + 10000)`. -/
theorem c_int_offset_range (q : K) (h1 : -10000 ≤ q) (h2 : q < 10 ^ 9) :
    0 ≤ c_int (10000 + q) ∧ c_int (10000 + q) < 10 ^ 9 + 10000 := by
  rw [c_int_offset q h1]
  have f1 : (-10000 : ℤ) ≤ Int.floor q := by
    rw [Int.le_floor]; push_cast; exact h1
  have f2 : Int.floor q < (10 ^ 9 : ℤ) := by
    rw [Int.floor_lt]
    push_cast
    norm_num at h2 ⊢
    exact h2
  constructor <;> omega

/-- C21.  Let two recorded hit states of one tiled plane with nonzero tile
sizes `(sx, sy)` have local coordinates that differ by `m` tile widths along
the local x axis and `n` tile heights along the local y axis, let the first hit
point have tile coordinates `lx/sx ≥ -10000` and `ly/sy ≥ -10000`, and let
the second have tile coordinates below `10^9`.
Then `tp_select` at the second point is `(tp_select at the first + m + n) mod 2`:
one tile step along either axis (`m + n = 1`) switches between the own and
the background material, and two tile steps (`m + n = 2`) restore the
selection.  At both points the two casts are non-negative and their sum is
below `2^31`, so every `int` in `tp_select` is in the range of a 32-bit
`int`. -/
theorem tp_select_alternates (o1 o2 : obj_t K) (m n : ℕ)
    (hpriv : o2.priv = o1.priv)
    (hsx : (tp_size o1).1 ≠ 0) (hsy : (tp_size o1).2 ≠ 0)
    (hx : (tp_local o2).x = (tp_local o1).x + m * (tp_size o1).1)
    (hy : (tp_local o2).y = (tp_local o1).y + n * (tp_size o1).2)
    (hx1 : -10000 ≤ (tp_local o1).x / (tp_size o1).1)
    (hy1 : -10000 ≤ (tp_local o1).y / (tp_size o1).2)
    (hx2 : (tp_local o2).x / (tp_size o2).1 < 10 ^ 9)
    (hy2 : (tp_local o2).y / (tp_size o2).2 < 10 ^ 9) :
    tp_select o2 = (tp_select o1 + m + n) % 2 ∧
    (m + n = 1 → (tp_select o2 ≠ 0 ↔ tp_select o1 = 0)) ∧
    (m + n = 2 → tp_select o2 = tp_select o1) ∧
    (0 ≤ c_int (10000 + (tp_local o1).x / (tp_size o1).1) ∧
      0 ≤ c_int (10000 + (tp_local o1).y / (tp_size o1).2) ∧
      c_int (10000 + (tp_local o1).x / (tp_size o1).1) +
        c_int (10000 + (tp_local o1).y / (tp_size o1).2) < 2 ^ 31) ∧
    (0 ≤ c_int (10000 + (tp_local o2).x / (tp_size o2).1) ∧
      0 ≤ c_int (10000 + (tp_local o2).y / (tp_size o2).2) ∧
      c_int (10000 + (tp_local o2).x / (tp_size o2).1) +
        c_int (10000 + (tp_local o2).y / (tp_size o2).2) < 2 ^ 31) := by
  have hs : tp_size o2 = tp_size o1 := by unfold tp_size; rw [hpriv]
  rw [hs] at hx2 hy2 ⊢
  have qx : (tp_local o2).x / (tp_size o1).1 = (tp_local o1).x / (tp_size o1).1 + m := by
    rw [hx]; field_simp
  have qy : (tp_local o2).y / (tp_size o1).2 = (tp_local o1).y / (tp_size o1).2 + n := by
    rw [hy]; field_simp
  have mx : (0 : K) ≤ m := Nat.cast_nonneg m
  have ny : (0 : K) ≤ n := Nat.cast_nonneg n
  have rx1 := c_int_offset_range ((tp_local o1).x / (tp_size o1).1) hx1 (by linarith)
  have ry1 := c_int_offset_range ((tp_local o1).y / (tp_size o1).2) hy1 (by linarith)
  have rx2 := c_int_offset_range ((tp_local o2).x / (tp_size o1).1) (by linarith) hx2
  have ry2 := c_int_offset_range ((tp_local o2).y / (tp_size o1).2) (by linarith) hy2
  have e1 := tp_select_local o1
  have e2 := tp_select_local o2
  rw [hs, hx, hy, c_int_offset_step _ _ m hsx hx1, c_int_offset_step _ _ n hsy hy1] at e2
  rw [c_int_offset _ hx1, c_int_offset _ hy1] at e1
  have fx : (-10000 : ℤ) ≤ Int.floor ((tp_local o1).x / (tp_size o1).1) := by
    rw [Int.le_floor]; push_cast; exact hx1
  have fy : (-10000 : ℤ) ≤ Int.floor ((tp_local o1).y / (tp_size o1).2) := by
    rw [Int.le_floor]; push_cast; exact hy1
  rw [Int.tmod_eq_emod (by omega) (by norm_num)] at e1 e2
  refine ⟨by omega, fun h => by omega, fun h => by omega, ⟨rx1.1, ry1.1, by omega⟩,
    ⟨rx2.1, ry2.1, by omega⟩⟩

/-- C22.  For every object, `tp_amb`, `tp_diff` and `tp_spec` return the
ambient, diffuse and specular component of one and the same material
`tp_material obj`: the own material of the surface when `tp_select` is
nonzero, the background material of the tiled plane when it is zero.  The
three queries only read the object: each is a function of the object that
returns the output array and nothing else. -/
theorem tp_queries_same_material (obj : obj_t K) :
    tp_amb obj = (tp_material obj).ambient ∧
    tp_diff obj = (tp_material obj).diffuse ∧
    tp_spec obj = (tp_material obj).specular ∧
    (tp_select obj ≠ 0 → tp_material obj = obj.material) ∧
    (tp_select obj = 0 →
      tp_material obj = obj.priv.as_plane.priv.as_tplane.background) := by
  unfold tp_amb tp_diff tp_spec tp_material
  by_cases h : tp_select obj ≠ 0
  · simp only [if_pos h, vec_scale3_one]
    exact ⟨trivial, trivial, trivial, fun _ => trivial, fun h0 => absurd h0 h⟩
  · simp only [if_neg h, vec_scale3_one]
    exact ⟨trivial, trivial, trivial, fun h0 => absurd h0 h, fun _ => trivial⟩

end TileSteps

section TileStepInstances

/-- C21 as stated fails below the offset: on the tiled plane `z = 0` with tiles
of size `(1, 1)`, the hit points `(-20001/2, 0, 0)` and `(-19999/2, 0, 0)` are
exactly one tile width apart along the local x axis, and `tp_select` is 0
(background) at both, because `(int)(-1/2)` and `(int)(1/2)` are both 0. -/
theorem tp_select_beyond_offset_not_alternating :
    (tp_local (ex_tplane (1 : ℝ) 1 ⟨-19999 / 2, 0, 0⟩)).x =
      (tp_local (ex_tplane (1 : ℝ) 1 ⟨-20001 / 2, 0, 0⟩)).x +
        (tp_size (ex_tplane (1 : ℝ) 1 ⟨-20001 / 2, 0, 0⟩)).1 ∧
    (tp_local (ex_tplane (1 : ℝ) 1 ⟨-19999 / 2, 0, 0⟩)).y =
      (tp_local (ex_tplane (1 : ℝ) 1 ⟨-20001 / 2, 0, 0⟩)).y ∧
    tp_select (ex_tplane (1 : ℝ) 1 ⟨-20001 / 2, 0, 0⟩) = 0 ∧
    tp_select (ex_tplane (1 : ℝ) 1 ⟨-19999 / 2, 0, 0⟩) = 0 := by
  have c1 : c_int (-(1 : ℝ) / 2) = 0 := by
    unfold c_int
    rw [if_neg (by norm_num), Int.ceil_eq_iff]
    norm_num
  have c2 : c_int ((1 : ℝ) / 2) = 0 := by
    unfold c_int
    rw [if_pos (by norm_num), Int.floor_eq_iff]
    norm_num
  have c3 : c_int (10000 : ℝ) = 10000 := by
    unfold c_int
    rw [if_pos (by norm_num), Int.floor_eq_iff]
    norm_num
  refine ⟨?_, ?_, ?_, ?_⟩
  · simp [tp_local, tp_size, ex_tplane, ex_blank, obj_priv.as_plane, plane_priv.as_tplane,
      mat_xform3, vec_diff3, vec_scale3]
    norm_num
  · simp [tp_local, tp_size, ex_tplane, ex_blank, obj_priv.as_plane, plane_priv.as_tplane,
      mat_xform3, vec_diff3, vec_scale3]
  · rw [tp_select_local]
    have e1 : (10000 : ℝ) + (tp_local (ex_tplane (1 : ℝ) 1 ⟨-20001 / 2, 0, 0⟩)).x /
        (tp_size (ex_tplane (1 : ℝ) 1 ⟨-20001 / 2, 0, 0⟩)).1 = -1 / 2 := by
      simp [tp_local, tp_size, ex_tplane, ex_blank, obj_priv.as_plane, plane_priv.as_tplane,
        mat_xform3, vec_diff3, vec_scale3]
      norm_num
    have e2 : (10000 : ℝ) + (tp_local (ex_tplane (1 : ℝ) 1 ⟨-20001 / 2, 0, 0⟩)).y /
        (tp_size (ex_tplane (1 : ℝ) 1 ⟨-20001 / 2, 0, 0⟩)).2 = 10000 := by
      simp [tp_local, tp_size, ex_tplane, ex_blank, obj_priv.as_plane, plane_priv.as_tplane,
        mat_xform3, vec_diff3, vec_scale3]
    rw [e1, e2, c1, c3]
    decide
  · rw [tp_select_local]
    have e1 : (10000 : ℝ) + (tp_local (ex_tplane (1 : ℝ) 1 ⟨-19999 / 2, 0, 0⟩)).x /
        (tp_size (ex_tplane (1 : ℝ) 1 ⟨-19999 / 2, 0, 0⟩)).1 = 1 / 2 := by
      simp [tp_local, tp_size, ex_tplane, ex_blank, obj_priv.as_plane, plane_priv.as_tplane,
        mat_xform3, vec_diff3, vec_scale3]
      norm_num
    have e2 : (10000 : ℝ) + (tp_local (ex_tplane (1 : ℝ) 1 ⟨-19999 / 2, 0, 0⟩)).y /
        (tp_size (ex_tplane (1 : ℝ) 1 ⟨-19999 / 2, 0, 0⟩)).2 = 10000 := by
      simp [tp_local, tp_size, ex_tplane, ex_blank, obj_priv.as_plane, plane_priv.as_tplane,
        mat_xform3, vec_diff3, vec_scale3]
    rw [e1, e2, c2, c3]
    decide

/-- C21, an instance: tiles of size `(1, 1)` and the hit points
`(1/2, 1/2, 0)` and `(3/2, 1/2, 0)`, one tile width apart. -/
theorem tp_select_alternates_witness :
    ((tp_size (ex_tplane (1 : ℝ) 1 ⟨1 / 2, 1 / 2, 0⟩)).1 ≠ 0 ∧
      (-10000 : ℝ) ≤ (tp_local (ex_tplane (1 : ℝ) 1 ⟨1 / 2, 1 / 2, 0⟩)).x /
        (tp_size (ex_tplane (1 : ℝ) 1 ⟨1 / 2, 1 / 2, 0⟩)).1 ∧
      (tp_local (ex_tplane (1 : ℝ) 1 ⟨3 / 2, 1 / 2, 0⟩)).x /
        (tp_size (ex_tplane (1 : ℝ) 1 ⟨3 / 2, 1 / 2, 0⟩)).1 < 10 ^ 9) ∧
    (tp_select (ex_tplane (1 : ℝ) 1 ⟨3 / 2, 1 / 2, 0⟩) ≠ 0 ↔
      tp_select (ex_tplane (1 : ℝ) 1 ⟨1 / 2, 1 / 2, 0⟩) = 0) := by
  have hx : (tp_local (ex_tplane (1 : ℝ) 1 ⟨1 / 2, 1 / 2, 0⟩)).x = 1 / 2 := by
    simp [tp_local, ex_tplane, ex_blank, obj_priv.as_plane, plane_priv.as_tplane,
      mat_xform3, vec_diff3, vec_scale3]
  have hy : (tp_local (ex_tplane (1 : ℝ) 1 ⟨1 / 2, 1 / 2, 0⟩)).y = 1 / 2 := by
    simp [tp_local, ex_tplane, ex_blank, obj_priv.as_plane, plane_priv.as_tplane,
      mat_xform3, vec_diff3, vec_scale3]
  have hx2 : (tp_local (ex_tplane (1 : ℝ) 1 ⟨3 / 2, 1 / 2, 0⟩)).x = 3 / 2 := by
    simp [tp_local, ex_tplane, ex_blank, obj_priv.as_plane, plane_priv.as_tplane,
      mat_xform3, vec_diff3, vec_scale3]
  have hy2 : (tp_local (ex_tplane (1 : ℝ) 1 ⟨3 / 2, 1 / 2, 0⟩)).y = 1 / 2 := by
    simp [tp_local, ex_tplane, ex_blank, obj_priv.as_plane, plane_priv.as_tplane,
      mat_xform3, vec_diff3, vec_scale3]
  have hs1 : (tp_size (ex_tplane (1 : ℝ) 1 ⟨1 / 2, 1 / 2, 0⟩)).1 = 1 := rfl
  have hs2 : (tp_size (ex_tplane (1 : ℝ) 1 ⟨1 / 2, 1 / 2, 0⟩)).2 = 1 := rfl
  have ht1 : (tp_size (ex_tplane (1 : ℝ) 1 ⟨3 / 2, 1 / 2, 0⟩)).1 = 1 := rfl
  have ht2 : (tp_size (ex_tplane (1 : ℝ) 1 ⟨3 / 2, 1 / 2, 0⟩)).2 = 1 := rfl
  have a1 : (tp_size (ex_tplane (1 : ℝ) 1 ⟨1 / 2, 1 / 2, 0⟩)).1 ≠ 0 := by
    rw [hs1]; exact one_ne_zero
  have a2 : (tp_size (ex_tplane (1 : ℝ) 1 ⟨1 / 2, 1 / 2, 0⟩)).2 ≠ 0 := by
    rw [hs2]; exact one_ne_zero
  have b1 : (-10000 : ℝ) ≤ (tp_local (ex_tplane (1 : ℝ) 1 ⟨1 / 2, 1 / 2, 0⟩)).x /
      (tp_size (ex_tplane (1 : ℝ) 1 ⟨1 / 2, 1 / 2, 0⟩)).1 := by
    rw [hx, hs1]; norm_num
  have b2 : (-10000 : ℝ) ≤ (tp_local (ex_tplane (1 : ℝ) 1 ⟨1 / 2, 1 / 2, 0⟩)).y /
      (tp_size (ex_tplane (1 : ℝ) 1 ⟨1 / 2, 1 / 2, 0⟩)).2 := by
    rw [hy, hs2]; norm_num
  have u1 : (tp_local (ex_tplane (1 : ℝ) 1 ⟨3 / 2, 1 / 2, 0⟩)).x /
      (tp_size (ex_tplane (1 : ℝ) 1 ⟨3 / 2, 1 / 2, 0⟩)).1 < 10 ^ 9 := by
    rw [hx2, ht1]; norm_num
  have u2 : (tp_local (ex_tplane (1 : ℝ) 1 ⟨3 / 2, 1 / 2, 0⟩)).y /
      (tp_size (ex_tplane (1 : ℝ) 1 ⟨3 / 2, 1 / 2, 0⟩)).2 < 10 ^ 9 := by
    rw [hy2, ht2]; norm_num
  exact ⟨⟨a1, b1, u1⟩,
    (tp_select_alternates (ex_tplane (1 : ℝ) 1 ⟨1 / 2, 1 / 2, 0⟩)
      (ex_tplane (1 : ℝ) 1 ⟨3 / 2, 1 / 2, 0⟩) 1 0 rfl a1 a2
      (by rw [hx2, hx, hs1]; norm_num) (by rw [hy2, hy, hs2]; norm_num) b1 b2 u1 u2).2.1 rfl⟩

end TileStepInstances

/-! ## Claims on `process_light` and `diffuse_illumination` -/

section LightClaims

variable {K : Type} [LinearOrderedField K] [FloorRing K]

/-- The three paths of `process_light` in terms of the derived quantities. -/
theorem process_light_eval (M : Libm K) (s : State K) (lst : List Nat) (hitobj lightobj : Nat)
    (ivec : Vec K) :
    process_light M s lst hitobj lightobj ivec =
      if light_cos M s hitobj lightobj < 0 then (-1, ivec, s)
      else if (find_closest_obj M s lst (.hitloc hitobj) (light_dir M s hitobj lightobj)
            (some hitobj)).1 ≠ none ∧
          (find_closest_obj M s lst (.hitloc hitobj) (light_dir M s hitobj lightobj)
            (some hitobj)).2.1 < light_dist M s hitobj lightobj then
        (-1, ivec, (find_closest_obj M s lst (.hitloc hitobj) (light_dir M s hitobj lightobj)
            (some hitobj)).2.2)
      else
        (0,
          ⟨ivec.x + (call_getdiff (s.heap hitobj)).x * (s.heap lightobj).emissivity.x *
              light_cos M s hitobj lightobj / light_dist M s hitobj lightobj,
            ivec.y + (call_getdiff (s.heap hitobj)).y * (s.heap lightobj).emissivity.y *
              light_cos M s hitobj lightobj / light_dist M s hitobj lightobj,
            ivec.z + (call_getdiff (s.heap hitobj)).z * (s.heap lightobj).emissivity.z *
              light_cos M s hitobj lightobj / light_dist M s hitobj lightobj⟩,
          ⟨(find_closest_obj M s lst (.hitloc hitobj) (light_dir M s hitobj lightobj)
              (some hitobj)).2.2.heap,
            (find_closest_obj M s lst (.hitloc hitobj) (light_dir M s hitobj lightobj)
              (some hitobj)).2.2.log ++ [Call.getdiff hitobj]⟩) := by
  obtain ⟨h1, h2, -, -⟩ := find_closest_obj_frame M s lst (Ref.hitloc hitobj)
    (light_dir M s hitobj lightobj) (some hitobj)
  have e1 := h2 hitobj (Or.inr rfl)
  have e2 : ((find_closest_obj M s lst (Ref.hitloc hitobj) (light_dir M s hitobj lightobj)
      (some hitobj)).2.2.heap lightobj).emissivity = (s.heap lightobj).emissivity :=
    (h1 lightobj).2.2.2.2.2.2.2.2
  rw [← e1, ← e2]
  rfl

omit [LinearOrderedField K] [FloorRing K] in
/-- The shadow ray's origin is the hit point of the excluded object. -/
theorem shadow_untested (hitobj : Nat) (lst : List Nat) :
    (Ref.hitloc hitobj : Ref K).untested (some hitobj) lst :=
  Or.inl rfl

/-- A surface with a hit distance strictly between 0 and both the light
distance and `INT_MAX` makes `process_light` return without adding. -/
theorem process_light_shadowed (M : Libm K) (s : State K) (lst : List Nat)
    (hitobj lightobj q : Nat) (ivec : Vec K)
    (hq : q ∈ lst) (hne : q ≠ hitobj)
    (h0 : 0 < shadow_dist M s hitobj lightobj q)
    (h1 : shadow_dist M s hitobj lightobj q < light_dist M s hitobj lightobj)
    (h2 : shadow_dist M s hitobj lightobj q < INT_MAX) :
    (process_light M s lst hitobj lightobj ivec).1 = -1 ∧
    (process_light M s lst hitobj lightobj ivec).2.1 = ivec := by
  rw [process_light_eval]
  by_cases hc : light_cos M s hitobj lightobj < 0
  · rw [if_pos hc]; exact ⟨rfl, rfl⟩
  · rw [if_neg hc]
    have hql : some q ≠ some hitobj := fun h => hne (Option.some.inj h)
    rcases find_closest_obj_min M s lst (Ref.hitloc hitobj) (light_dir M s hitobj lightobj)
        (some hitobj) (shadow_untested hitobj lst) with ⟨-, -, a3⟩ | ⟨p, -, b1, b2, -, -, -, b6⟩
    · exact absurd (a3 q hq hql h0) (not_le.mpr h2)
    · have hlt := lt_of_le_of_lt (b6 q hq hql h0) h1
      rw [if_pos ⟨by rw [b1]; simp, by rw [b2]; exact hlt⟩]
      exact ⟨rfl, rfl⟩

/-- Without a surface whose hit distance lies strictly between 0 and both the
light distance and `INT_MAX`, a faced light is added. -/
theorem process_light_lit (M : Libm K) (s : State K) (lst : List Nat)
    (hitobj lightobj : Nat) (ivec : Vec K)
    (hc : 0 ≤ light_cos M s hitobj lightobj)
    (hno : ∀ q ∈ lst, q ≠ hitobj → 0 < shadow_dist M s hitobj lightobj q →
      shadow_dist M s hitobj lightobj q < INT_MAX →
      light_dist M s hitobj lightobj ≤ shadow_dist M s hitobj lightobj q) :
    (process_light M s lst hitobj lightobj ivec).1 = 0 ∧
    (process_light M s lst hitobj lightobj ivec).2.1 =
      ⟨ivec.x + (call_getdiff (s.heap hitobj)).x * (s.heap lightobj).emissivity.x *
          light_cos M s hitobj lightobj / light_dist M s hitobj lightobj,
        ivec.y + (call_getdiff (s.heap hitobj)).y * (s.heap lightobj).emissivity.y *
          light_cos M s hitobj lightobj / light_dist M s hitobj lightobj,
        ivec.z + (call_getdiff (s.heap hitobj)).z * (s.heap lightobj).emissivity.z *
          light_cos M s hitobj lightobj / light_dist M s hitobj lightobj⟩ := by
  rw [process_light_eval, if_neg (not_lt.mpr hc)]
  have hocc : ¬ ((find_closest_obj M s lst (.hitloc hitobj) (light_dir M s hitobj lightobj)
        (some hitobj)).1 ≠ none ∧
      (find_closest_obj M s lst (.hitloc hitobj) (light_dir M s hitobj lightobj)
        (some hitobj)).2.1 < light_dist M s hitobj lightobj) := by
    rintro ⟨n1, n2⟩
    rcases find_closest_obj_min M s lst (Ref.hitloc hitobj) (light_dir M s hitobj lightobj)
        (some hitobj) (shadow_untested hitobj lst) with ⟨a1, -, -⟩ | ⟨p, bp, -, b2, b3, b4, b5, -⟩
    · exact n1 a1
    · rw [b2] at n2
      have hp : p ≠ hitobj := fun h => b3 (by rw [h])
      exact absurd n2 (not_lt.mpr (hno p bp hp b4 b5))
  rw [if_neg hocc]
  exact ⟨rfl, rfl⟩

/-- The result code and the accumulator of `process_light` depend on the state
only through the shaded object and the shapes of the objects. -/
theorem process_light_congr (M : Libm K) (s1 s2 : State K) (lst : List Nat)
    (hitobj lightobj : Nat) (ivec : Vec K)
    (hs : ∀ p, same_shape (s1.heap p) (s2.heap p))
    (hh : s1.heap hitobj = s2.heap hitobj) :
    (process_light M s1 lst hitobj lightobj ivec).1 =
      (process_light M s2 lst hitobj lightobj ivec).1 ∧
    (process_light M s1 lst hitobj lightobj ivec).2.1 =
      (process_light M s2 lst hitobj lightobj ivec).2.1 := by
  have hv : light_vec s1 hitobj lightobj = light_vec s2 hitobj lightobj := by
    unfold light_vec
    rw [hh, (hs lightobj).2.2.1]
  have hd : light_dist M s1 hitobj lightobj = light_dist M s2 hitobj lightobj := by
    unfold light_dist; rw [hv]
  have hdir : light_dir M s1 hitobj lightobj = light_dir M s2 hitobj lightobj := by
    unfold light_dir; rw [hv]
  have hcos : light_cos M s1 hitobj lightobj = light_cos M s2 hitobj lightobj := by
    unfold light_cos; rw [hdir, hh]
  have hhd : hit_dist M s1 (Ref.hitloc hitobj) (light_dir M s2 hitobj lightobj) =
      hit_dist M s2 (Ref.hitloc hitobj) (light_dir M s2 hitobj lightobj) :=
    hit_dist_congr M _ _ (by simp [Ref.read, hh]) hs
  have hf1 := find_closest_loop_scan M (Ref.hitloc hitobj) (light_dir M s2 hitobj lightobj)
    (some hitobj) lst s1 none INT_MAX (shadow_untested hitobj lst)
  have hf2 := find_closest_loop_scan M (Ref.hitloc hitobj) (light_dir M s2 hitobj lightobj)
    (some hitobj) lst s2 none INT_MAX (shadow_untested hitobj lst)
  rw [hhd, ← hf2] at hf1
  have g1 : (find_closest_obj M s1 lst (Ref.hitloc hitobj) (light_dir M s2 hitobj lightobj)
      (some hitobj)).1 = (find_closest_obj M s2 lst (Ref.hitloc hitobj)
      (light_dir M s2 hitobj lightobj) (some hitobj)).1 := (Prod.mk.inj hf1).1
  have g2 : (find_closest_obj M s1 lst (Ref.hitloc hitobj) (light_dir M s2 hitobj lightobj)
      (some hitobj)).2.1 = (find_closest_obj M s2 lst (Ref.hitloc hitobj)
      (light_dir M s2 hitobj lightobj) (some hitobj)).2.1 := (Prod.mk.inj hf1).2
  rw [process_light_eval, process_light_eval, hd, hdir, hcos, g1, g2, hh,
    (hs lightobj).2.2.2.2.2.2.2.2]
  split_ifs
  · exact ⟨rfl, rfl⟩
  · exact ⟨rfl, rfl⟩
  · exact ⟨rfl, rfl⟩


/-- C23.  When the inner product `cos` of the recorded normal of the shaded
surface and the unit direction to the light is negative, `process_light`
returns the code `MISS` with the accumulator and the whole state as they were
(no intersection test is logged, no hit state changes), and the loop of
`diffuse_illumination` goes on with the next light.  When `cos` is exactly 0
the occlusion query is run: every listed surface other than the shaded one is
tested, and unless the query reports an occluder closer than the light the
diffuse query is made and the result code is `EXIT_SUCCESS`; the accumulator is
unchanged because the amount added has the factor `cos`. -/
theorem process_light_facing_away (M : Libm K) (s : State K) (lst : List Nat)
    (hitobj lightobj : Nat) (ivec : Vec K) :
    (light_cos M s hitobj lightobj < 0 →
      process_light M s lst hitobj lightobj ivec = (-1, ivec, s) ∧
      ∀ cursor, diffuse_illumination_loop M lst hitobj (lightobj :: cursor) s ivec =
        diffuse_illumination_loop M lst hitobj cursor
          ⟨s.heap, s.log ++ [Call.process_light hitobj lightobj]⟩ ivec) ∧
    (light_cos M s hitobj lightobj = 0 →
      (process_light M s lst hitobj lightobj ivec).2.1 = ivec ∧
      (∀ q ∈ lst, q ≠ hitobj →
        ∃ e ∈ (process_light M s lst hitobj lightobj ivec).2.2.log, e.tested = some q) ∧
      process_light M s lst hitobj lightobj ivec =
        if (find_closest_obj M s lst (.hitloc hitobj) (light_dir M s hitobj lightobj)
              (some hitobj)).1 ≠ none ∧
            (find_closest_obj M s lst (.hitloc hitobj) (light_dir M s hitobj lightobj)
              (some hitobj)).2.1 < light_dist M s hitobj lightobj then
          (-1, ivec, (find_closest_obj M s lst (.hitloc hitobj)
            (light_dir M s hitobj lightobj) (some hitobj)).2.2)
        else
          (0, ivec,
            ⟨(find_closest_obj M s lst (.hitloc hitobj) (light_dir M s hitobj lightobj)
                (some hitobj)).2.2.heap,
              (find_closest_obj M s lst (.hitloc hitobj) (light_dir M s hitobj lightobj)
                (some hitobj)).2.2.log ++ [Call.getdiff hitobj]⟩)) := by
  constructor
  · intro hc
    have h1 : process_light M s lst hitobj lightobj ivec = (-1, ivec, s) := by
      rw [process_light_eval, if_pos hc]
    refine ⟨h1, fun cursor => ?_⟩
    have hc2 : light_cos M ⟨s.heap, s.log ++ [Call.process_light hitobj lightobj]⟩ hitobj
        lightobj < 0 := hc
    simp only [diffuse_illumination_loop]
    rw [process_light_eval, if_pos hc2]
  · intro hc
    have hev : process_light M s lst hitobj lightobj ivec =
        if (find_closest_obj M s lst (.hitloc hitobj) (light_dir M s hitobj lightobj)
              (some hitobj)).1 ≠ none ∧
            (find_closest_obj M s lst (.hitloc hitobj) (light_dir M s hitobj lightobj)
              (some hitobj)).2.1 < light_dist M s hitobj lightobj then
          (-1, ivec, (find_closest_obj M s lst (.hitloc hitobj)
            (light_dir M s hitobj lightobj) (some hitobj)).2.2)
        else
          (0, ivec,
            ⟨(find_closest_obj M s lst (.hitloc hitobj) (light_dir M s hitobj lightobj)
                (some hitobj)).2.2.heap,
              (find_closest_obj M s lst (.hitloc hitobj) (light_dir M s hitobj lightobj)
                (some hitobj)).2.2.log ++ [Call.getdiff hitobj]⟩) := by
      rw [process_light_eval, if_neg (by rw [hc]; exact lt_irrefl 0), hc]
      simp only [mul_zero, zero_div, add_zero]
    obtain ⟨-, -, ⟨new, n1, -, n3⟩, -⟩ := find_closest_obj_frame M s lst (Ref.hitloc hitobj)
      (light_dir M s hitobj lightobj) (some hitobj)
    refine ⟨?_, ?_, hev⟩
    · rw [hev]
      split_ifs
      · rfl
      · rfl
    · intro q hq hne
      obtain ⟨e, he, het⟩ := n3 q hq (fun h => hne (Option.some.inj h))
      refine ⟨e, ?_, het⟩
      rw [hev]
      split_ifs
      · rw [n1]; exact List.mem_append_right _ he
      · show e ∈ _ ++ [Call.getdiff hitobj]
        rw [n1]
        exact List.mem_append_left _ (List.mem_append_right _ he)

/-- C24.  If a listed surface `q` other than the shaded one has a hit distance
`d` along the ray from the recorded hit point toward the light with
`0 < d < light distance` and `d < INT_MAX`, then `process_light` returns with
the accumulator unchanged.  Hence, when the light distance, the diffuse values
of the shaded surface and the emissive values of the light are non-negative,
no channel of the result is larger than the same channel of the result for any
other scene list `lst2` (for instance the list without the occluder). -/
theorem process_light_occluder_removes_light (M : Libm K) (s : State K) (lst : List Nat)
    (hitobj lightobj q : Nat) (ivec : Vec K)
    (hq : q ∈ lst) (hne : q ≠ hitobj)
    (h0 : 0 < shadow_dist M s hitobj lightobj q)
    (h1 : shadow_dist M s hitobj lightobj q < light_dist M s hitobj lightobj)
    (h2 : shadow_dist M s hitobj lightobj q < INT_MAX) :
    (process_light M s lst hitobj lightobj ivec).2.1 = ivec ∧
    (0 ≤ light_dist M s hitobj lightobj →
      (∀ i, 0 ≤ (call_getdiff (s.heap hitobj)).chan i) →
      (∀ i, 0 ≤ (s.heap lightobj).emissivity.chan i) →
      ∀ lst2 i, ((process_light M s lst hitobj lightobj ivec).2.1).chan i ≤
        ((process_light M s lst2 hitobj lightobj ivec).2.1).chan i) := by
  have hsh := (process_light_shadowed M s lst hitobj lightobj q ivec hq hne h0 h1 h2).2
  refine ⟨hsh, ?_⟩
  intro hL hd he lst2 i
  rw [hsh, process_light_eval]
  split_ifs with c1 c2
  · exact le_refl _
  · exact le_refl _
  · have hc : 0 ≤ light_cos M s hitobj lightobj := not_lt.mp c1
    have dx := hd 0
    have dy := hd 1
    have dz := hd 2
    have ex := he 0
    have ey := he 1
    have ez := he 2
    simp only [Vec.chan] at dx dy dz ex ey ez
    fin_cases i
    · exact le_add_of_nonneg_right (div_nonneg (mul_nonneg (mul_nonneg dx ex) hc) hL)
    · exact le_add_of_nonneg_right (div_nonneg (mul_nonneg (mul_nonneg dy ey) hc) hL)
    · exact le_add_of_nonneg_right (div_nonneg (mul_nonneg (mul_nonneg dz ez) hc) hL)

/-- The loop of `diffuse_illumination`, started in a state that agrees with
`s` on the shaded object and on all shapes, adds the contributions that the
lights have in `s`. -/
theorem diffuse_illumination_loop_sum (M : Libm K) (scene : List Nat) (hitobj : Nat)
    (s : State K) :
    ∀ (lights : List Nat) (s1 : State K) (ivec : Vec K),
      (∀ p, same_shape (s1.heap p) (s.heap p)) → s1.heap hitobj = s.heap hitobj →
      (diffuse_illumination_loop M scene hitobj lights s1 ivec).1 =
        List.foldl vec_sum3 ivec (lights.map (light_contrib M s scene hitobj)) := by
  intro lights
  induction lights with
  | nil => intro s1 ivec _ _; rfl
  | cons l cursor ih =>
    intro s1 ivec hs hh
    simp only [diffuse_illumination_loop, List.map_cons, List.foldl_cons]
    obtain ⟨-, a2, -⟩ := process_light_acc M
      ⟨s1.heap, s1.log ++ [Call.process_light hitobj l]⟩ scene hitobj l ivec
    obtain ⟨f1, f2, -⟩ := process_light_frame M
      ⟨s1.heap, s1.log ++ [Call.process_light hitobj l]⟩ scene hitobj l ivec
    have hc := (process_light_congr M ⟨s1.heap, s1.log ++ [Call.process_light hitobj l]⟩ s
      scene hitobj l Vec.zero hs hh).2
    rw [ih _ _ (fun p => same_shape_trans (f1 p) (hs p)) (by rw [f2]; exact hh), a2, hc]
    rfl

/-- C26.  `diffuse_illumination` returns the entry accumulator plus the sum,
in list order, of the vectors that `process_light` adds for each light of the
lights list in the entry state (nothing is clamped); the vector a light adds
is the same in the state reached after any lights were processed before it;
with an empty lights list the accumulator is returned as it was. -/
theorem diffuse_illumination_sum (M : Libm K) (model : model_t) (s : State K) (hitobj : Nat)
    (ivec : Vec K) :
    (diffuse_illumination M model s hitobj ivec).1 =
      List.foldl vec_sum3 ivec (model.lights.map (light_contrib M s model.scene hitobj)) ∧
    (∀ (before : List Nat) (acc : Vec K) (l : Nat),
      light_contrib M (diffuse_illumination_loop M model.scene hitobj before s acc).2
        model.scene hitobj l = light_contrib M s model.scene hitobj l) ∧
    (model.lights = [] → (diffuse_illumination M model s hitobj ivec).1 = ivec) := by
  refine ⟨?_, ?_, ?_⟩
  · exact diffuse_illumination_loop_sum M model.scene hitobj s model.lights s ivec
      (fun p => same_shape_refl _) rfl
  · intro before acc l
    obtain ⟨f1, f2, -⟩ := diffuse_illumination_loop_frame M model.scene hitobj before s acc
    exact (process_light_congr M _ s model.scene hitobj l Vec.zero f1 f2).2
  · intro h
    unfold diffuse_illumination
    rw [h]
    rfl

end LightClaims

section LightInstances

/-- The light quantities in the example state with the light at `(0, 0, -c)`. -/
theorem ex_lit_light (n : Vec ℝ) (z2 c : ℝ) (hc : 0 < c) :
    light_dist ⟨Real.sqrt, Real.sin⟩ (ex_lit n z2 ⟨0, 0, -c⟩) 1 3 = c ∧
    light_dir ⟨Real.sqrt, Real.sin⟩ (ex_lit n z2 ⟨0, 0, -c⟩) 1 3 = ⟨0, 0, -1⟩ ∧
    light_cos ⟨Real.sqrt, Real.sin⟩ (ex_lit n z2 ⟨0, 0, -c⟩) 1 3 = -n.z := by
  have hv : light_vec (ex_lit n z2 ⟨0, 0, -c⟩) 1 3 = ⟨0, 0, -c⟩ := by
    simp [light_vec, ex_lit, ex_shaded, ex_light, ex_blank, obj_priv.as_light, vec_diff3]
  have hl : vec_length3 ⟨Real.sqrt, Real.sin⟩ (⟨0, 0, -c⟩ : Vec ℝ) = c := by
    simp only [vec_length3, mul_zero, zero_add, neg_mul_neg]
    exact Real.sqrt_mul_self (le_of_lt hc)
  have hd : light_dir ⟨Real.sqrt, Real.sin⟩ (ex_lit n z2 ⟨0, 0, -c⟩) 1 3 = ⟨0, 0, -1⟩ := by
    unfold light_dir vec_unit3
    rw [hv, hl, if_neg (ne_of_gt hc)]
    simp only [vec_scale3, zero_mul]
    congr 1
    field_simp
  refine ⟨by unfold light_dist; rw [hv, hl], hd, ?_⟩
  unfold light_cos
  rw [hd]
  simp [vec_dot3, ex_lit, ex_shaded, ex_blank]

/-- The hit distance of the plane `z = z2` along the ray toward the light. -/
theorem ex_lit_shadow (n : Vec ℝ) (z2 c : ℝ) (hc : 0 < c) (hz : z2 ≤ 0) :
    shadow_dist ⟨Real.sqrt, Real.sin⟩ (ex_lit n z2 ⟨0, 0, -c⟩) 1 3 2 = -z2 := by
  unfold shadow_dist hit_dist
  rw [(ex_lit_light n z2 c hc).2.1]
  have e : z2 / -1 = -z2 := by ring
  simp [Ref.read, ex_lit, ex_shaded, ex_plane, ex_blank, call_hits, hits_plane,
    obj_priv.as_plane, vec_dot3, vec_sum3, vec_scale3]
  rw [e, if_neg]
  rintro (h | h)
  · linarith
  · have : (0 : ℝ) < 100⁻¹ := by norm_num
    linarith


/-- C23, an instance: the plane `z = 0` with recorded normal `(0, 0, 1)` and a
light below it at `(0, 0, -4)`. -/
theorem process_light_facing_away_witness :
    light_cos ⟨Real.sqrt, Real.sin⟩ (ex_lit ⟨0, 0, 1⟩ (-2) ⟨0, 0, -4⟩) 1 3 < 0 ∧
    process_light ⟨Real.sqrt, Real.sin⟩ (ex_lit ⟨0, 0, 1⟩ (-2) ⟨0, 0, -4⟩) [1, 2] 1 3
      ⟨5, 6, 7⟩ = (-1, ⟨5, 6, 7⟩, ex_lit ⟨0, 0, 1⟩ (-2) ⟨0, 0, -4⟩) := by
  have hc : light_cos ⟨Real.sqrt, Real.sin⟩ (ex_lit ⟨0, 0, 1⟩ (-2) ⟨0, 0, -4⟩) 1 3 < 0 := by
    rw [(ex_lit_light _ _ 4 (by norm_num)).2.2]
    norm_num
  exact ⟨hc, ((process_light_facing_away _ _ [1, 2] 1 3 ⟨5, 6, 7⟩).1 hc).1⟩

/-- C24, an instance: the shaded plane `z = 0` facing down, a light at
`(0, 0, -4)` and the plane `z = -2` between them. -/
theorem process_light_occluder_removes_light_witness :
    (0 < shadow_dist ⟨Real.sqrt, Real.sin⟩ (ex_lit ⟨0, 0, -1⟩ (-2) ⟨0, 0, -4⟩) 1 3 2 ∧
      shadow_dist ⟨Real.sqrt, Real.sin⟩ (ex_lit ⟨0, 0, -1⟩ (-2) ⟨0, 0, -4⟩) 1 3 2 <
        light_dist ⟨Real.sqrt, Real.sin⟩ (ex_lit ⟨0, 0, -1⟩ (-2) ⟨0, 0, -4⟩) 1 3) ∧
    (process_light ⟨Real.sqrt, Real.sin⟩ (ex_lit ⟨0, 0, -1⟩ (-2) ⟨0, 0, -4⟩) [1, 2] 1 3
      ⟨5, 6, 7⟩).2.1 = ⟨5, 6, 7⟩ := by
  have hs := ex_lit_shadow ⟨0, 0, -1⟩ (-2) 4 (by norm_num) (by norm_num)
  have hl := (ex_lit_light ⟨0, 0, -1⟩ (-2) 4 (by norm_num)).1
  have h0 : 0 < shadow_dist ⟨Real.sqrt, Real.sin⟩ (ex_lit ⟨0, 0, -1⟩ (-2) ⟨0, 0, -4⟩) 1 3 2 := by
    rw [hs]; norm_num
  have h1 : shadow_dist ⟨Real.sqrt, Real.sin⟩ (ex_lit ⟨0, 0, -1⟩ (-2) ⟨0, 0, -4⟩) 1 3 2 <
      light_dist ⟨Real.sqrt, Real.sin⟩ (ex_lit ⟨0, 0, -1⟩ (-2) ⟨0, 0, -4⟩) 1 3 := by
    rw [hs, hl]; norm_num
  have h2 : shadow_dist ⟨Real.sqrt, Real.sin⟩ (ex_lit ⟨0, 0, -1⟩ (-2) ⟨0, 0, -4⟩) 1 3 2 <
      INT_MAX := by
    rw [hs]; unfold INT_MAX; norm_num
  exact ⟨⟨h0, h1⟩,
    (process_light_occluder_removes_light _ _ [1, 2] 1 3 2 ⟨5, 6, 7⟩ (by simp) (by decide)
      h0 h1 h2).1⟩

/-- C24 as stated fails beyond `INT_MAX`: the shaded plane `z = 0` facing down,
a light at distance 4000000000 below it and the plane `z = -3000000000`
between them, whose hit distance 3000000000 along the ray toward the light is
strictly positive and smaller than the light distance; `process_light` still
adds the light. -/
theorem process_light_far_occluder_does_not_block :
    2 ∈ [1, 2] ∧ 2 ≠ 1 ∧
    0 < shadow_dist ⟨Real.sqrt, Real.sin⟩
      (ex_lit ⟨0, 0, -1⟩ (-3000000000) ⟨0, 0, -4000000000⟩) 1 3 2 ∧
    shadow_dist ⟨Real.sqrt, Real.sin⟩
        (ex_lit ⟨0, 0, -1⟩ (-3000000000) ⟨0, 0, -4000000000⟩) 1 3 2 <
      light_dist ⟨Real.sqrt, Real.sin⟩
        (ex_lit ⟨0, 0, -1⟩ (-3000000000) ⟨0, 0, -4000000000⟩) 1 3 ∧
    (process_light ⟨Real.sqrt, Real.sin⟩
      (ex_lit ⟨0, 0, -1⟩ (-3000000000) ⟨0, 0, -4000000000⟩) [1, 2] 1 3 Vec.zero).2.1 =
      ⟨1 / 4000000000, 1 / 4000000000, 1 / 4000000000⟩ := by
  have hs := ex_lit_shadow ⟨0, 0, -1⟩ (-3000000000) 4000000000 (by norm_num) (by norm_num)
  obtain ⟨hl, -, hcos⟩ := ex_lit_light ⟨0, 0, -1⟩ (-3000000000) 4000000000 (by norm_num)
  refine ⟨by simp, by decide, by rw [hs]; norm_num, by rw [hs, hl]; norm_num, ?_⟩
  have hlit := (process_light_lit ⟨Real.sqrt, Real.sin⟩
    (ex_lit ⟨0, 0, -1⟩ (-3000000000) ⟨0, 0, -4000000000⟩) [1, 2] 1 3 Vec.zero
    (by rw [hcos]; norm_num) (by
      intro q hq hne _ hlt
      have hq2 : q = 2 := by
        simp only [List.mem_cons, List.mem_singleton, List.not_mem_nil, or_false] at hq
        rcases hq with h | h
        · exact absurd h hne
        · exact h
      subst hq2
      rw [hs] at hlt
      unfold INT_MAX at hlt
      norm_num at hlt)).2
  rw [hlit, hl, hcos]
  simp [ex_lit, ex_shaded, ex_light, ex_blank, call_getdiff, default_getdiff, vec_scale3,
    Vec.zero]

/-- C25 fails for a recorded normal that is not of unit length.  The plane
through the origin with normal `(0, 0, -2)` is hit at the origin by the ray
from `(0, 0, -1)` along `(0, 0, 1)`, and `hits_plane` records the normal
`(0, 0, -2)`.  For the light at `(0, 0, -2)`, at distance 2 in the direction
`(0, 0, -1)`, the angle between the recorded normal and the direction is 0
(their inner product is the product of their lengths), so the stated amount is
`1 * 1 * 1 / 2` per channel; `process_light` computes `cos = 2` and adds 1. -/
theorem process_light_scales_with_normal_length :
    hits_plane (⟨0, 0, -1⟩ : Vec ℝ) ⟨0, 0, 1⟩ (ex_shaded ⟨0, 0, -2⟩) =
      (1, ex_shaded ⟨0, 0, -2⟩) ∧
    light_dist ⟨Real.sqrt, Real.sin⟩ (ex_lit ⟨0, 0, -2⟩ (-5) ⟨0, 0, -2⟩) 1 3 = 2 ∧
    light_dir ⟨Real.sqrt, Real.sin⟩ (ex_lit ⟨0, 0, -2⟩ (-5) ⟨0, 0, -2⟩) 1 3 = ⟨0, 0, -1⟩ ∧
    vec_dot3 (⟨0, 0, -2⟩ : Vec ℝ) ⟨0, 0, -1⟩ =
      vec_length3 ⟨Real.sqrt, Real.sin⟩ ⟨0, 0, -2⟩ *
        vec_length3 ⟨Real.sqrt, Real.sin⟩ ⟨0, 0, -1⟩ ∧
    light_cos ⟨Real.sqrt, Real.sin⟩ (ex_lit ⟨0, 0, -2⟩ (-5) ⟨0, 0, -2⟩) 1 3 = 2 ∧
    (process_light ⟨Real.sqrt, Real.sin⟩ (ex_lit ⟨0, 0, -2⟩ (-5) ⟨0, 0, -2⟩) [1, 2] 1 3
      Vec.zero).1 = 0 ∧
    (process_light ⟨Real.sqrt, Real.sin⟩ (ex_lit ⟨0, 0, -2⟩ (-5) ⟨0, 0, -2⟩) [1, 2] 1 3
      Vec.zero).2.1 = ⟨1, 1, 1⟩ := by
  have hs := ex_lit_shadow ⟨0, 0, -2⟩ (-5) 2 (by norm_num) (by norm_num)
  obtain ⟨hl, hd, hcos⟩ := ex_lit_light ⟨0, 0, -2⟩ (-5) 2 (by norm_num)
  have hcos2 : light_cos ⟨Real.sqrt, Real.sin⟩ (ex_lit ⟨0, 0, -2⟩ (-5) ⟨0, 0, -2⟩) 1 3 = 2 := by
    rw [hcos]; norm_num
  have hlit := process_light_lit ⟨Real.sqrt, Real.sin⟩
    (ex_lit ⟨0, 0, -2⟩ (-5) ⟨0, 0, -2⟩) [1, 2] 1 3 Vec.zero
    (by rw [hcos2]; norm_num) (by
      intro q hq hne _ _
      have hq2 : q = 2 := by
        simp only [List.mem_cons, List.mem_singleton, List.not_mem_nil, or_false] at hq
        rcases hq with h | h
        · exact absurd h hne
        · exact h
      subst hq2
      rw [hs, hl]
      norm_num)
  refine ⟨?_, hl, hd, ?_, hcos2, hlit.1, ?_⟩
  · simp [hits_plane, ex_shaded, ex_blank, obj_priv.as_plane, vec_dot3, vec_sum3, vec_scale3,
      Vec.zero]
  · have e4 : Real.sqrt (2 * 2) = 2 := Real.sqrt_mul_self (by norm_num)
    simp only [vec_dot3, vec_length3, mul_zero, zero_add, neg_mul_neg, mul_one, Real.sqrt_one,
      e4]
  · rw [hlit.2, hl, hcos2]
    simp [ex_lit, ex_shaded, ex_light, ex_blank, call_getdiff, default_getdiff, vec_scale3,
      Vec.zero]

end LightInstances

/-! ## Claims on the loaders of procedural surfaces and on `model_init` -/

section LoaderClaims

variable {K : Type} [LinearOrderedField K] [FloorRing K]

omit [FloorRing K] in
/-- Replacing the ambient query does not change an intersection test. -/
theorem call_hits_getamb (M : Libm K) (b d : Vec K) (o : obj_t K) (f : getamb_fn) :
    call_hits M b d { o with getamb := f } =
      ((call_hits M b d o).1, { (call_hits M b d o).2 with getamb := f }) := by
  obtain ⟨objid, objtype, priv, hits, getamb, getdiff, getspec, material, emissivity, hitloc,
    normal⟩ := o
  cases hits
  · simp only [call_hits, hits_sphere]
    split_ifs <;> rfl
  · simp only [call_hits, hits_plane]
    split_ifs <;> rfl
  · simp only [call_hits, hits_fplane, hits_plane]
    split_ifs <;> rfl


omit [FloorRing K] in
/-- The index test of the procedural loaders, for an `int` index. -/
theorem shader_index_test (k : Int) (hlo : -2 ^ 31 ≤ k) (hhi : k < 2 ^ 31) :
    to_size_t k ≥ 3 ↔ ¬ (0 ≤ k ∧ k < 3) := by
  unfold to_size_t
  omega

omit [LinearOrderedField K] [FloorRing K] in
/-- A table of three entries read at an index from 0 to 2. -/
theorem table_read_three {α : Type} (a b c : α) (k : Int) (h0 : 0 ≤ k) (h3 : k < 3) :
    table_read [a, b, c] k = some (if k = 0 then a else if k = 1 then b else c) := by
  have hk : k = 0 ∨ k = 1 ∨ k = 2 := by omega
  rcases hk with rfl | rfl | rfl <;> rfl

/-- C28.  Whenever `pplane_init` returns an object, it is the object that
`plane_init` builds from the same input with only the ambient query replaced:
the intersection test is `hits_plane`, the diffuse and specular queries are
the defaults and return the stored material components, and for every ray the
intersection test returns the same distance and records the same hit point
and normal as for the plain plane.  The same holds for `psphere_init`,
`sphere_init` and `hits_sphere`. -/
theorem procedural_init_replaces_ambient_only (M : Libm K) (raw : obj_t K)
    (objid objtype : Int) (mat : material_t K) (normal point center : Vec K) (radius i : K) :
    (∀ p, pplane_init raw objid objtype mat normal point i = .done p →
      p = { plane_init raw objid objtype mat normal point with getamb := p.getamb } ∧
      p.hits = .hits_plane ∧ p.getdiff = .default_getdiff ∧ p.getspec = .default_getspec ∧
      call_getdiff p = (plane_init raw objid objtype mat normal point).material.diffuse ∧
      call_getspec p = (plane_init raw objid objtype mat normal point).material.specular ∧
      ∀ base dir,
        call_hits M base dir p = hits_plane base dir p ∧
        (call_hits M base dir p).1 =
          (call_hits M base dir (plane_init raw objid objtype mat normal point)).1 ∧
        (call_hits M base dir p).2.hitloc =
          (call_hits M base dir (plane_init raw objid objtype mat normal point)).2.hitloc ∧
        (call_hits M base dir p).2.normal =
          (call_hits M base dir (plane_init raw objid objtype mat normal point)).2.normal) ∧
    (∀ p, psphere_init raw objid objtype mat center radius i = .done p →
      p = { sphere_init raw objid objtype mat center radius with getamb := p.getamb } ∧
      p.hits = .hits_sphere ∧ p.getdiff = .default_getdiff ∧ p.getspec = .default_getspec ∧
      call_getdiff p = (sphere_init raw objid objtype mat center radius).material.diffuse ∧
      call_getspec p = (sphere_init raw objid objtype mat center radius).material.specular ∧
      ∀ base dir,
        call_hits M base dir p = hits_sphere M base dir p ∧
        (call_hits M base dir p).1 =
          (call_hits M base dir (sphere_init raw objid objtype mat center radius)).1 ∧
        (call_hits M base dir p).2.hitloc =
          (call_hits M base dir (sphere_init raw objid objtype mat center radius)).2.hitloc ∧
        (call_hits M base dir p).2.normal =
          (call_hits M base dir (sphere_init raw objid objtype mat center radius)).2.normal) := by
  constructor
  · intro p hp
    have hform : ∃ f, p = { plane_init raw objid objtype mat normal point with getamb := f } := by
      unfold pplane_init at hp
      simp only [] at hp
      split_ifs at hp
      split at hp
      · rename_i f _
        exact ⟨f, (Run.done.inj hp).symm⟩
      · exact absurd hp (by simp)
    obtain ⟨f, rfl⟩ := hform
    refine ⟨rfl, rfl, rfl, rfl, ?_, ?_, ?_⟩
    · simp [call_getdiff, default_getdiff, plane_init, object_init, vec_scale3_one]
    · simp [call_getspec, default_getspec, plane_init, object_init, vec_scale3_one]
    · intro base dir
      refine ⟨rfl, ?_, ?_, ?_⟩ <;> rw [call_hits_getamb]
  · intro p hp
    have hform : ∃ f,
        p = { sphere_init raw objid objtype mat center radius with getamb := f } := by
      unfold psphere_init at hp
      simp only [] at hp
      split_ifs at hp
      split at hp
      · rename_i f _
        exact ⟨f, (Run.done.inj hp).symm⟩
      · exact absurd hp (by simp)
    obtain ⟨f, rfl⟩ := hform
    refine ⟨rfl, rfl, rfl, rfl, ?_, ?_, ?_⟩
    · simp [call_getdiff, default_getdiff, sphere_init, object_init, vec_scale3_one]
    · simp [call_getspec, default_getspec, sphere_init, object_init, vec_scale3_one]
    · intro base dir
      refine ⟨rfl, ?_, ?_, ?_⟩ <;> rw [call_hits_getamb]

/-- C29.  Let `k = (int)x` be the shader index, inside the range of a 32-bit
`int`.  If `0 ≤ k < 3`, `pplane_init` returns the plane with entry `k` of
`plane_shaders` (`pplane0_amb`, `pplane1_amb`, `pplane2_amb`) as ambient
query, and `psphere_init` the sphere with entry `k` of `sphere_shaders`.  For
every other `k`, too large or negative, both end the run with the message
"shader index out of bounds" (the comparison with `NUM_PSHADERS` is unsigned,
so a negative `k` compares as a huge value).  In no case is a table read
outside the indices 0 to 2. -/
theorem shader_index_checked (raw : obj_t K) (objid objtype : Int) (mat : material_t K)
    (normal point center : Vec K) (radius x : K)
    (hlo : -2 ^ 31 ≤ c_int x) (hhi : c_int x < 2 ^ 31) :
    (0 ≤ c_int x ∧ c_int x < 3 →
      pplane_init raw objid objtype mat normal point x =
        .done { plane_init raw objid objtype mat normal point with
          getamb := if c_int x = 0 then .pplane0_amb
            else if c_int x = 1 then .pplane1_amb else .pplane2_amb } ∧
      psphere_init raw objid objtype mat center radius x =
        .done { sphere_init raw objid objtype mat center radius with
          getamb := if c_int x = 0 then .psphere0_amb
            else if c_int x = 1 then .psphere1_amb else .psphere2_amb }) ∧
    (¬ (0 ≤ c_int x ∧ c_int x < 3) →
      pplane_init raw objid objtype mat normal point x =
        .fatal "pplane_init: error: shader index out of bounds" ∧
      psphere_init raw objid objtype mat center radius x =
        .fatal "psphere_init: error: shader index out of bounds") ∧
    pplane_init raw objid objtype mat normal point x ≠ .undefined ∧
    psphere_init raw objid objtype mat center radius x ≠ .undefined := by
  have ht := shader_index_test (c_int x) hlo hhi
  have hp : NUM_PSHADERS = 3 := rfl
  have hs : NUM_SSHADERS = 3 := rfl
  have hin : 0 ≤ c_int x ∧ c_int x < 3 →
      pplane_init raw objid objtype mat normal point x =
        .done { plane_init raw objid objtype mat normal point with
          getamb := if c_int x = 0 then .pplane0_amb
            else if c_int x = 1 then .pplane1_amb else .pplane2_amb } ∧
      psphere_init raw objid objtype mat center radius x =
        .done { sphere_init raw objid objtype mat center radius with
          getamb := if c_int x = 0 then .psphere0_amb
            else if c_int x = 1 then .psphere1_amb else .psphere2_amb } := by
    intro h
    have hn : ¬ to_size_t (c_int x) ≥ 3 := fun h3 => (ht.mp h3) h
    constructor
    · unfold pplane_init
      simp only [hp, if_neg hn, plane_shaders, table_read_three _ _ _ _ h.1 h.2]
    · unfold psphere_init
      simp only [hs, if_neg hn, sphere_shaders, table_read_three _ _ _ _ h.1 h.2]
  have hout : ¬ (0 ≤ c_int x ∧ c_int x < 3) →
      pplane_init raw objid objtype mat normal point x =
        .fatal "pplane_init: error: shader index out of bounds" ∧
      psphere_init raw objid objtype mat center radius x =
        .fatal "psphere_init: error: shader index out of bounds" := by
    intro h
    have hn : to_size_t (c_int x) ≥ 3 := ht.mpr h
    constructor
    · unfold pplane_init
      simp only [hp, if_pos hn]
    · unfold psphere_init
      simp only [hs, if_pos hn]
  refine ⟨hin, hout, ?_, ?_⟩
  · by_cases h : 0 ≤ c_int x ∧ c_int x < 3
    · rw [(hin h).1]; simp
    · rw [(hout h).1]; simp
  · by_cases h : 0 ≤ c_int x ∧ c_int x < 3
    · rw [(hin h).2]; simp
    · rw [(hout h).2]; simp

end LoaderClaims

section ModelClaims

/-- A pass whose tag is outside the range is skipped. -/
theorem model_init_skip (r : record_t) (rest : List record_t) (model : model_t)
    (h : r.obj_type < FIRST_TYPE ∨ r.obj_type > LAST_TYPE) :
    model_init (r :: rest) model = model_init rest model := by
  have hn : ¬ (r.obj_type ≥ FIRST_TYPE ∧ r.obj_type ≤ LAST_TYPE) := by
    rintro ⟨h1, h2⟩
    rcases h with h | h
    · exact absurd h1 (not_le.mpr h)
    · exact absurd h2 (not_le.mpr h)
  simp only [model_init, if_neg hn]

/-- A pass that loads the object `p` appends it to one of the two lists. -/
theorem model_init_load (r : record_t) (rest : List record_t) (model : model_t) (p : Nat)
    (h : r.loads p) :
    model_init (r :: rest) model =
      if r.obj_type = LIGHT then
        model_init rest { model with lights := list_add model.lights p }
      else
        model_init rest { model with scene := list_add model.scene p } := by
  obtain ⟨⟨h1, h2⟩, ⟨f, hf, hd⟩, hl⟩ := h
  have hc : call_loader f r.loaded = .done (some p) := by
    rw [hl]
    cases f <;> first | rfl | exact absurd rfl hd
  simp only [model_init, if_pos (And.intro (ge_iff_le.mpr h1) h2), hf, hc]


/-- The result for `a :: l` depends on `l` only through the results for `l`. -/
theorem model_init_congr (a : record_t) (l1 l2 : List record_t)
    (h : ∀ model, model_init l1 model = model_init l2 model) (model : model_t) :
    model_init (a :: l1) model = model_init (a :: l2) model := by
  simp only [model_init, h]

/-- A pass whose tag is outside the range can be dropped from the input. -/
theorem model_init_drop (r : record_t) (post : List record_t)
    (h : r.obj_type < FIRST_TYPE ∨ r.obj_type > LAST_TYPE) :
    ∀ (pre : List record_t) (model : model_t),
      model_init (pre ++ r :: post) model = model_init (pre ++ post) model := by
  intro pre
  induction pre with
  | nil => intro model; exact model_init_skip r post model h
  | cons a pre ih =>
    intro model
    exact model_init_congr a _ _ ih model

/-- The two lists after a run in which every pass with a tag in the range
loads an object. -/
theorem model_init_done :
    ∀ (recs : List record_t) (model : model_t),
      (∀ r ∈ recs, r.recognized → ∃ p, r.loads p) →
      model_init recs model =
        .done ⟨model.lights ++ recs.filterMap record_t.light,
          model.scene ++ recs.filterMap record_t.surface⟩ := by
  intro recs
  induction recs with
  | nil => intro model _; simp [model_init]
  | cons r rest ih =>
    intro model hall
    have hrest : ∀ q ∈ rest, q.recognized → ∃ p, q.loads p :=
      fun q hq => hall q (List.mem_cons_of_mem _ hq)
    by_cases hr : r.recognized
    · obtain ⟨p, hp⟩ := hall r (List.mem_cons_self _ _) hr
      have hl := hp.2.2
      rw [model_init_load r rest model p hp]
      by_cases ht : r.obj_type = LIGHT
      · have e1 : r.light = some p := by
          simp [record_t.light, ht, hl, Except.toOption]
          exact ⟨by decide, by decide⟩
        have e2 : r.surface = none := by
          simp [record_t.surface, ht]
        rw [if_pos ht, ih _ hrest, List.filterMap_cons_some e1, List.filterMap_cons_none e2]
        simp [list_add]
      · have e1 : r.light = none := by
          simp [record_t.light, ht]
        have e2 : r.surface = some p := by
          simp [record_t.surface, hr.1, hr.2, ht, hl, Except.toOption]
        rw [if_neg ht, ih _ hrest, List.filterMap_cons_none e1, List.filterMap_cons_some e2]
        simp [list_add]
    · have hout : r.obj_type < FIRST_TYPE ∨ r.obj_type > LAST_TYPE := by
        unfold record_t.recognized at hr
        by_cases h1 : FIRST_TYPE ≤ r.obj_type
        · exact Or.inr (not_le.mp (fun h2 => hr ⟨h1, h2⟩))
        · exact Or.inl (not_le.mp h1)
      have e1 : r.light = none := by
        unfold record_t.light
        rw [if_neg]
        rintro ⟨a, b, -⟩
        exact hr ⟨a, b⟩
      have e2 : r.surface = none := by
        unfold record_t.surface
        rw [if_neg]
        rintro ⟨a, b, -⟩
        exact hr ⟨a, b⟩
      rw [model_init_skip r rest model hout, ih _ hrest, List.filterMap_cons_none e1,
        List.filterMap_cons_none e2]

/-- C30.  A pass whose tag is below `FIRST_TYPE = 10` or above `LAST_TYPE = 25`
can be deleted from the input without changing the result of `model_init`: it
adds no object to either list, ends the run with no error, and the loop goes
on with the next tag.  When every pass with a tag in the range loads an
object, `model_init` returns, the lights list is the old lights list followed
by the objects loaded with tag 10 in input order, and the scene list is the
old scene list followed by the objects loaded with every other tag in input
order; each loaded object goes to one list only. -/
theorem model_init_lists (recs : List record_t) (model : model_t) :
    (∀ pre r post, (r.obj_type < FIRST_TYPE ∨ r.obj_type > LAST_TYPE) →
      model_init (pre ++ r :: post) model = model_init (pre ++ post) model) ∧
    ((∀ r ∈ recs, r.recognized → ∃ p, r.loads p) →
      model_init recs model =
        .done ⟨model.lights ++ recs.filterMap record_t.light,
          model.scene ++ recs.filterMap record_t.surface⟩) ∧
    (∀ r : record_t, r.light = none ∨ r.surface = none) ∧
    (∀ (r : record_t) (p : Nat), r.loads p →
      (r.obj_type = LIGHT → r.light = some p) ∧ (r.obj_type ≠ LIGHT → r.surface = some p)) := by
  refine ⟨fun pre r post h => model_init_drop r post h pre model, model_init_done recs model,
    ?_, ?_⟩
  · intro r
    by_cases ht : r.obj_type = LIGHT
    · exact Or.inr (by simp [record_t.surface, ht])
    · exact Or.inl (by simp [record_t.light, ht])
  · intro r p hp
    obtain ⟨⟨h1, h2⟩, -, hl⟩ := hp
    constructor
    · intro ht
      simp [record_t.light, ht, hl, Except.toOption]
      exact ⟨by decide, by decide⟩
    · intro ht
      simp [record_t.surface, h1, h2, ht, hl, Except.toOption]

end ModelClaims

section LoaderInstances

/-- The cast `(int)1.5`. -/
theorem c_int_three_halves : c_int ((3 : ℝ) / 2) = 1 := by
  unfold c_int
  rw [if_pos (by norm_num), Int.floor_eq_iff]
  norm_num

/-- The procedural plane with shader index 1.5. -/
theorem ex_pplane_init (mat : material_t ℝ) (normal point : Vec ℝ) :
    pplane_init ex_blank 0 20 mat normal point (3 / 2) =
      .done { plane_init ex_blank 0 20 mat normal point with getamb := .pplane1_amb } := by
  unfold pplane_init
  simp only [c_int_three_halves]
  rfl

/-- C28, an instance: the procedural plane `z = 0` with shader index 1.5. -/
theorem procedural_init_replaces_ambient_only_witness :
    pplane_init (ex_blank : obj_t ℝ) 0 20 ⟨⟨1, 1, 1⟩, ⟨1, 1, 1⟩, Vec.zero⟩ ⟨0, 0, 1⟩ ⟨0, 0, 0⟩
        (3 / 2) =
      .done { plane_init ex_blank 0 20 ⟨⟨1, 1, 1⟩, ⟨1, 1, 1⟩, Vec.zero⟩ ⟨0, 0, 1⟩ ⟨0, 0, 0⟩ with
        getamb := .pplane1_amb } ∧
    (call_hits ⟨Real.sqrt, Real.sin⟩ ⟨0, 0, 1⟩ ⟨0, 0, -1⟩
      { plane_init (ex_blank : obj_t ℝ) 0 20 ⟨⟨1, 1, 1⟩, ⟨1, 1, 1⟩, Vec.zero⟩ ⟨0, 0, 1⟩
          ⟨0, 0, 0⟩ with getamb := .pplane1_amb }).1 =
      (call_hits ⟨Real.sqrt, Real.sin⟩ ⟨0, 0, 1⟩ ⟨0, 0, -1⟩
        (plane_init (ex_blank : obj_t ℝ) 0 20 ⟨⟨1, 1, 1⟩, ⟨1, 1, 1⟩, Vec.zero⟩ ⟨0, 0, 1⟩
          ⟨0, 0, 0⟩)).1 :=
  ⟨ex_pplane_init _ _ _,
    (((procedural_init_replaces_ambient_only ⟨Real.sqrt, Real.sin⟩ ex_blank 0 20
      ⟨⟨1, 1, 1⟩, ⟨1, 1, 1⟩, Vec.zero⟩ ⟨0, 0, 1⟩ ⟨0, 0, 0⟩ ⟨0, 0, 0⟩ 1 (3 / 2)).1 _
      (ex_pplane_init _ _ _)).2.2.2.2.2.2 ⟨0, 0, 1⟩ ⟨0, 0, -1⟩).2.1⟩

/-- C29, an instance: the shader index 1.5 installs `pplane1_amb`. -/
theorem shader_index_checked_witness :
    (-2 ^ 31 ≤ c_int ((3 : ℝ) / 2) ∧ c_int ((3 : ℝ) / 2) < 2 ^ 31 ∧
      0 ≤ c_int ((3 : ℝ) / 2) ∧ c_int ((3 : ℝ) / 2) < 3) ∧
    pplane_init (ex_blank : obj_t ℝ) 0 20 ⟨⟨1, 1, 1⟩, ⟨1, 1, 1⟩, Vec.zero⟩ ⟨0, 0, 1⟩ ⟨0, 0, 0⟩
        (3 / 2) =
      .done { plane_init ex_blank 0 20 ⟨⟨1, 1, 1⟩, ⟨1, 1, 1⟩, Vec.zero⟩ ⟨0, 0, 1⟩ ⟨0, 0, 0⟩ with
        getamb := .pplane1_amb } := by
  have h1 : -2 ^ 31 ≤ c_int ((3 : ℝ) / 2) := by rw [c_int_three_halves]; norm_num
  have h2 : c_int ((3 : ℝ) / 2) < 2 ^ 31 := by rw [c_int_three_halves]; norm_num
  have h3 : 0 ≤ c_int ((3 : ℝ) / 2) := by rw [c_int_three_halves]; norm_num
  have h4 : c_int ((3 : ℝ) / 2) < 3 := by rw [c_int_three_halves]; norm_num
  have h := ((shader_index_checked (ex_blank : obj_t ℝ) 0 20 ⟨⟨1, 1, 1⟩, ⟨1, 1, 1⟩, Vec.zero⟩
    ⟨0, 0, 1⟩ ⟨0, 0, 0⟩ ⟨0, 0, 0⟩ 1 (3 / 2) h1 h2).1 ⟨h3, h4⟩).1
  simp only [c_int_three_halves] at h
  exact ⟨⟨h1, h2, h3, h4⟩, h⟩

/-- C30, an instance: a sphere, an unknown tag 30, a light, an unknown tag 7
and a plane. -/
theorem model_init_lists_witness :
    model_init [⟨13, .ok 1⟩, ⟨30, .ok 2⟩, ⟨10, .ok 3⟩, ⟨7, .error "unread"⟩, ⟨14, .ok 4⟩]
      ⟨[], []⟩ = .done ⟨[3], [1, 4]⟩ := by
  have hload : ∀ r ∈ [(⟨13, .ok 1⟩ : record_t), ⟨30, .ok 2⟩, ⟨10, .ok 3⟩,
      ⟨7, .error "unread"⟩, ⟨14, .ok 4⟩], r.recognized → ∃ p, r.loads p := by
    intro r hr hrec
    simp only [List.mem_cons, List.mem_singleton, List.not_mem_nil, or_false] at hr
    rcases hr with rfl | rfl | rfl | rfl | rfl
    · exact ⟨1, hrec, ⟨.sphere_init, rfl, by decide⟩, rfl⟩
    · exact absurd hrec.2 (by decide)
    · exact ⟨3, hrec, ⟨.light_init, rfl, by decide⟩, rfl⟩
    · exact absurd hrec.1 (by decide)
    · exact ⟨4, hrec, ⟨.plane_init, rfl, by decide⟩, rfl⟩
  exact (model_init_lists _ ⟨[], []⟩).2.1 hload

end LoaderInstances

/-! ## Claims on the termination of `ray_trace` between parallel planes -/

section MirrorLemmas

variable {K : Type} [LinearOrderedField K]

/-- The Cauchy-Schwarz inequality for the source inner product. -/
theorem vec_dot3_sq_le (u v : Vec K) :
    vec_dot3 u v ^ 2 ≤ vec_dot3 u u * vec_dot3 v v := by
  unfold vec_dot3
  nlinarith [sq_nonneg (u.x * v.y - u.y * v.x), sq_nonneg (u.y * v.z - u.z * v.y),
    sq_nonneg (u.z * v.x - u.x * v.z)]

theorem vec_dot3_self_nonneg (u : Vec K) : 0 ≤ vec_dot3 u u := by
  unfold vec_dot3
  nlinarith [mul_self_nonneg u.x, mul_self_nonneg u.y, mul_self_nonneg u.z]

/-- With a square root, `vec_unit3` produces a vector of length 1 or leaves the
output array as it was. -/
theorem vec_unit3_unit_or_old (M : Libm K) (hM : M.sqrt_spec) (v w : Vec K) :
    vec_dot3 (vec_unit3 M v w) (vec_unit3 M v w) = 1 ∨ vec_unit3 M v w = w := by
  unfold vec_unit3
  by_cases h : vec_length3 M v = 0
  · rw [if_pos h]; exact Or.inr rfl
  · rw [if_neg h]
    left
    obtain ⟨-, h2⟩ := hM (vec_dot3 v v) (vec_dot3_self_nonneg v)
    rw [← vec_length3_eq] at h2
    generalize vec_length3 M v = L at h h2
    unfold vec_dot3 vec_scale3 at *
    simp only []
    field_simp
    linarith

/-- The two outcomes of `hits_plane`: a miss that leaves the object as it was,
or a hit at a non-negative distance `t` with `t (N.D) = N.P - N.O`, recorded
at the point `O + t D` of the plane. -/
theorem hits_plane_cases (b d : Vec K) (o : obj_t K) :
    hits_plane b d o = (MISS, o) ∨
    (vec_dot3 o.priv.as_plane.normal d ≠ 0 ∧ 0 ≤ (hits_plane b d o).1 ∧
      (hits_plane b d o).1 * vec_dot3 o.priv.as_plane.normal d =
        vec_dot3 o.priv.as_plane.normal o.priv.as_plane.point -
          vec_dot3 o.priv.as_plane.normal b ∧
      (hits_plane b d o).2.hitloc = vec_sum3 b (vec_scale3 (hits_plane b d o).1 d) ∧
      on_plane (hits_plane b d o).2) := by
  unfold hits_plane
  simp only []
  split_ifs with h
  · exact Or.inl rfl
  · right
    have h1 : ¬ (vec_dot3 o.priv.as_plane.normal o.priv.as_plane.point -
        vec_dot3 o.priv.as_plane.normal b) / vec_dot3 o.priv.as_plane.normal d < 0 :=
      fun h1 => h (Or.inl h1)
    have h3 : vec_dot3 o.priv.as_plane.normal d ≠ 0 := fun h3 => h (Or.inr (Or.inr h3))
    refine ⟨h3, not_lt.mp h1, div_mul_cancel₀ _ h3, by rw [vec_scale3_one], ?_⟩
    unfold on_plane
    simp only [vec_scale3_one]
    have e : (vec_dot3 o.priv.as_plane.normal o.priv.as_plane.point -
        vec_dot3 o.priv.as_plane.normal b) / vec_dot3 o.priv.as_plane.normal d *
        vec_dot3 o.priv.as_plane.normal d =
        vec_dot3 o.priv.as_plane.normal o.priv.as_plane.point -
          vec_dot3 o.priv.as_plane.normal b := div_mul_cancel₀ _ h3
    generalize (vec_dot3 o.priv.as_plane.normal o.priv.as_plane.point -
        vec_dot3 o.priv.as_plane.normal b) / vec_dot3 o.priv.as_plane.normal d = t at e
    unfold vec_dot3 vec_sum3 vec_scale3 at *
    simp only []
    linarith

/-- A plane tested from its own recorded hit point answers 0 or `MISS` and
keeps the recorded hit point. -/
theorem hits_plane_self (d : Vec K) (o : obj_t K) (h : on_plane o) :
    (hits_plane o.hitloc d o).1 ≤ 0 ∧ (hits_plane o.hitloc d o).2.hitloc = o.hitloc ∧
    on_plane (hits_plane o.hitloc d o).2 := by
  rcases hits_plane_cases o.hitloc d o with hm | ⟨h1, -, h3, h4, h5⟩
  · rw [hm]
    exact ⟨by unfold MISS; norm_num, rfl, h⟩
  · unfold on_plane at h
    rw [h, sub_self] at h3
    have ht : (hits_plane o.hitloc d o).1 = 0 := by
      rcases mul_eq_zero.mp h3 with h0 | h0
      · exact h0
      · exact absurd h0 h1
    refine ⟨le_of_eq ht, ?_, h5⟩
    rw [h4, ht]
    simp [vec_sum3, vec_scale3]

/-- A plane at least `g` away from the plane that holds the origin is hit by a
ray of unit or zero direction at a distance of at least `g`, if at all. -/
theorem hits_plane_gap (X d : Vec K) (o1 o2 : obj_t K) (g : K)
    (hX : vec_dot3 o2.priv.as_plane.normal X =
      vec_dot3 o2.priv.as_plane.normal o2.priv.as_plane.point)
    (hgap : gap_apart o1 o2 g) (hd : vec_dot3 d d = 1 ∨ d = Vec.zero)
    (hpos : (hits_plane X d o1).1 > 0) : g ≤ (hits_plane X d o1).1 := by
  rcases hits_plane_cases X d o1 with hm | ⟨h1, h2, h3, -, -⟩
  · rw [hm] at hpos
    unfold MISS at hpos
    norm_num at hpos
  · have hdd : vec_dot3 d d = 1 := by
      rcases hd with hd | hd
      · exact hd
      · rw [hd] at h1
        exact absurd (by simp [vec_dot3, Vec.zero]) h1
    have hcs := vec_dot3_sq_le o1.priv.as_plane.normal d
    rw [hdd, mul_one] at hcs
    have hgp := hgap X hX
    generalize (hits_plane X d o1).1 = t at h2 h3 hpos ⊢
    generalize vec_dot3 o1.priv.as_plane.normal d = c at h1 h3 hcs
    generalize vec_dot3 o1.priv.as_plane.normal o1.priv.as_plane.normal = nn at hcs hgp
    generalize vec_dot3 o1.priv.as_plane.normal X = a at h3 hgp
    generalize vec_dot3 o1.priv.as_plane.normal o1.priv.as_plane.point = b at h3 hgp
    have hc2 : 0 < c ^ 2 := by positivity
    have hnn : 0 < nn := lt_of_lt_of_le hc2 hcs
    have e : (a - b) ^ 2 = t ^ 2 * c ^ 2 := by
      have : a - b = -(t * c) := by linarith
      rw [this]; ring
    rw [e] at hgp
    by_contra hlt
    push_neg at hlt
    have h4 : t * t < g * g := mul_self_lt_mul_self (le_of_lt hpos) hlt
    have h5 : t ^ 2 * c ^ 2 ≤ t ^ 2 * nn :=
      mul_le_mul_of_nonneg_left hcs (sq_nonneg t)
    have h6 : t * t * nn < g * g * nn := mul_lt_mul_of_pos_right h4 hnn
    nlinarith

theorem gap_apart_congr {o1 o2 o3 o4 : obj_t K} {g : K} (h1 : o3.priv = o1.priv)
    (h2 : o4.priv = o2.priv) (h : gap_apart o1 o2 g) : gap_apart o3 o4 g := by
  unfold gap_apart at *
  rw [h1, h2]
  exact h

theorem parallel_planes_congr {s s2 : State K} {scene : List Nat} {g : K}
    (hs : ∀ p, same_shape (s2.heap p) (s.heap p)) (h : parallel_planes s scene g) :
    parallel_planes s2 scene g := by
  intro p hp
  obtain ⟨a, b⟩ := h p hp
  refine ⟨by rw [(hs p).2.2.2.1]; exact a, fun q hq hne => ?_⟩
  exact gap_apart_congr (hs p).2.2.1 (hs q).2.2.1 (b q hq hne)


theorem call_hits_plane (M : Libm K) (b d : Vec K) {o : obj_t K} (h : o.hits = .hits_plane) :
    call_hits M b d o = hits_plane b d o := by
  unfold call_hits
  rw [h]

theorem on_plane_after (b d : Vec K) (o : obj_t K) (h : on_plane o) :
    on_plane (hits_plane b d o).2 := by
  rcases hits_plane_cases b d o with hm | ⟨-, -, -, -, h5⟩
  · rw [hm]; exact h
  · exact h5

theorem on_plane_of_pos (b d : Vec K) (o : obj_t K) (h : (hits_plane b d o).1 > 0) :
    on_plane (hits_plane b d o).2 := by
  rcases hits_plane_cases b d o with hm | ⟨-, -, -, -, h5⟩
  · rw [hm] at h
    unfold MISS at h
    norm_num at h
  · exact h5

omit [LinearOrderedField K] in
theorem some_ne_none_nat (p : Nat) : some p ≠ (none : Option Nat) := by
  simp

/-- In a list of planes, the surface that the loop of `find_closest_obj`
selects holds a hit point in its own plane. -/
theorem find_closest_loop_on_plane (M : Libm K) (base : Ref K) (dir : Vec K) :
    ∀ (l : List Nat) (s : State K) (c : Option Nat) (m : K),
      (∀ p ∈ l, (s.heap p).hits = .hits_plane) →
      (∀ q, c = some q → on_plane (s.heap q)) →
      ∀ q, (find_closest_loop M base dir none l s c m).1 = some q →
        on_plane ((find_closest_loop M base dir none l s c m).2.2.heap q) := by
  intro l
  induction l with
  | nil =>
    intro s c m _ hc q hq
    exact hc q hq
  | cons p l ih =>
    intro s c m hl hc
    have hp := some_ne_none_nat p
    have hpl : (s.heap p).hits = .hits_plane := hl p (List.mem_cons_self _ _)
    have hl1 : ∀ p2 ∈ l, (Function.update s.heap p
        (call_hits M (base.read s) dir (s.heap p)).2 p2).hits = .hits_plane := by
      intro p2 hp2
      rw [(update_shape M s (base.read s) dir p p2).2.2.2.1]
      exact hl p2 (List.mem_cons_of_mem _ hp2)
    by_cases hcond : hit_dist M s base dir p < m ∧ hit_dist M s base dir p > 0
    · rw [find_closest_loop_take M base dir hp l s c m hcond]
      refine ih _ _ _ hl1 ?_
      intro q hq
      have hqp : p = q := Option.some.inj hq
      subst hqp
      show on_plane (Function.update s.heap p _ p)
      rw [Function.update_same, call_hits_plane M _ _ hpl]
      apply on_plane_of_pos
      have := hcond.2
      unfold hit_dist at this
      rw [call_hits_plane M _ _ hpl] at this
      exact this
    · rw [find_closest_loop_keep M base dir hp l s c m hcond]
      refine ih _ _ _ hl1 ?_
      intro q hq
      show on_plane (Function.update s.heap p _ q)
      by_cases hqp : q = p
      · subst hqp
        rw [Function.update_same, call_hits_plane M _ _ hpl]
        exact on_plane_after _ _ _ (hc q hq)
      · rw [Function.update_noteq hqp]
        exact hc q hq

/-- From an origin that is the recorded hit point of the plane `c`, lying in
that plane, along a direction of length 1 or 0, the loop of
`find_closest_obj` over planes at least `g` away from `c` (and `c` itself)
selects nothing or a surface at a distance of at least `g`. -/
theorem find_closest_loop_gap (M : Libm K) (c : Nat) (dir : Vec K) (g : K)
    (hd : vec_dot3 dir dir = 1 ∨ dir = Vec.zero) :
    ∀ (l : List Nat) (s : State K) (cl : Option Nat) (m : K),
      (∀ p ∈ l, (s.heap p).hits = .hits_plane ∧
        (p ≠ c → gap_apart (s.heap p) (s.heap c) g)) →
      on_plane (s.heap c) → (cl = none ∨ g ≤ m) →
      ((find_closest_loop M (.hitloc c) dir none l s cl m).1 = none ∨
        g ≤ (find_closest_loop M (.hitloc c) dir none l s cl m).2.1) := by
  intro l
  induction l with
  | nil =>
    intro s cl m _ _ h
    exact h
  | cons p l ih =>
    intro s cl m hl hc hm
    have hp := some_ne_none_nat p
    obtain ⟨hpl, hpg⟩ := hl p (List.mem_cons_self _ _)
    have hcall : call_hits M ((Ref.hitloc c).read s) dir (s.heap p) =
        hits_plane (s.heap c).hitloc dir (s.heap p) := call_hits_plane M _ _ hpl
    have hl1 : ∀ p2 ∈ l, (Function.update s.heap p
        (call_hits M ((Ref.hitloc c).read s) dir (s.heap p)).2 p2).hits = .hits_plane ∧
        (p2 ≠ c → gap_apart
          (Function.update s.heap p (call_hits M ((Ref.hitloc c).read s) dir (s.heap p)).2 p2)
          (Function.update s.heap p (call_hits M ((Ref.hitloc c).read s) dir (s.heap p)).2 c)
          g) := by
      intro p2 hp2
      obtain ⟨a, b⟩ := hl p2 (List.mem_cons_of_mem _ hp2)
      refine ⟨by rw [(update_shape M s _ dir p p2).2.2.2.1]; exact a, fun hne => ?_⟩
      exact gap_apart_congr (update_shape M s _ dir p p2).2.2.1
        (update_shape M s _ dir p c).2.2.1 (b hne)
    have hc1 : on_plane (Function.update s.heap p
        (call_hits M ((Ref.hitloc c).read s) dir (s.heap p)).2 c) := by
      by_cases hpc : c = p
      · subst hpc
        rw [Function.update_same, hcall]
        exact (hits_plane_self dir _ hc).2.2
      · rw [Function.update_noteq hpc]
        exact hc
    by_cases hcond : hit_dist M s (.hitloc c) dir p < m ∧ hit_dist M s (.hitloc c) dir p > 0
    · rw [find_closest_loop_take M _ dir hp l s cl m hcond]
      refine ih _ _ _ hl1 hc1 (Or.inr ?_)
      have hpos := hcond.2
      unfold hit_dist at hpos ⊢
      rw [hcall] at hpos ⊢
      by_cases hpc : p = c
      · subst hpc
        exact absurd hpos (not_lt.mpr (hits_plane_self dir _ hc).1)
      · exact hits_plane_gap _ dir _ _ g hc (hpg hpc) hd hpos
    · rw [find_closest_loop_keep M _ dir hp l s cl m hcond]
      exact ih _ _ _ hl1 hc1 hm

omit [LinearOrderedField K] in
theorem nested_dists_append (a b : List (Call K)) :
    nested_dists (a ++ b) = nested_dists a ++ nested_dists b := by
  unfold nested_dists
  exact List.filterMap_append _ _ _

omit [LinearOrderedField K] in
theorem nested_dists_none (a : List (Call K)) (h : ∀ e ∈ a, e.is_ray_trace = false) :
    nested_dists a = [] := by
  unfold nested_dists
  rw [List.filterMap_eq_nil_iff]
  intro e he
  have := h e he
  cases e <;> simp_all [Call.nested_dist, Call.is_ray_trace]


omit [LinearOrderedField K] in
theorem nested_dists_pair (a b : Nat) :
    nested_dists ([Call.getamb a, Call.getspec b] : List (Call K)) = [] := rfl

omit [LinearOrderedField K] in
theorem nested_dists_call (b d : Vec K) (t : K) (l : Option Nat) :
    nested_dists [Call.ray_trace b d t l] = [t] := rfl

/-- Along a chain of accumulated distances every entry exceeds the start. -/
theorem chain_gap_lt (g : K) (hg : 0 < g) :
    ∀ (l : List K) (a : K), List.Chain (fun x y => x + g ≤ y) a l → ∀ t ∈ l, a < t := by
  intro l
  induction l with
  | nil => intro a _ t ht; exact absurd ht (List.not_mem_nil t)
  | cons b l ih =>
    intro a h t ht
    rw [List.chain_cons] at h
    have hab : a < b := by linarith [h.1]
    rcases List.mem_cons.mp ht with rfl | ht
    · exact hab
    · exact lt_trans hab (ih b h.2 t ht)

section Mirror

variable [FloorRing K]

/-- A call of `ray_trace` whose origin is the recorded hit point of a plane of
a scene of planes at least `g` apart returns when the depth budget exceeds
the number `n` of gaps that fit below `MAX_DIST`; each nested call is entered
with an accumulated distance at least `g` above that of its caller. -/
theorem mirror_trace (M : Libm K) (hM : M.sqrt_spec) (model : model_t) (g : K) :
    ∀ (n depth : Nat) (s : State K) (c : Nat) (dir ivec : Vec K) (td : K) (lh : Option Nat),
      n + 1 ≤ depth → parallel_planes s model.scene g → c ∈ model.scene →
      on_plane (s.heap c) → (vec_dot3 dir dir = 1 ∨ dir = Vec.zero) →
      MAX_DIST < td + n * g →
      ∃ r, ray_trace M model depth s (.hitloc c) dir ivec td lh = some r ∧
        ∃ new, r.2.log = s.log ++ new ∧ (nested_dists new).length ≤ n ∧
          List.Chain (fun a b => a + g ≤ b) td (nested_dists new) := by
  intro n
  induction n with
  | zero =>
    intro depth s c dir ivec td lh hdepth _ _ _ _ hmax
    obtain ⟨d, rfl⟩ : ∃ d, depth = d + 1 := ⟨depth - 1, by omega⟩
    have ht : td > MAX_DIST := by simpa using hmax
    rw [ray_trace_terminal M model d s _ dir ivec td lh ht]
    exact ⟨_, rfl, [], by simp, by simp [nested_dists], List.Chain.nil⟩
  | succ n ih =>
    intro depth s c dir ivec td lh hdepth hsc hc hon hd hmax
    obtain ⟨d, rfl⟩ : ∃ d, depth = d + 1 := ⟨depth - 1, by omega⟩
    have hd1 : n + 1 ≤ d := by omega
    by_cases ht : td > MAX_DIST
    · rw [ray_trace_terminal M model d s _ dir ivec td lh ht]
      exact ⟨_, rfl, [], by simp, by simp [nested_dists], List.Chain.nil⟩
    · obtain ⟨f1, -, -, f4⟩ := find_closest_obj_frame M s model.scene (.hitloc c) dir none
      have hon1 : ∀ q, (find_closest_obj M s model.scene (.hitloc c) dir none).1 = some q →
          on_plane ((find_closest_obj M s model.scene (.hitloc c) dir none).2.2.heap q) :=
        find_closest_loop_on_plane M (.hitloc c) dir model.scene s none INT_MAX
          (fun p hp => (hsc p hp).1) (fun q hq => absurd hq (by simp))
      have hgap1 : (find_closest_obj M s model.scene (.hitloc c) dir none).1 = none ∨
          g ≤ (find_closest_obj M s model.scene (.hitloc c) dir none).2.1 :=
        find_closest_loop_gap M c dir g hd model.scene s none INT_MAX
          (fun p hp => ⟨(hsc p hp).1, fun hne => (hsc p hp).2 c hc (Ne.symm hne)⟩) hon
          (Or.inl rfl)
      obtain ⟨new1, e1, p1⟩ := find_closest_obj_log M s model.scene (.hitloc c) dir none
      simp only [ray_trace, if_neg ht]
      generalize find_closest_obj M s model.scene (Ref.hitloc c) dir none = F
        at f1 f4 hon1 hgap1 e1 ⊢
      obtain ⟨cl, md, s1⟩ := F
      simp only [] at f1 f4 hon1 hgap1 e1 ⊢
      cases cl with
      | none =>
        refine ⟨_, rfl, new1, e1, ?_, ?_⟩
        · rw [nested_dists_none new1 (fun e he => (p1 e he).1)]
          simp
        · rw [nested_dists_none new1 (fun e he => (p1 e he).1)]
          exact List.Chain.nil
      | some q =>
        have hq_on : on_plane (s1.heap q) := hon1 q rfl
        have hgq : g ≤ md := by
          rcases hgap1 with h | h
          · exact absurd h (by simp)
          · exact h
        have hq_mem : q ∈ model.scene := by
          rcases f4 with h | ⟨p, hp, -, hpq⟩
          · exact absurd h (by simp)
          · rw [Option.some.inj hpq]; exact hp
        obtain ⟨g1, g2, new3, e3, p3⟩ := diffuse_illumination_loop_frame M model.scene q
          model.lights ⟨s1.heap, s1.log ++ [Call.getamb q, Call.getspec q]⟩
          (call_getamb M (s1.heap q))
        simp only [diffuse_illumination]
        generalize diffuse_illumination_loop M model.scene q model.lights
          ⟨s1.heap, s1.log ++ [Call.getamb q, Call.getspec q]⟩ (call_getamb M (s1.heap q)) = D
          at g1 g2 e3 ⊢
        obtain ⟨dv, s3⟩ := D
        simp only [] at g1 g2 e3 ⊢
        split_ifs with hspec
        · have hshape : ∀ p, same_shape (s3.heap p) (s.heap p) :=
            fun p => same_shape_trans (g1 p) (f1 p)
          have hon3 : on_plane (s3.heap q) := by rw [g2]; exact hq_on
          have hmax2 : MAX_DIST < td + md + n * g := by
            push_cast at hmax
            linarith
          obtain ⟨R, hR, newR, eR, lenR, chR⟩ := ih d
            ⟨s3.heap, s3.log ++ [Call.ray_trace (s3.heap q).hitloc
              (vec_reflect3 M dir (vec_unit3 M (s3.heap q).normal Vec.zero) Vec.zero)
              (td + md) (some q)]⟩ q
            (vec_reflect3 M dir (vec_unit3 M (s3.heap q).normal Vec.zero) Vec.zero)
            Vec.zero (td + md) (some q) hd1 (parallel_planes_congr hshape hsc) hq_mem hon3
            (vec_unit3_unit_or_old M hM _ _) hmax2
          rw [hR]
          obtain ⟨specint, s5⟩ := R
          have hnd : nested_dists (new1 ++ ([Call.getamb q, Call.getspec q] ++ (new3 ++
              ([Call.ray_trace (s3.heap q).hitloc
                (vec_reflect3 M dir (vec_unit3 M (s3.heap q).normal Vec.zero) Vec.zero)
                (td + md) (some q)] ++ newR)))) = (td + md) :: nested_dists newR := by
            rw [nested_dists_append, nested_dists_append, nested_dists_append,
              nested_dists_append, nested_dists_none new1 (fun e he => (p1 e he).1),
              nested_dists_none new3 (fun e he => (p3 e he).1), nested_dists_pair,
              nested_dists_call]
            rfl
          refine ⟨_, rfl, new1 ++ ([Call.getamb q, Call.getspec q] ++ (new3 ++
              ([Call.ray_trace (s3.heap q).hitloc
                (vec_reflect3 M dir (vec_unit3 M (s3.heap q).normal Vec.zero) Vec.zero)
                (td + md) (some q)] ++ newR))), ?_, ?_, ?_⟩
          · show s5.log = _
            simp only [] at eR
            rw [eR, e3, e1]
            simp only [List.append_assoc]
          · rw [hnd, List.length_cons]
            omega
          · rw [hnd]
            exact List.Chain.cons (by linarith) chR
        · refine ⟨_, rfl, new1 ++ ([Call.getamb q, Call.getspec q] ++ new3), ?_, ?_, ?_⟩
          · show s3.log = _
            rw [e3, e1]
            simp only [List.append_assoc]
          · rw [nested_dists_append, nested_dists_append,
              nested_dists_none new1 (fun e he => (p1 e he).1),
              nested_dists_none new3 (fun e he => (p3 e he).1), nested_dists_pair]
            simp
          · rw [nested_dists_append, nested_dists_append,
              nested_dists_none new1 (fun e he => (p1 e he).1),
              nested_dists_none new3 (fun e he => (p3 e he).1), nested_dists_pair]
            exact List.Chain.nil


/-- C27.  Let the scene list hold planes tested by `hits_plane` that are
pairwise at least `g > 0` apart (two parallel planes a gap `g` apart), let the
lights list be arbitrary and `sqrt` be a square root.  For every ray, every
entry intensity and every accumulated distance `td ≥ 0`, `ray_trace` returns
an intensity whenever the depth budget is at least `floor(MAX_DIST / g) + 3`:
the nesting of calls never exceeds that bound.  The log of the call shows at
most `floor(MAX_DIST / g) + 2` recursive calls; each is entered with an
accumulated distance at least `g` above that of the recursive call before it,
and all with more than `td`.  A call entered with an accumulated distance
above `MAX_DIST` returns at once with intensity and state as they were. -/
theorem ray_trace_between_mirrors (M : Libm K) (hM : M.sqrt_spec) (model : model_t) (g : K)
    (hg : 0 < g) (s : State K) (hsc : parallel_planes s model.scene g) (base : Ref K)
    (dir ivec : Vec K) (td : K) (htd : 0 ≤ td) (lh : Option Nat) (depth : Nat)
    (hdepth : Nat.floor (MAX_DIST / g) + 3 ≤ depth) :
    (∃ r, ray_trace M model depth s base dir ivec td lh = some r ∧
      ∃ new, r.2.log = s.log ++ new ∧
        (nested_dists new).length ≤ Nat.floor (MAX_DIST / g) + 2 ∧
        List.Chain' (fun a b => a + g ≤ b) (nested_dists new) ∧
        ∀ t ∈ nested_dists new, td < t) ∧
    (∀ (s2 : State K) (b2 : Ref K) (d2 i2 : Vec K) (t2 : K) (l2 : Option Nat),
      MAX_DIST < t2 → ray_trace M model depth s2 b2 d2 i2 t2 l2 = some (i2, s2)) := by
  obtain ⟨d, rfl⟩ : ∃ d, depth = d + 1 := ⟨depth - 1, by omega⟩
  have hd1 : Nat.floor (MAX_DIST / g) + 1 + 1 ≤ d := by omega
  refine ⟨?_, fun s2 b2 d2 i2 t2 l2 h => ray_trace_terminal M model d s2 b2 d2 i2 t2 l2 h⟩
  by_cases ht : td > MAX_DIST
  · rw [ray_trace_terminal M model d s _ dir ivec td lh ht]
    exact ⟨_, rfl, [], by simp, by simp [nested_dists], by simp [nested_dists],
      by simp [nested_dists]⟩
  · obtain ⟨f1, -, -, f4⟩ := find_closest_obj_frame M s model.scene base dir none
    have hon1 : ∀ q, (find_closest_obj M s model.scene base dir none).1 = some q →
        on_plane ((find_closest_obj M s model.scene base dir none).2.2.heap q) :=
      find_closest_loop_on_plane M base dir model.scene s none INT_MAX
        (fun p hp => (hsc p hp).1) (fun q hq => absurd hq (by simp))
    have hpos1 := find_closest_obj_pos M s model.scene base dir none
    obtain ⟨new1, e1, p1⟩ := find_closest_obj_log M s model.scene base dir none
    simp only [ray_trace, if_neg ht]
    generalize find_closest_obj M s model.scene base dir none = F at f1 f4 hon1 hpos1 e1 ⊢
    obtain ⟨cl, md, s1⟩ := F
    simp only [] at f1 f4 hon1 hpos1 e1 ⊢
    cases cl with
    | none =>
      have hn := nested_dists_none new1 (fun e he => (p1 e he).1)
      exact ⟨_, rfl, new1, e1, by rw [hn]; simp, by rw [hn]; exact List.chain'_nil,
        by rw [hn]; simp⟩
    | some q =>
      have hq_on : on_plane (s1.heap q) := hon1 q rfl
      have hmd : 0 < md := hpos1 q rfl
      have hq_mem : q ∈ model.scene := by
        rcases f4 with h | ⟨p, hp, -, hpq⟩
        · exact absurd h (by simp)
        · rw [Option.some.inj hpq]; exact hp
      obtain ⟨g1, g2, new3, e3, p3⟩ := diffuse_illumination_loop_frame M model.scene q
        model.lights ⟨s1.heap, s1.log ++ [Call.getamb q, Call.getspec q]⟩
        (call_getamb M (s1.heap q))
      simp only [diffuse_illumination]
      generalize diffuse_illumination_loop M model.scene q model.lights
        ⟨s1.heap, s1.log ++ [Call.getamb q, Call.getspec q]⟩ (call_getamb M (s1.heap q)) = D
        at g1 g2 e3 ⊢
      obtain ⟨dv, s3⟩ := D
      simp only [] at g1 g2 e3 ⊢
      have hn1 := nested_dists_none new1 (fun e he => (p1 e he).1)
      have hn3 := nested_dists_none new3 (fun e he => (p3 e he).1)
      split_ifs with hspec
      · have hshape : ∀ p, same_shape (s3.heap p) (s.heap p) :=
          fun p => same_shape_trans (g1 p) (f1 p)
        have hon3 : on_plane (s3.heap q) := by rw [g2]; exact hq_on
        have hfl : MAX_DIST / g < (Nat.floor (MAX_DIST / g) : K) + 1 :=
          Nat.lt_floor_add_one _
        have hmul : MAX_DIST < ((Nat.floor (MAX_DIST / g) : K) + 1) * g := by
          have := mul_lt_mul_of_pos_right hfl hg
          rwa [div_mul_cancel₀ _ (ne_of_gt hg)] at this
        have hmax2 : MAX_DIST < td + md + ((Nat.floor (MAX_DIST / g) + 1 : Nat) : K) * g := by
          push_cast
          linarith
        obtain ⟨R, hR, newR, eR, lenR, chR⟩ := mirror_trace M hM model g
          (Nat.floor (MAX_DIST / g) + 1) d
          ⟨s3.heap, s3.log ++ [Call.ray_trace (s3.heap q).hitloc
            (vec_reflect3 M dir (vec_unit3 M (s3.heap q).normal Vec.zero) Vec.zero)
            (td + md) (some q)]⟩ q
          (vec_reflect3 M dir (vec_unit3 M (s3.heap q).normal Vec.zero) Vec.zero)
          Vec.zero (td + md) (some q) hd1 (parallel_planes_congr hshape hsc) hq_mem hon3
          (vec_unit3_unit_or_old M hM _ _) hmax2
        rw [hR]
        obtain ⟨specint, s5⟩ := R
        have hnd : nested_dists (new1 ++ ([Call.getamb q, Call.getspec q] ++ (new3 ++
            ([Call.ray_trace (s3.heap q).hitloc
              (vec_reflect3 M dir (vec_unit3 M (s3.heap q).normal Vec.zero) Vec.zero)
              (td + md) (some q)] ++ newR)))) = (td + md) :: nested_dists newR := by
          rw [nested_dists_append, nested_dists_append, nested_dists_append,
            nested_dists_append, hn1, hn3, nested_dists_pair, nested_dists_call]
          rfl
        refine ⟨_, rfl, new1 ++ ([Call.getamb q, Call.getspec q] ++ (new3 ++
            ([Call.ray_trace (s3.heap q).hitloc
              (vec_reflect3 M dir (vec_unit3 M (s3.heap q).normal Vec.zero) Vec.zero)
              (td + md) (some q)] ++ newR))), ?_, ?_, ?_, ?_⟩
        · show s5.log = _
          simp only [] at eR
          rw [eR, e3, e1]
          simp only [List.append_assoc]
        · rw [hnd, List.length_cons]
          omega
        · rw [hnd]
          exact chR
        · rw [hnd]
          intro t ht2
          rcases List.mem_cons.mp ht2 with rfl | ht2
          · linarith
          · have := chain_gap_lt g hg _ _ chR t ht2
            linarith
      · refine ⟨_, rfl, new1 ++ ([Call.getamb q, Call.getspec q] ++ new3), ?_, ?_, ?_, ?_⟩
        · show s3.log = _
          rw [e3, e1]
          simp only [List.append_assoc]
        · rw [nested_dists_append, nested_dists_append, hn1, hn3, nested_dists_pair]
          simp
        · rw [nested_dists_append, nested_dists_append, hn1, hn3, nested_dists_pair]
          exact List.chain'_nil
        · rw [nested_dists_append, nested_dists_append, hn1, hn3, nested_dists_pair]
          simp

end Mirror

end MirrorLemmas

section MirrorInstances

/-- The real square root is a square root. -/
theorem real_sqrt_spec : Libm.sqrt_spec (⟨Real.sqrt, Real.sin⟩ : Libm ℝ) :=
  fun x hx => ⟨Real.sqrt_nonneg x, Real.mul_self_sqrt hx⟩

/-- The planes `z = -1` and `z = -2` are a gap 1 apart. -/
theorem ex_planes_parallel (sp : ℝ) : parallel_planes (ex_planes (-1) (-2) sp) [1, 2] 1 := by
  intro p hp
  simp only [List.mem_cons, List.mem_singleton, List.not_mem_nil, or_false] at hp
  rcases hp with rfl | rfl
  · refine ⟨rfl, fun q hq hne => ?_⟩
    simp only [List.mem_cons, List.mem_singleton, List.not_mem_nil, or_false] at hq
    rcases hq with rfl | rfl
    · exact absurd rfl hne
    · intro X hX
      simp [ex_planes, ex_heap, ex_plane, ex_blank, obj_priv.as_plane, vec_dot3] at hX ⊢
      rw [hX]
      norm_num
  · refine ⟨rfl, fun q hq hne => ?_⟩
    simp only [List.mem_cons, List.mem_singleton, List.not_mem_nil, or_false] at hq
    rcases hq with rfl | rfl
    · intro X hX
      simp [ex_planes, ex_heap, ex_plane, ex_blank, obj_priv.as_plane, vec_dot3] at hX ⊢
      rw [hX]
      norm_num
    · exact absurd rfl hne

/-- C27, an instance: the mirror planes `z = -1` and `z = -2` with specular
reflectivity `(1/2, 1/2, 1/2)`, no lights, and the ray from `(0, 0, -3/2)`
along `(0, 0, -1)`; the depth budget 23 is enough. -/
theorem ray_trace_between_mirrors_witness :
    ∃ r, ray_trace ⟨Real.sqrt, Real.sin⟩ ⟨[], [1, 2]⟩ 23 (ex_planes (-1) (-2) (1 / 2))
      (.val ⟨0, 0, -3 / 2⟩) ⟨0, 0, -1⟩ Vec.zero 0 none = some r := by
  have hdepth : Nat.floor ((MAX_DIST : ℝ) / 1) + 3 ≤ 23 := by
    have : Nat.floor ((MAX_DIST : ℝ) / 1) = 20 := by
      unfold MAX_DIST
      rw [div_one]
      exact Nat.floor_ofNat 20
    omega
  obtain ⟨r, hr, -⟩ := (ray_trace_between_mirrors ⟨Real.sqrt, Real.sin⟩ real_sqrt_spec
    ⟨[], [1, 2]⟩ 1 one_pos (ex_planes (-1) (-2) (1 / 2)) (ex_planes_parallel _)
    (.val ⟨0, 0, -3 / 2⟩) ⟨0, 0, -1⟩ Vec.zero 0 (le_refl 0) none 23 hdepth).1
  exact ⟨r, hr⟩

end MirrorInstances

/-! ## Claims on `vec_unit3`, `vec_reflect3`, the recorded hit state, the pixel bytes and the calls of `ray_trace` -/

section VecClaims

variable {K : Type} [LinearOrderedField K]

/-- In place, `vec_scale3` on the memory writes what the function on values
returns. -/
theorem vec_scale3_at_same (fact : K) (a : Nat) (mem : Nat → K) :
    vec_at (vec_scale3_at fact a a mem) a = vec_scale3 fact (vec_at mem a) ∧
    ∀ b, b < a ∨ a + 3 ≤ b → vec_scale3_at fact a a mem b = mem b := by
  constructor
  · simp [vec_at, vec_scale3_at, vec_scale3, Function.update]
  · intro b hb
    have h0 : b ≠ a := by omega
    have h1 : b ≠ a + 1 := by omega
    have h2 : b ≠ a + 2 := by omega
    simp [vec_scale3_at, Function.update, h0, h1, h2]

/-- On arrays that do not overlap, `vec_scale3` on the memory writes what the
function on values returns. -/
theorem vec_scale3_at_apart (fact : K) (v1 v2 : Nat) (mem : Nat → K)
    (h : v1 + 3 ≤ v2 ∨ v2 + 3 ≤ v1) :
    vec_at (vec_scale3_at fact v1 v2 mem) v2 = vec_scale3 fact (vec_at mem v1) := by
  have a1 : v2 + 1 ≠ v2 := by omega
  have a2 : v2 + 2 ≠ v2 := by omega
  have a3 : v2 + 2 ≠ v2 + 1 := by omega
  have a4 : v2 ≠ v2 + 1 := by omega
  have a5 : v2 ≠ v2 + 2 := by omega
  have a6 : v2 + 1 ≠ v2 + 2 := by omega
  have b1 : v1 + 1 ≠ v2 := by omega
  have b2 : v1 + 2 ≠ v2 := by omega
  have b3 : v1 + 2 ≠ v2 + 1 := by omega
  simp [vec_at, vec_scale3_at, vec_scale3, Function.update, a1, a2, a3, a4, a5, a6, b1, b2, b3]

/-- A square root of 1 that is not negative is 1. -/
theorem sqrt_spec_one (M : Libm K) (hM : M.sqrt_spec) : M.sqrt 1 = 1 := by
  obtain ⟨h0, h1⟩ := hM 1 zero_le_one
  have : (M.sqrt 1 - 1) * (M.sqrt 1 + 1) = 0 := by ring_nf; nlinarith
  rcases mul_eq_zero.mp this with h | h
  · linarith
  · linarith

theorem sqrt_spec_zero (M : Libm K) (hM : M.sqrt_spec) : M.sqrt 0 = 0 := by
  obtain ⟨-, h1⟩ := hM 0 (le_refl 0)
  exact mul_self_eq_zero.mp h1

/-- With a square root, the length of a vector is 0 only for the zero vector. -/
theorem vec_length3_eq_zero (M : Libm K) (hM : M.sqrt_spec) (v : Vec K) :
    vec_length3 M v = 0 ↔ v = Vec.zero := by
  rw [vec_length3_eq]
  constructor
  · intro h
    obtain ⟨-, h1⟩ := hM _ (vec_dot3_self_nonneg v)
    rw [h, mul_zero] at h1
    by_contra hv
    exact absurd h1.symm (ne_of_gt (vec_dot3_self_pos hv))
  · intro h
    rw [h]
    have : vec_dot3 (Vec.zero : Vec K) Vec.zero = 0 := by simp [vec_dot3, Vec.zero]
    rw [this]
    exact sqrt_spec_zero M hM

/-- With a square root, the length of a nonzero vector is positive and squares
to the inner product of the vector with itself. -/
theorem vec_length3_pos (M : Libm K) (hM : M.sqrt_spec) (v : Vec K) (hv : v ≠ Vec.zero) :
    0 < vec_length3 M v ∧ vec_length3 M v * vec_length3 M v = vec_dot3 v v := by
  obtain ⟨h0, h1⟩ := hM _ (vec_dot3_self_nonneg v)
  rw [← vec_length3_eq] at h0 h1
  refine ⟨lt_of_le_of_ne h0 (fun h => hv ((vec_length3_eq_zero M hM v).mp h.symm)), h1⟩

/-- C31.  When the input of `vec_unit3` has length 0, as the zero vector has
for a square root: the call returns, and the output array holds what it held
before the call; on the memory of doubles nothing at all is written, whether
or not input and output are the same array.  (The source prints a message with
`fprintf` on this path and does not call `exit`.) -/
theorem vec_unit3_zero_length (M : Libm K) (hM : M.sqrt_spec) (v2 : Vec K) (a1 a2 : Nat)
    (mem : Nat → K) :
    vec_unit3 M Vec.zero v2 = v2 ∧
    (∀ v1, vec_length3 M v1 = 0 → vec_unit3 M v1 v2 = v2) ∧
    (vec_at mem a1 = Vec.zero → vec_unit3_at M a1 a2 mem = mem) := by
  have hz : vec_length3 M (Vec.zero : Vec K) = 0 := (vec_length3_eq_zero M hM _).mpr rfl
  refine ⟨?_, ?_, ?_⟩
  · unfold vec_unit3
    rw [if_pos hz]
  · intro v1 h
    unfold vec_unit3
    rw [if_pos h]
  · intro h
    unfold vec_unit3_at
    rw [h, if_pos hz]

/-- C34.  For a square root and every nonzero vector `v`, `vec_unit3` writes
`v` scaled by `1 / |v|` with `|v| > 0`: the result has inner product 1 with
itself and length exactly 1 and is a positive multiple of `v`; a vector that
already has length 1 is returned unchanged; and called with the input array
as output array, the array afterwards holds the same result and no other cell
of the memory is changed. -/
theorem vec_unit3_normalises (M : Libm K) (hM : M.sqrt_spec) (v w : Vec K) (hv : v ≠ Vec.zero) :
    0 < vec_length3 M v ∧
    vec_unit3 M v w = vec_scale3 (1 / vec_length3 M v) v ∧
    vec_dot3 (vec_unit3 M v w) (vec_unit3 M v w) = 1 ∧
    vec_length3 M (vec_unit3 M v w) = 1 ∧
    (∃ k, 0 < k ∧ vec_unit3 M v w = vec_scale3 k v) ∧
    (vec_length3 M v = 1 → vec_unit3 M v w = v) ∧
    (∀ (a : Nat) (mem : Nat → K), vec_at mem a = v →
      vec_at (vec_unit3_at M a a mem) a = vec_unit3 M v w ∧
      ∀ b, b < a ∨ a + 3 ≤ b → vec_unit3_at M a a mem b = mem b) := by
  obtain ⟨hL, hLL⟩ := vec_length3_pos M hM v hv
  have hu : vec_unit3 M v w = vec_scale3 (1 / vec_length3 M v) v := by
    unfold vec_unit3
    rw [if_neg (ne_of_gt hL)]
  have hd : vec_dot3 (vec_unit3 M v w) (vec_unit3 M v w) = 1 := by
    rcases vec_unit3_unit_or_old M hM v w with h | h
    · exact h
    · rw [hu]
      generalize vec_length3 M v = L at hL hLL
      unfold vec_dot3 vec_scale3 at *
      simp only []
      field_simp
      linarith
  refine ⟨hL, hu, hd, ?_, ⟨1 / vec_length3 M v, by positivity, hu⟩, ?_, ?_⟩
  · rw [vec_length3_eq, hd]
    exact sqrt_spec_one M hM
  · intro h1
    rw [hu, h1]
    simp [vec_scale3]
  · intro a mem hmem
    have hne : ¬ vec_length3 M (vec_at mem a) = 0 := by rw [hmem]; exact ne_of_gt hL
    unfold vec_unit3_at
    rw [if_neg hne, hu, ← hmem]
    exact vec_scale3_at_same _ a mem

/-- The vector that `vec_reflect3` normalises is the mirror image. -/
theorem vec_reflect3_eq (M : Libm K) (d n w : Vec K) :
    vec_reflect3 M d n w = vec_unit3 M (mirror d n) w := by
  unfold vec_reflect3 mirror
  simp only []
  congr 1
  simp only [vec_diff3, vec_scale3, vec_dot3]
  ext <;> simp only [] <;> ring

theorem mirror_dot_self (d n : Vec K) (hn : vec_dot3 n n = 1) :
    vec_dot3 (mirror d n) (mirror d n) = vec_dot3 d d := by
  unfold mirror vec_dot3 at *
  simp only []
  linear_combination (4 * (d.x * n.x + d.y * n.y + d.z * n.z) ^ 2) * hn

theorem mirror_dot_normal (d n : Vec K) (hn : vec_dot3 n n = 1) :
    vec_dot3 (mirror d n) n = -vec_dot3 d n := by
  unfold mirror vec_dot3 at *
  simp only []
  linear_combination (-2 * (d.x * n.x + d.y * n.y + d.z * n.z)) * hn

theorem mirror_mirror (d n : Vec K) (hn : vec_dot3 n n = 1) :
    mirror (mirror d n) n = d := by
  have h := mirror_dot_normal d n hn
  unfold mirror at h ⊢
  rw [h]
  ext <;> simp only [] <;> ring

/-- C33.  For a square root, every incoming direction `d` of length 1 and
every normal `n` of length 1, `vec_reflect3` returns `r = d - 2 (d.n) n`
whatever the output array held: `r` has length 1, `r.n = -(d.n)`, the
components of `r` and of `d` orthogonal to `n` (their images under
`vec_project3 n`) are equal, and `vec_reflect3` applied to `r` and `n` returns
`d`. -/
theorem vec_reflect3_mirror (M : Libm K) (hM : M.sqrt_spec) (d n w w2 : Vec K)
    (hd : vec_dot3 d d = 1) (hn : vec_dot3 n n = 1) :
    vec_reflect3 M d n w = mirror d n ∧
    vec_dot3 (vec_reflect3 M d n w) (vec_reflect3 M d n w) = 1 ∧
    vec_length3 M (vec_reflect3 M d n w) = 1 ∧
    vec_dot3 (vec_reflect3 M d n w) n = -vec_dot3 d n ∧
    vec_project3 n (vec_reflect3 M d n w) = vec_project3 n d ∧
    vec_reflect3 M (vec_reflect3 M d n w) n w2 = d := by
  have hunit : ∀ (v u : Vec K), vec_dot3 v v = 1 → vec_unit3 M v u = v := by
    intro v u hv
    have hl : vec_length3 M v = 1 := by rw [vec_length3_eq, hv]; exact sqrt_spec_one M hM
    unfold vec_unit3
    rw [hl, if_neg one_ne_zero]
    simp [vec_scale3]
  have hmm : vec_dot3 (mirror d n) (mirror d n) = 1 := by rw [mirror_dot_self d n hn, hd]
  have hr : vec_reflect3 M d n w = mirror d n := by
    rw [vec_reflect3_eq, hunit _ _ hmm]
  rw [hr]
  refine ⟨rfl, hmm, ?_, mirror_dot_normal d n hn, ?_, ?_⟩
  · rw [vec_length3_eq, hmm]; exact sqrt_spec_one M hM
  · have h := mirror_dot_normal d n hn
    rw [vec_dot3_comm] at h
    unfold vec_project3
    rw [h, vec_scale3_one, vec_scale3_one, vec_dot3_comm n d]
    unfold mirror vec_diff3 vec_scale3
    ext <;> simp only [] <;> ring
  · rw [vec_reflect3_eq, mirror_mirror d n hn, hunit _ _ hd]


/-- C38.  For a square root, every sphere (center `C`, radius `r`) and every
ray with positive discriminant: the direction is not the zero vector, `r` is
not 0, the hit point that `hits_sphere` records satisfies
`|hit - C|^2 = r^2`, and the vector `hit - C` that is then normalised has
positive length. -/
theorem hits_sphere_hit_on_sphere (M : Libm K) (hM : M.sqrt_spec) (obj : obj_t K)
    (C O D : Vec K) (r : K) (hpriv : obj.priv = obj_priv.sphere ⟨C, r⟩)
    (hq : 0 < sphere_disc C r O D) :
    D ≠ Vec.zero ∧ r ≠ 0 ∧
    vec_dot3 (vec_diff3 C (hits_sphere M O D obj).2.hitloc)
      (vec_diff3 C (hits_sphere M O D obj).2.hitloc) = r * r ∧
    0 < vec_length3 M (vec_diff3 C (hits_sphere M O D obj).2.hitloc) := by
  obtain ⟨ha, hr⟩ := sphere_disc_pos C r O D hq
  obtain ⟨s0, s1⟩ := hM _ (le_of_lt hq)
  obtain ⟨h1, -⟩ := sphere_least_root C r O D (M.sqrt (sphere_disc C r O D)) ha s0 s1
  have hD : D ≠ Vec.zero := by
    rintro rfl
    simp [sphere_a, vec_dot3, Vec.zero] at ha
  have hr0 : r ≠ 0 := by
    rintro rfl
    simp at hr
  have hloc : (hits_sphere M O D obj).2.hitloc =
      ray_point O D ((-1 * sphere_b C O D - M.sqrt (sphere_disc C r O D)) / (2 * sphere_a D)) := by
    rw [hits_sphere_eval M obj C O D r hpriv, if_neg (not_le.mpr hq)]
    simp only [vec_scale3_one]
  unfold sphere_root at h1
  rw [hloc]
  refine ⟨hD, hr0, h1, ?_⟩
  have hne : vec_diff3 C (ray_point O D
      ((-1 * sphere_b C O D - M.sqrt (sphere_disc C r O D)) / (2 * sphere_a D))) ≠ Vec.zero := by
    intro h
    rw [h] at h1
    simp [vec_dot3, Vec.zero] at h1
    exact hr0 h1
  exact (vec_length3_pos M hM _ hne).1

/-- The output of `vec_unit3` is a fixed point of the call with that output as
the old content. -/
theorem vec_unit3_idem (M : Libm K) (v w : Vec K) :
    vec_unit3 M v (vec_unit3 M v w) = vec_unit3 M v w := by
  unfold vec_unit3
  split_ifs <;> rfl

theorem hits_sphere_idem (M : Libm K) (b d : Vec K) (o : obj_t K) :
    hits_sphere M b d (hits_sphere M b d o).2 = hits_sphere M b d o := by
  unfold hits_sphere
  simp only []
  split_ifs with h
  · simp only [if_pos h]
  · simp only [if_neg h, vec_unit3_idem]

theorem hits_plane_idem (b d : Vec K) (o : obj_t K) :
    hits_plane b d (hits_plane b d o).2 = hits_plane b d o := by
  unfold hits_plane
  simp only []
  split_ifs with h
  · simp only [if_pos h]
  · simp only [if_neg h]

theorem hits_fplane_idem (b d : Vec K) (o : obj_t K) :
    hits_fplane b d (hits_fplane b d o).2 = hits_fplane b d o := by
  have hp : ∀ o2 : obj_t K, o2.priv = o.priv → hits_fplane b d o2 =
      (if (hits_plane b d o2).1 < 0 then hits_plane b d o2
      else
        if (mat_xform3 o.priv.as_plane.priv.as_fplane.rotmat
            (vec_diff3 o.priv.as_plane.point (hits_plane b d o2).2.hitloc)).x >
            o.priv.as_plane.priv.as_fplane.size.1 ∨
          (mat_xform3 o.priv.as_plane.priv.as_fplane.rotmat
            (vec_diff3 o.priv.as_plane.point (hits_plane b d o2).2.hitloc)).x < 0 then
          (MISS, (hits_plane b d o2).2)
        else if (mat_xform3 o.priv.as_plane.priv.as_fplane.rotmat
            (vec_diff3 o.priv.as_plane.point (hits_plane b d o2).2.hitloc)).y >
            o.priv.as_plane.priv.as_fplane.size.2 ∨
          (mat_xform3 o.priv.as_plane.priv.as_fplane.rotmat
            (vec_diff3 o.priv.as_plane.point (hits_plane b d o2).2.hitloc)).y < 0 then
          (MISS, (hits_plane b d o2).2)
        else ((hits_plane b d o2).1, (hits_plane b d o2).2)) := by
    intro o2 h2
    unfold hits_fplane
    rw [h2]
  have hsh : (hits_plane b d o).2.priv = o.priv := (hits_plane_shape b d o).2.2.1
  have e1 := hp o rfl
  have hpr : (hits_fplane b d o).2 = (hits_plane b d o).2 := by
    rw [e1]
    split_ifs <;> rfl
  rw [hpr, hp _ hsh, hits_plane_idem, e1]

/-- Running the intersection test of an object a second time with the same
ray returns the same distance and leaves the object as the first run left
it. -/
theorem call_hits_idem (M : Libm K) (b d : Vec K) (o : obj_t K) :
    call_hits M b d (call_hits M b d o).2 = call_hits M b d o := by
  have hh : (call_hits M b d o).2.hits = o.hits := (call_hits_shape M b d o).2.2.2.1
  have hs : ∀ o2 : obj_t K, o2.hits = .hits_sphere → call_hits M b d o2 = hits_sphere M b d o2 := by
    intro o2 h2; unfold call_hits; rw [h2]
  have hp : ∀ o2 : obj_t K, o2.hits = .hits_plane → call_hits M b d o2 = hits_plane b d o2 := by
    intro o2 h2; unfold call_hits; rw [h2]
  have hf : ∀ o2 : obj_t K, o2.hits = .hits_fplane → call_hits M b d o2 = hits_fplane b d o2 := by
    intro o2 h2; unfold call_hits; rw [h2]
  cases h : o.hits
  · rw [hs _ (hh.trans h), hs o h, hits_sphere_idem]
  · rw [hp _ (hh.trans h), hp o h, hits_plane_idem]
  · rw [hf _ (hh.trans h), hf o h, hits_fplane_idem]


/-- With an origin that the query does not overwrite, the loop of
`find_closest_obj` leaves every object it tests as one run of its own
intersection test against the ray leaves it, and every other object as it
was. -/
theorem find_closest_loop_heap (M : Libm K) (base : Ref K) (dir : Vec K) (lh : Option Nat) :
    ∀ (l : List Nat) (s : State K) (c : Option Nat) (m : K), base.untested lh l →
      ∀ p, (find_closest_loop M base dir lh l s c m).2.2.heap p =
        if p ∈ l ∧ some p ≠ lh then (call_hits M (base.read s) dir (s.heap p)).2
        else s.heap p := by
  intro l
  induction l with
  | nil =>
    intro s c m _ p
    simp [find_closest_loop]
  | cons q l ih =>
    intro s c m hu p
    have hu2 := untested_tail hu
    by_cases hq : some q ≠ lh
    · have hread := read_update hu hq s (call_hits M (base.read s) dir (s.heap q)).2
        (s.log ++ [Call.hits q (base.read s) dir])
      have key : ∀ (c2 : Option Nat) (m2 : K),
          (find_closest_loop M base dir lh l
            ⟨Function.update s.heap q (call_hits M (base.read s) dir (s.heap q)).2,
              s.log ++ [Call.hits q (base.read s) dir]⟩ c2 m2).2.2.heap p =
          if p ∈ q :: l ∧ some p ≠ lh then (call_hits M (base.read s) dir (s.heap p)).2
          else s.heap p := by
        intro c2 m2
        rw [ih _ c2 m2 hu2 p, hread]
        by_cases hpq : p = q
        · subst hpq
          simp only [Function.update_same, List.mem_cons, true_or, true_and, if_pos hq]
          by_cases hpl : p ∈ l
          · rw [if_pos ⟨hpl, hq⟩, call_hits_idem]
          · rw [if_neg (fun h => hpl h.1)]
        · simp only [Function.update_noteq hpq, List.mem_cons, hpq, false_or]
      by_cases hc : hit_dist M s base dir q < m ∧ hit_dist M s base dir q > 0
      · rw [find_closest_loop_take M base dir hq l s c m hc]
        exact key _ _
      · rw [find_closest_loop_keep M base dir hq l s c m hc]
        exact key _ _
    · rw [find_closest_loop_skip M base dir hq l s c m, ih s c m hu2 p]
      by_cases hpq : p = q
      · subst hpq
        rw [if_neg (fun h => hq h.2), if_neg (fun h => hq h.2)]
      · simp only [List.mem_cons, hpq, false_or]

/-- A strictly positive answer of an intersection test comes with the hit
point `base + t dir`. -/
theorem call_hits_hitloc (M : Libm K) (b d : Vec K) (o : obj_t K)
    (h : 0 < (call_hits M b d o).1) :
    (call_hits M b d o).2.hitloc = vec_sum3 b (vec_scale3 (call_hits M b d o).1 d) := by
  have hmiss : ¬ (0 : K) < MISS := by unfold MISS; norm_num
  have hpl : ∀ o2 : obj_t K, 0 < (hits_plane b d o2).1 →
      (hits_plane b d o2).2.hitloc = vec_sum3 b (vec_scale3 (hits_plane b d o2).1 d) := by
    intro o2 h2
    rcases hits_plane_cases b d o2 with hm | ⟨-, -, -, h4, -⟩
    · rw [hm] at h2
      exact absurd h2 hmiss
    · exact h4
  unfold call_hits at h ⊢
  cases ht : o.hits
  · rw [ht] at h
    simp only [] at h ⊢
    unfold hits_sphere at h ⊢
    simp only [] at h ⊢
    split_ifs at h ⊢ with hq
    · exact absurd h hmiss
    · simp only [vec_scale3_one]
  · rw [ht] at h
    exact hpl o h
  · rw [ht] at h
    simp only [] at h ⊢
    unfold hits_fplane at h ⊢
    simp only [] at h ⊢
    split_ifs at h ⊢ with h1 h2 h3
    · exact hpl o h
    · exact absurd h hmiss
    · exact absurd h hmiss
    · exact hpl o h

/-- The normal that an intersection test records with a strictly positive
answer: for a sphere the normalised vector from the center to the recorded
hit point, for a plane or finite plane the normal of the plane. -/
theorem call_hits_normal (M : Libm K) (b d : Vec K) (o : obj_t K)
    (h : 0 < (call_hits M b d o).1) :
    (o.hits = .hits_sphere →
      (call_hits M b d o).2.normal =
        vec_unit3 M (vec_diff3 o.priv.as_sphere.center (call_hits M b d o).2.hitloc)
          o.normal) ∧
    (o.hits ≠ .hits_sphere →
      (call_hits M b d o).2.normal = o.priv.as_plane.normal) := by
  have hmiss : ¬ (0 : K) < MISS := by unfold MISS; norm_num
  have hpl : ∀ o2 : obj_t K, 0 < (hits_plane b d o2).1 →
      (hits_plane b d o2).2.normal = o2.priv.as_plane.normal := by
    intro o2 h2
    unfold hits_plane at h2 ⊢
    simp only [] at h2 ⊢
    split_ifs at h2 ⊢
    · exact absurd h2 hmiss
    · simp only [vec_scale3_one]
  unfold call_hits at h ⊢
  cases ht : o.hits
  · rw [ht] at h
    refine ⟨fun _ => ?_, fun hne => absurd rfl hne⟩
    simp only [] at h ⊢
    unfold hits_sphere at h ⊢
    simp only [] at h ⊢
    split_ifs at h ⊢ with hq
    · exact absurd h hmiss
    · simp only [vec_scale3_one]
  · rw [ht] at h
    refine ⟨fun hc => absurd hc (by simp), fun _ => hpl o h⟩
  · rw [ht] at h
    refine ⟨fun hc => absurd hc (by simp), fun _ => ?_⟩
    simp only [] at h ⊢
    unfold hits_fplane at h ⊢
    simp only [] at h ⊢
    split_ifs at h ⊢ with h1 h2 h3
    · exact hpl o h
    · exact absurd h hmiss
    · exact absurd h hmiss
    · exact hpl o h

/-- C36.  For every scene list of spheres, planes and finite planes and every
ray whose origin the query does not overwrite (a caller-owned array, or the
hit point of the excluded object or of an object outside the list): when
`find_closest_obj` returns the surface `p` with `*min_dist = d`, then after
the call `p` is exactly as one run of its own intersection test against the
ray leaves it, whatever was tested after it; its recorded hit point is
`base + d dir`; and its recorded normal is the one computed for that point:
for a sphere the normalised vector from the center to the hit point, for a
plane or finite plane the normal of the plane. -/
theorem find_closest_obj_hit_state (M : Libm K) (s : State K) (scene : List Nat) (base : Ref K)
    (dir : Vec K) (lh : Option Nat) (hb : base.untested lh scene) (p : Nat)
    (hp : (find_closest_obj M s scene base dir lh).1 = some p) :
    (find_closest_obj M s scene base dir lh).2.2.heap p =
      (call_hits M (base.read s) dir (s.heap p)).2 ∧
    0 < (find_closest_obj M s scene base dir lh).2.1 ∧
    ((find_closest_obj M s scene base dir lh).2.2.heap p).hitloc =
      vec_sum3 (base.read s) (vec_scale3 (find_closest_obj M s scene base dir lh).2.1 dir) ∧
    ((s.heap p).hits = .hits_sphere →
      ((find_closest_obj M s scene base dir lh).2.2.heap p).normal =
        vec_unit3 M (vec_diff3 (s.heap p).priv.as_sphere.center
          ((find_closest_obj M s scene base dir lh).2.2.heap p).hitloc) (s.heap p).normal) ∧
    ((s.heap p).hits ≠ .hits_sphere →
      ((find_closest_obj M s scene base dir lh).2.2.heap p).normal =
        (s.heap p).priv.as_plane.normal) := by
  rcases find_closest_obj_min M s scene base dir lh hb with
    ⟨h1, -, -⟩ | ⟨q, hq, h1, h2, h3, h4, -, -⟩
  · rw [h1] at hp
    exact absurd hp (by simp)
  · rw [h1] at hp
    have hqp : q = p := Option.some.inj hp
    subst hqp
    have hheap : (find_closest_obj M s scene base dir lh).2.2.heap q =
        (call_hits M (base.read s) dir (s.heap q)).2 := by
      unfold find_closest_obj
      rw [find_closest_loop_heap M base dir lh scene s none INT_MAX hb q, if_pos ⟨hq, h3⟩]
    have hpos : 0 < (call_hits M (base.read s) dir (s.heap q)).1 := h4
    have hd : (find_closest_obj M s scene base dir lh).2.1 =
        (call_hits M (base.read s) dir (s.heap q)).1 := h2
    obtain ⟨n1, n2⟩ := call_hits_normal M (base.read s) dir (s.heap q) hpos
    rw [hheap, hd]
    exact ⟨rfl, hpos, call_hits_hitloc M _ dir _ hpos, n1, n2⟩

end VecClaims

section LoaderBound

/-- C39 fails for the tag `LAST_TYPE = 25`.  The table `obj_loaders` has 15
entries, for the tags 10 to 24, and every tag from `FIRST_TYPE` up to 24 reads
one of them; but `model_init` also accepts the tag 25 as in range, and the
index `25 - FIRST_TYPE = 15` is one past the last entry: the read is outside
the table, whatever follows the tag in the input. -/
theorem model_init_last_type_reads_past_table :
    obj_loaders.length = 15 ∧
    (∀ t : Int, FIRST_TYPE ≤ t → t < LAST_TYPE →
      ∃ f, table_read obj_loaders (t - FIRST_TYPE) = some f) ∧
    (LAST_TYPE ≥ FIRST_TYPE ∧ LAST_TYPE ≤ LAST_TYPE) ∧
    LAST_TYPE - FIRST_TYPE = 15 ∧
    table_read obj_loaders (LAST_TYPE - FIRST_TYPE) = none ∧
    (∀ (loaded : Except String Nat) (rest : List record_t) (model : model_t),
      model_init (⟨LAST_TYPE, loaded⟩ :: rest) model = .undefined) := by
  refine ⟨rfl, ?_, ⟨by decide, le_refl _⟩, rfl, rfl, ?_⟩
  · intro t h1 h2
    unfold FIRST_TYPE at h1 ⊢
    unfold LAST_TYPE at h2
    have hk : t = 10 ∨ t = 11 ∨ t = 12 ∨ t = 13 ∨ t = 14 ∨ t = 15 ∨ t = 16 ∨ t = 17 ∨ t = 18 ∨
        t = 19 ∨ t = 20 ∨ t = 21 ∨ t = 22 ∨ t = 23 ∨ t = 24 := by omega
    rcases hk with rfl | rfl | rfl | rfl | rfl | rfl | rfl | rfl | rfl | rfl | rfl | rfl | rfl |
      rfl | rfl <;> exact ⟨_, rfl⟩
  · intro loaded rest model
    have hin : (LAST_TYPE : Int) ≥ FIRST_TYPE ∧ (LAST_TYPE : Int) ≤ LAST_TYPE :=
      ⟨by decide, le_refl _⟩
    have ht : table_read obj_loaders (LAST_TYPE - FIRST_TYPE) = none := rfl
    simp only [model_init, if_pos hin, ht]

end LoaderBound

section ImageClaims

variable {K : Type} [LinearOrderedField K] [FloorRing K]

omit [FloorRing K] in
/-- The clamp of `make_pixel` is `min(max(v, 0), 1)`. -/
theorem make_pixel_clamp_eq (v : K) : make_pixel_clamp v = min (max v 0) 1 := by
  unfold make_pixel_clamp
  by_cases h0 : v < 0
  · rw [if_pos h0, max_eq_right (le_of_lt h0), min_eq_left zero_le_one]
  · rw [if_neg h0, max_eq_left (not_lt.mp h0)]
    by_cases h1 : v > 1
    · rw [if_pos h1, min_eq_right (le_of_lt h1)]
    · rw [if_neg h1, min_eq_left (not_lt.mp h1)]

omit [FloorRing K] in
theorem make_pixel_clamp_range (v : K) : 0 ≤ make_pixel_clamp v ∧ make_pixel_clamp v ≤ 1 := by
  rw [make_pixel_clamp_eq]
  exact ⟨le_min (le_max_right _ _) zero_le_one, min_le_right _ _⟩

/-- The cast `(int)k` of an integer value. -/
theorem c_int_intCast (k : Int) : c_int ((k : Int) : K) = k := by
  unfold c_int
  split_ifs
  · exact Int.floor_intCast k
  · exact Int.ceil_intCast k

/-- C32.  For every averaged sample intensity `v` of a channel, the byte that
`make_pixel` stores is `trunc(255 * min(max(v, 0), 1))`: it lies between 0
and 255, it is 0 for every `v ≤ 0` and 255 for every `v ≥ 1`.  Whenever
`make_pixel` returns, the three bytes are these bytes of the three channels
of the sum of the sample intensities that `ray_trace` returned, scaled by
`1 / AA_SAMPLES`; the samples themselves are summed as the tracer returned
them. -/
theorem make_pixel_bytes (M : Libm K) (model : model_t) (proj : proj_t K) (depth : Nat)
    (x y : Int) (samples : List (K × K)) (s : State K) :
    (∀ v : K,
      make_pixel_store (make_pixel_clamp v) = c_int (255 * min (max v 0) 1) ∧
      0 ≤ make_pixel_store (make_pixel_clamp v) ∧
      make_pixel_store (make_pixel_clamp v) ≤ 255 ∧
      (v ≤ 0 → make_pixel_store (make_pixel_clamp v) = 0) ∧
      (1 ≤ v → make_pixel_store (make_pixel_clamp v) = 255)) ∧
    (∀ r, make_pixel M model proj depth x y samples s = some r →
      ∃ total, make_pixel_loop M model proj depth x y samples s Vec.zero = some (total, r.2) ∧
        r.1 =
          (make_pixel_store (make_pixel_clamp (total.x * (1 / (samples.length : K)))),
            make_pixel_store (make_pixel_clamp (total.y * (1 / (samples.length : K)))),
            make_pixel_store (make_pixel_clamp (total.z * (1 / (samples.length : K)))))) := by
  constructor
  · intro v
    obtain ⟨h0, h1⟩ := make_pixel_clamp_range v
    have e : make_pixel_store (make_pixel_clamp v) = c_int (255 * min (max v 0) 1) := by
      unfold make_pixel_store MAX_COLOR
      rw [make_pixel_clamp_eq, mul_comm]
    have hnn : (0 : K) ≤ make_pixel_clamp v * 255 := mul_nonneg h0 (by norm_num)
    have hfl : make_pixel_store (make_pixel_clamp v) = Int.floor (make_pixel_clamp v * 255) := by
      unfold make_pixel_store MAX_COLOR c_int
      rw [if_pos hnn]
    refine ⟨e, ?_, ?_, ?_, ?_⟩
    · rw [hfl]
      exact Int.floor_nonneg.mpr hnn
    · rw [hfl]
      have : make_pixel_clamp v * 255 ≤ ((255 : Int) : K) := by
        push_cast
        nlinarith
      exact (Int.floor_le_floor this).trans (le_of_eq (Int.floor_intCast 255))
    · intro hv
      have hz : make_pixel_clamp v = 0 := by
        rw [make_pixel_clamp_eq, max_eq_right hv, min_eq_left zero_le_one]
      rw [hfl, hz, zero_mul]
      exact Int.floor_zero
    · intro hv
      have hz : make_pixel_clamp v = 1 := by
        rw [make_pixel_clamp_eq, max_eq_left (le_trans zero_le_one hv), min_eq_right hv]
      rw [hfl, hz, one_mul]
      have : (255 : K) = ((255 : Int) : K) := by push_cast; rfl
      rw [this]
      exact Int.floor_intCast 255
  · intro r hr
    unfold make_pixel at hr
    cases hl : make_pixel_loop M model proj depth x y samples s Vec.zero with
    | none =>
      rw [hl] at hr
      exact absurd hr (by simp)
    | some ts =>
      obtain ⟨total, s1⟩ := ts
      rw [hl] at hr
      simp only [Option.some.injEq] at hr
      subst hr
      exact ⟨total, rfl, rfl⟩

end ImageClaims

section CallClaims

variable {K : Type} [LinearOrderedField K] [FloorRing K]

/-- A call that `ray_trace_next` reports is the recursive call of `ray_trace`:
the result of the caller is the result of that call, mapped. -/
theorem ray_trace_next_some (M : Libm K) (model : model_t) (c c2 : call_t K)
    (h : ray_trace_next M model c = some c2) (depth : Nat) (ivec : Vec K) (lh : Option Nat) :
    ∃ (q : Nat) (F : Vec K × State K → Vec K × State K),
      (find_closest_obj M c.s model.scene c.base c.dir none).1 = some q ∧
      c2.base = .hitloc q ∧
      c2.total_dist =
        c.total_dist + (find_closest_obj M c.s model.scene c.base c.dir none).2.1 ∧
      ray_trace M model (depth + 1) c.s c.base c.dir ivec c.total_dist lh =
        (ray_trace M model depth c2.s c2.base c2.dir Vec.zero c2.total_dist (some q)).map F := by
  unfold ray_trace_next at h
  by_cases ht : c.total_dist > MAX_DIST
  · rw [if_pos ht] at h
    exact absurd h (by simp)
  · rw [if_neg ht] at h
    simp only [ray_trace, if_neg ht]
    simp only [] at h
    generalize find_closest_obj M c.s model.scene c.base c.dir none = F at h ⊢
    obtain ⟨cl, md, s1⟩ := F
    cases cl with
    | none => exact absurd h (by simp)
    | some q =>
      simp only [] at h ⊢
      split_ifs at h ⊢ with hs
      simp only [Option.some.injEq] at h
      subst h
      refine ⟨q, fun R => (vec_sum3 (vec_scale3 (1 / (c.total_dist + md))
        (diffuse_illumination M model ⟨s1.heap, s1.log ++ [Call.getamb q, Call.getspec q]⟩ q
          (call_getamb M (s1.heap q))).1)
        (vec_mul3 R.1 (call_getspec (s1.heap q))), R.2), rfl, rfl, rfl, ?_⟩
      simp only []
      cases ray_trace M model depth _ (Ref.hitloc q) _ Vec.zero _ (some q) with
      | none => rfl
      | some R => rfl

/-- C37.  Let `c0` be a call of `ray_trace` with accumulated distance
`total_dist ≥ 0`, as the top-level call of `make_pixel` with `total_dist = 0`
is, and `c` a call reachable from it.  Then the accumulated distance of `c` on
entry is at least that of `c0`, so it is `≥ 0`; whenever the nearest-hit query
of `c` returns a surface, with distance `mindist`, the divisor
`total_dist + mindist` is strictly positive; and the recursive call that `c`
makes, if any, receives `total_dist + mindist`, which is strictly greater
than the accumulated distance of `c`. -/
theorem ray_trace_distances (M : Libm K) (model : model_t) (c0 c : call_t K)
    (h0 : 0 ≤ c0.total_dist) (hr : ray_trace_reaches M model c0 c) :
    c0.total_dist ≤ c.total_dist ∧ 0 ≤ c.total_dist ∧
    (∀ q, (find_closest_obj M c.s model.scene c.base c.dir none).1 = some q →
      0 < c.total_dist + (find_closest_obj M c.s model.scene c.base c.dir none).2.1) ∧
    (∀ c2, ray_trace_next M model c = some c2 →
      c2.total_dist =
        c.total_dist + (find_closest_obj M c.s model.scene c.base c.dir none).2.1 ∧
      c.total_dist < c2.total_dist) := by
  have hstep : ∀ a b : call_t K, ray_trace_next M model a = some b →
      b.total_dist =
        a.total_dist + (find_closest_obj M a.s model.scene a.base a.dir none).2.1 ∧
      a.total_dist < b.total_dist := by
    intro a b hab
    obtain ⟨q, -, hq, -, htd, -⟩ := ray_trace_next_some M model a b hab 0 Vec.zero none
    have hpos := find_closest_obj_pos M a.s model.scene a.base a.dir none q hq
    exact ⟨htd, by rw [htd]; linarith⟩
  have hmono : c0.total_dist ≤ c.total_dist := by
    unfold ray_trace_reaches at hr
    induction hr with
    | refl => exact le_refl _
    | tail _ hab ih => exact le_trans ih (le_of_lt (hstep _ _ hab).2)
  refine ⟨hmono, le_trans h0 hmono, ?_, fun c2 h2 => hstep c c2 h2⟩
  intro q hq
  have hpos := find_closest_obj_pos M c.s model.scene c.base c.dir none q hq
  linarith [le_trans h0 hmono]

end CallClaims

/-! ## Instances for the reflected query, the vector functions and the pixel bytes -/

section BallInstances

theorem ex_ball_hit_down (o : obj_t ℝ) (hpriv : o.priv = .sphere ⟨⟨0, 0, -5⟩, 1⟩) :
    hits_sphere ⟨Real.sqrt, Real.sin⟩ ⟨0, 0, 0⟩ ⟨0, 0, -1⟩ o =
      (4, { o with hitloc := ⟨0, 0, -4⟩, normal := ⟨0, 0, 1⟩ }) := by
  have hd : sphere_disc (⟨0, 0, -5⟩ : Vec ℝ) 1 ⟨0, 0, 0⟩ ⟨0, 0, -1⟩ = 4 := by
    simp [sphere_disc, sphere_a, sphere_b, sphere_c, vec_dot3, vec_diff3]
    norm_num
  have hb : sphere_b (⟨0, 0, -5⟩ : Vec ℝ) ⟨0, 0, 0⟩ ⟨0, 0, -1⟩ = -10 := by
    simp [sphere_b, vec_dot3, vec_diff3]
    norm_num
  have ha : sphere_a (⟨0, 0, -1⟩ : Vec ℝ) = 1 := by
    simp [sphere_a, vec_dot3]
  have h4 : (⟨Real.sqrt, Real.sin⟩ : Libm ℝ).sqrt 4 = 2 := real_sqrt_four
  rw [hits_sphere_eval _ o _ _ _ _ hpriv, hd, hb, ha, h4, if_neg (by norm_num)]
  have ht : ((-1 : ℝ) * -10 - 2) / (2 * 1) = 4 := by norm_num
  rw [ht]
  have hp : ray_point (⟨0, 0, 0⟩ : Vec ℝ) ⟨0, 0, -1⟩ 4 = ⟨0, 0, -4⟩ := by
    simp [ray_point, vec_sum3, vec_scale3]
  rw [hp, vec_scale3_one]
  have hn : vec_unit3 ⟨Real.sqrt, Real.sin⟩ (vec_diff3 (⟨0, 0, -5⟩ : Vec ℝ) ⟨0, 0, -4⟩)
      o.normal = ⟨0, 0, 1⟩ := by
    have hv : vec_diff3 (⟨0, 0, -5⟩ : Vec ℝ) ⟨0, 0, -4⟩ = ⟨0, 0, 1⟩ := by
      simp [vec_diff3]; norm_num
    rw [hv]
    simp [vec_unit3, vec_length3, vec_scale3]
  rw [hn]

theorem ex_ball_hit_up (o : obj_t ℝ) (hpriv : o.priv = .sphere ⟨⟨0, 0, -5⟩, 1⟩) :
    hits_sphere ⟨Real.sqrt, Real.sin⟩ ⟨0, 0, -4⟩ ⟨0, 0, 1⟩ o =
      (-2, { o with hitloc := ⟨0, 0, -6⟩, normal := ⟨0, 0, -1⟩ }) := by
  have hd : sphere_disc (⟨0, 0, -5⟩ : Vec ℝ) 1 ⟨0, 0, -4⟩ ⟨0, 0, 1⟩ = 4 := by
    simp [sphere_disc, sphere_a, sphere_b, sphere_c, vec_dot3, vec_diff3]
    norm_num
  have hb : sphere_b (⟨0, 0, -5⟩ : Vec ℝ) ⟨0, 0, -4⟩ ⟨0, 0, 1⟩ = 2 := by
    simp [sphere_b, vec_dot3, vec_diff3]
    norm_num
  have ha : sphere_a (⟨0, 0, 1⟩ : Vec ℝ) = 1 := by
    simp [sphere_a, vec_dot3]
  have h4 : (⟨Real.sqrt, Real.sin⟩ : Libm ℝ).sqrt 4 = 2 := real_sqrt_four
  rw [hits_sphere_eval _ o _ _ _ _ hpriv, hd, hb, ha, h4, if_neg (by norm_num)]
  have ht : ((-1 : ℝ) * 2 - 2) / (2 * 1) = -2 := by norm_num
  rw [ht]
  have hp : ray_point (⟨0, 0, -4⟩ : Vec ℝ) ⟨0, 0, 1⟩ (-2) = ⟨0, 0, -6⟩ := by
    simp [ray_point, vec_sum3, vec_scale3]; norm_num
  rw [hp, vec_scale3_one]
  have hn : vec_unit3 ⟨Real.sqrt, Real.sin⟩ (vec_diff3 (⟨0, 0, -5⟩ : Vec ℝ) ⟨0, 0, -6⟩)
      o.normal = ⟨0, 0, -1⟩ := by
    have hv : vec_diff3 (⟨0, 0, -5⟩ : Vec ℝ) ⟨0, 0, -6⟩ = ⟨0, 0, -1⟩ := by
      simp [vec_diff3]; norm_num
    rw [hv]
    simp [vec_unit3, vec_length3, vec_scale3]
  rw [hn]


theorem ex_plane_hits (o : obj_t ℝ) (pp : plane_priv ℝ)
    (hpriv : o.priv = .plane ⟨⟨0, 0, 1⟩, ⟨0, 0, -5⟩, pp⟩) :
    hits_plane ⟨0, 0, 0⟩ ⟨0, 0, -1⟩ o =
      (5, { o with hitloc := ⟨0, 0, -5⟩, normal := ⟨0, 0, 1⟩ }) ∧
    hits_plane ⟨0, 0, -6⟩ ⟨0, 0, 1⟩ o =
      (1, { o with hitloc := ⟨0, 0, -5⟩, normal := ⟨0, 0, 1⟩ }) ∧
    hits_plane ⟨0, 0, -4⟩ ⟨0, 0, 1⟩ o = (MISS, o) := by
  refine ⟨?_, ?_, ?_⟩
  · rw [hits_plane_eval o _ _ _ _ pp hpriv]
    have hd : plane_dist (⟨0, 0, 1⟩ : Vec ℝ) ⟨0, 0, -5⟩ ⟨0, 0, 0⟩ ⟨0, 0, -1⟩ = 5 := by
      simp [plane_dist, vec_dot3]
    have hp : ray_point (⟨0, 0, 0⟩ : Vec ℝ) ⟨0, 0, -1⟩ 5 = ⟨0, 0, -5⟩ := by
      simp [ray_point, vec_sum3, vec_scale3]
    rw [hd, hp, if_neg (by simp [vec_dot3]; norm_num), vec_scale3_one, vec_scale3_one]
  · rw [hits_plane_eval o _ _ _ _ pp hpriv]
    have hd : plane_dist (⟨0, 0, 1⟩ : Vec ℝ) ⟨0, 0, -5⟩ ⟨0, 0, -6⟩ ⟨0, 0, 1⟩ = 1 := by
      simp [plane_dist, vec_dot3]; norm_num
    have hp : ray_point (⟨0, 0, -6⟩ : Vec ℝ) ⟨0, 0, 1⟩ 1 = ⟨0, 0, -5⟩ := by
      simp [ray_point, vec_sum3, vec_scale3]; norm_num
    rw [hd, hp, if_neg (by simp [vec_dot3]; norm_num), vec_scale3_one, vec_scale3_one]
  · rw [hits_plane_eval o _ _ _ _ pp hpriv]
    have hd : plane_dist (⟨0, 0, 1⟩ : Vec ℝ) ⟨0, 0, -5⟩ ⟨0, 0, -4⟩ ⟨0, 0, 1⟩ = -1 := by
      simp [plane_dist, vec_dot3]; norm_num
    rw [hd, if_pos (Or.inl (by norm_num))]

/-- The nearest-hit query of the primary ray from the origin down the z axis:
the sphere is returned at distance 4 with the hit point `(0, 0, -4)`. -/
theorem ex_ball_primary_query (sp : ℝ) :
    (find_closest_obj ⟨Real.sqrt, Real.sin⟩ (ex_ball_scene sp) [1, 2] (.val ⟨0, 0, 0⟩)
      ⟨0, 0, -1⟩ none).1 = some 1 ∧
    (find_closest_obj ⟨Real.sqrt, Real.sin⟩ (ex_ball_scene sp) [1, 2] (.val ⟨0, 0, 0⟩)
      ⟨0, 0, -1⟩ none).2.1 = 4 ∧
    (find_closest_obj ⟨Real.sqrt, Real.sin⟩ (ex_ball_scene sp) [1, 2] (.val ⟨0, 0, 0⟩)
      ⟨0, 0, -1⟩ none).2.2.heap 1 =
      { ex_ball sp with hitloc := ⟨0, 0, -4⟩, normal := ⟨0, 0, 1⟩ } ∧
    (find_closest_obj ⟨Real.sqrt, Real.sin⟩ (ex_ball_scene sp) [1, 2] (.val ⟨0, 0, 0⟩)
      ⟨0, 0, -1⟩ none).2.2.heap 2 =
      { ex_plane (-5) 0 with hitloc := ⟨0, 0, -5⟩, normal := ⟨0, 0, 1⟩ } ∧
    (find_closest_obj ⟨Real.sqrt, Real.sin⟩ (ex_ball_scene sp) [1, 2] (.val ⟨0, 0, 0⟩)
      ⟨0, 0, -1⟩ none).2.2.log =
      [Call.hits 1 ⟨0, 0, 0⟩ ⟨0, 0, -1⟩, Call.hits 2 ⟨0, 0, 0⟩ ⟨0, 0, -1⟩] := by
  have c1 : call_hits ⟨Real.sqrt, Real.sin⟩ ⟨0, 0, 0⟩ ⟨0, 0, -1⟩ (ex_ball sp) =
      (4, { ex_ball sp with hitloc := ⟨0, 0, -4⟩, normal := ⟨0, 0, 1⟩ }) :=
    ex_ball_hit_down (ex_ball sp) rfl
  have c2 : call_hits ⟨Real.sqrt, Real.sin⟩ ⟨0, 0, 0⟩ ⟨0, 0, -1⟩ (ex_plane (-5) 0) =
      (5, { ex_plane (-5) 0 with hitloc := ⟨0, 0, -5⟩, normal := ⟨0, 0, 1⟩ }) :=
    (ex_plane_hits (ex_plane (-5) 0) .null rfl).1
  have d1 : hit_dist ⟨Real.sqrt, Real.sin⟩ (ex_ball_scene sp) (.val ⟨0, 0, 0⟩) ⟨0, 0, -1⟩ 1 =
      4 := by
    exact congrArg Prod.fst c1
  have k1 : hit_dist ⟨Real.sqrt, Real.sin⟩ (ex_ball_scene sp) (.val ⟨0, 0, 0⟩) ⟨0, 0, -1⟩ 1 <
      INT_MAX ∧
      hit_dist ⟨Real.sqrt, Real.sin⟩ (ex_ball_scene sp) (.val ⟨0, 0, 0⟩) ⟨0, 0, -1⟩ 1 > 0 := by
    rw [d1]; unfold INT_MAX; norm_num
  unfold find_closest_obj
  rw [find_closest_loop_take _ _ _ (some_ne_none_nat 1) _ _ _ _ k1, d1]
  have hs2 : (Function.update (ex_ball_scene sp).heap 1
      (call_hits ⟨Real.sqrt, Real.sin⟩ ((Ref.val ⟨0, 0, 0⟩ : Ref ℝ).read (ex_ball_scene sp))
        ⟨0, 0, -1⟩ ((ex_ball_scene sp).heap 1)).2) 2 = ex_plane (-5) 0 := by
    rw [Function.update_noteq (by decide)]
    rfl
  have d2 : hit_dist ⟨Real.sqrt, Real.sin⟩
      ⟨Function.update (ex_ball_scene sp).heap 1
        (call_hits ⟨Real.sqrt, Real.sin⟩ ((Ref.val ⟨0, 0, 0⟩ : Ref ℝ).read (ex_ball_scene sp))
          ⟨0, 0, -1⟩ ((ex_ball_scene sp).heap 1)).2,
        (ex_ball_scene sp).log ++
          [Call.hits 1 ((Ref.val ⟨0, 0, 0⟩ : Ref ℝ).read (ex_ball_scene sp)) ⟨0, 0, -1⟩]⟩
      (.val ⟨0, 0, 0⟩) ⟨0, 0, -1⟩ 2 = 5 := by
    exact congrArg Prod.fst c2
  rw [find_closest_loop_keep _ _ _ (some_ne_none_nat 2) _ _ _ _ (by rw [d2]; norm_num)]
  simp only [find_closest_loop]
  refine ⟨trivial, trivial, ?_, ?_, rfl⟩
  · rw [Function.update_noteq (by decide), Function.update_same]
    exact congrArg Prod.snd c1
  · rw [Function.update_same]
    exact congrArg Prod.snd c2

/-- The nearest-hit query along `(0, 0, 1)` whose origin is the recorded hit
point `(0, 0, -4)` of the sphere at pointer 1: the test of the sphere moves
that hit point to `(0, 0, -6)`, the plane at pointer 2 is then tested from
`(0, 0, -6)`, and it is returned at distance 1. -/
theorem ex_ball_reflected_query (s : State ℝ) (pp : plane_priv ℝ)
    (h1 : (s.heap 1).priv = .sphere ⟨⟨0, 0, -5⟩, 1⟩) (t1 : (s.heap 1).hits = .hits_sphere)
    (l1 : (s.heap 1).hitloc = ⟨0, 0, -4⟩)
    (h2 : (s.heap 2).priv = .plane ⟨⟨0, 0, 1⟩, ⟨0, 0, -5⟩, pp⟩)
    (t2 : (s.heap 2).hits = .hits_plane) :
    (find_closest_obj ⟨Real.sqrt, Real.sin⟩ s [1, 2] (.hitloc 1) ⟨0, 0, 1⟩ none).1 = some 2 ∧
    (find_closest_obj ⟨Real.sqrt, Real.sin⟩ s [1, 2] (.hitloc 1) ⟨0, 0, 1⟩ none).2.1 = 1 ∧
    ((find_closest_obj ⟨Real.sqrt, Real.sin⟩ s [1, 2] (.hitloc 1) ⟨0, 0, 1⟩
      none).2.2.heap 1).hitloc = ⟨0, 0, -6⟩ ∧
    (find_closest_obj ⟨Real.sqrt, Real.sin⟩ s [1, 2] (.hitloc 1) ⟨0, 0, 1⟩ none).2.2.log =
      s.log ++ [Call.hits 1 ⟨0, 0, -4⟩ ⟨0, 0, 1⟩, Call.hits 2 ⟨0, 0, -6⟩ ⟨0, 0, 1⟩] := by
  have hr : (Ref.hitloc 1 : Ref ℝ).read s = ⟨0, 0, -4⟩ := l1
  have c1 : call_hits ⟨Real.sqrt, Real.sin⟩ ⟨0, 0, -4⟩ ⟨0, 0, 1⟩ (s.heap 1) =
      (-2, { s.heap 1 with hitloc := ⟨0, 0, -6⟩, normal := ⟨0, 0, -1⟩ }) := by
    unfold call_hits
    rw [t1]
    exact ex_ball_hit_up (s.heap 1) h1
  have c2 : call_hits ⟨Real.sqrt, Real.sin⟩ ⟨0, 0, -6⟩ ⟨0, 0, 1⟩ (s.heap 2) =
      (1, { s.heap 2 with hitloc := ⟨0, 0, -5⟩, normal := ⟨0, 0, 1⟩ }) := by
    unfold call_hits
    rw [t2]
    exact (ex_plane_hits (s.heap 2) pp h2).2.1
  have d1 : hit_dist ⟨Real.sqrt, Real.sin⟩ s (.hitloc 1) ⟨0, 0, 1⟩ 1 = -2 := by
    unfold hit_dist
    rw [hr, c1]
  unfold find_closest_obj
  rw [find_closest_loop_keep _ _ _ (some_ne_none_nat 1) _ _ _ _ (by rw [d1]; norm_num), hr, c1]
  have hr2 : (Ref.hitloc 1 : Ref ℝ).read
      ⟨Function.update s.heap 1 { s.heap 1 with hitloc := ⟨0, 0, -6⟩, normal := ⟨0, 0, -1⟩ },
        s.log ++ [Call.hits 1 ⟨0, 0, -4⟩ ⟨0, 0, 1⟩]⟩ = ⟨0, 0, -6⟩ := by
    simp [Ref.read]
  have hs2 : Function.update s.heap 1
      { s.heap 1 with hitloc := ⟨0, 0, -6⟩, normal := ⟨0, 0, -1⟩ } 2 = s.heap 2 :=
    Function.update_noteq (by decide) _ _
  have d2 : hit_dist ⟨Real.sqrt, Real.sin⟩
      ⟨Function.update s.heap 1 { s.heap 1 with hitloc := ⟨0, 0, -6⟩, normal := ⟨0, 0, -1⟩ },
        s.log ++ [Call.hits 1 ⟨0, 0, -4⟩ ⟨0, 0, 1⟩]⟩ (.hitloc 1) ⟨0, 0, 1⟩ 2 = 1 := by
    unfold hit_dist
    rw [hr2]
    simp only [hs2]
    rw [c2]
  rw [find_closest_loop_take _ _ _ (some_ne_none_nat 2) _ _ _ _
    (by rw [d2]; unfold INT_MAX; norm_num), d2, hr2]
  simp only [find_closest_loop]
  refine ⟨trivial, trivial, ?_, ?_⟩
  · rw [Function.update_noteq (by decide), Function.update_same]
  · simp


end BallInstances

section CallInstances

/-- The recursive call of `ray_trace` in a model without lights, when the
nearest-hit query returns the surface `q` and `q` has specular reflectivity. -/
theorem ray_trace_next_eval {K : Type} [LinearOrderedField K] [FloorRing K] (M : Libm K)
    (model : model_t) (c : call_t K) (q : Nat) (hl : model.lights = [])
    (ht : ¬ c.total_dist > MAX_DIST)
    (hq : (find_closest_obj M c.s model.scene c.base c.dir none).1 = some q)
    (hs : vec_dot3
      (call_getspec ((find_closest_obj M c.s model.scene c.base c.dir none).2.2.heap q))
      (call_getspec ((find_closest_obj M c.s model.scene c.base c.dir none).2.2.heap q)) > 0) :
    ∃ c2, ray_trace_next M model c = some c2 ∧ c2.base = .hitloc q ∧
      c2.dir = vec_reflect3 M c.dir
        (vec_unit3 M ((find_closest_obj M c.s model.scene c.base c.dir none).2.2.heap q).normal
          Vec.zero) Vec.zero ∧
      c2.total_dist =
        c.total_dist + (find_closest_obj M c.s model.scene c.base c.dir none).2.1 ∧
      c2.s.heap = (find_closest_obj M c.s model.scene c.base c.dir none).2.2.heap := by
  unfold ray_trace_next
  rw [if_neg ht]
  simp only []
  rw [hq]
  simp only [diffuse_illumination, hl, diffuse_illumination_loop, if_pos hs]
  exact ⟨_, rfl, rfl, rfl, rfl, rfl⟩

/-- C35 fails for a reflecting sphere.  The sphere with center `(0, 0, -5)`,
radius 1 and specular reflectivity, first in the scene list, is struck at
`(0, 0, -4)` by the ray from the origin down the z axis; the plane `z = -5` is
second in the list.  `ray_trace` then makes its recursive call with the origin
`closest->hitloc` (holding `(0, 0, -4)`) and direction `(0, 0, 1)`.  In the
nearest-hit query of that call the test of the sphere itself, which is not
excluded, overwrites the hit point with `(0, 0, -6)`, so the plane is tested
from `(0, 0, -6)` and is returned at distance 1, although from `(0, 0, -4)`
along `(0, 0, 1)` the plane is missed. -/
theorem ray_trace_reflected_query_moves_origin :
    ∃ c2, ray_trace_next ⟨Real.sqrt, Real.sin⟩ ⟨[], [1, 2]⟩
        ⟨ex_ball_scene (1 / 2), .val ⟨0, 0, 0⟩, ⟨0, 0, -1⟩, 0⟩ = some c2 ∧
      c2.base = .hitloc 1 ∧ c2.dir = ⟨0, 0, 1⟩ ∧ c2.base.read c2.s = ⟨0, 0, -4⟩ ∧
      (find_closest_obj ⟨Real.sqrt, Real.sin⟩ c2.s [1, 2] c2.base c2.dir none).2.2.log =
        c2.s.log ++ [Call.hits 1 ⟨0, 0, -4⟩ ⟨0, 0, 1⟩, Call.hits 2 ⟨0, 0, -6⟩ ⟨0, 0, 1⟩] ∧
      c2.base.read (find_closest_obj ⟨Real.sqrt, Real.sin⟩ c2.s [1, 2] c2.base c2.dir
        none).2.2 = ⟨0, 0, -6⟩ ∧
      (find_closest_obj ⟨Real.sqrt, Real.sin⟩ c2.s [1, 2] c2.base c2.dir none).1 = some 2 ∧
      (find_closest_obj ⟨Real.sqrt, Real.sin⟩ c2.s [1, 2] c2.base c2.dir none).2.1 = 1 ∧
      (hits_plane ⟨0, 0, -4⟩ ⟨0, 0, 1⟩ (c2.s.heap 2)).1 = MISS := by
  obtain ⟨q1, q2, q3, q4, -⟩ := ex_ball_primary_query (1 / 2)
  have hspec : vec_dot3
      (call_getspec ((find_closest_obj ⟨Real.sqrt, Real.sin⟩ (ex_ball_scene (1 / 2 : ℝ)) [1, 2]
        (.val ⟨0, 0, 0⟩) ⟨0, 0, -1⟩ none).2.2.heap 1))
      (call_getspec ((find_closest_obj ⟨Real.sqrt, Real.sin⟩ (ex_ball_scene (1 / 2 : ℝ)) [1, 2]
        (.val ⟨0, 0, 0⟩) ⟨0, 0, -1⟩ none).2.2.heap 1)) > 0 := by
    rw [q3]
    simp [call_getspec, default_getspec, ex_ball, ex_sphere, ex_blank, vec_scale3, vec_dot3]
    norm_num
  obtain ⟨c2, e1, e2, e3, -, e5⟩ := ray_trace_next_eval ⟨Real.sqrt, Real.sin⟩ ⟨[], [1, 2]⟩
    ⟨ex_ball_scene (1 / 2), .val ⟨0, 0, 0⟩, ⟨0, 0, -1⟩, 0⟩ 1 rfl
    (by unfold MAX_DIST; norm_num) q1 hspec
  have hdir : c2.dir = ⟨0, 0, 1⟩ := by
    rw [e3]
    simp only []
    rw [q3]
    simp [vec_reflect3, vec_unit3, vec_length3, vec_scale3, vec_dot3, vec_diff3, Vec.zero]
    norm_num
  have h1 : c2.s.heap 1 =
      { ex_ball (1 / 2 : ℝ) with hitloc := ⟨0, 0, -4⟩, normal := ⟨0, 0, 1⟩ } := by
    rw [e5]; exact q3
  have h2 : c2.s.heap 2 =
      { ex_plane (-5 : ℝ) 0 with hitloc := ⟨0, 0, -5⟩, normal := ⟨0, 0, 1⟩ } := by
    rw [e5]; exact q4
  obtain ⟨r1, r2, r3, r4⟩ := ex_ball_reflected_query c2.s .null
    (by rw [h1]; rfl) (by rw [h1]; rfl) (by rw [h1]) (by rw [h2]; rfl) (by rw [h2]; rfl)
  refine ⟨c2, e1, e2, hdir, ?_, ?_, ?_, ?_, ?_, ?_⟩
  · rw [e2]
    show (c2.s.heap 1).hitloc = _
    rw [h1]
  · rw [e2, hdir]; exact r4
  · rw [e2, hdir]; exact r3
  · rw [e2, hdir]; exact r1
  · rw [e2, hdir]; exact r2
  · rw [(ex_plane_hits (c2.s.heap 2) .null (by rw [h2]; rfl)).2.2]

end CallInstances

section VecInstances

/-- C31, an instance: the zero vector and an output array holding `(1, 2, 3)`. -/
theorem vec_unit3_zero_length_witness :
    Libm.sqrt_spec (⟨Real.sqrt, Real.sin⟩ : Libm ℝ) ∧
    vec_unit3 ⟨Real.sqrt, Real.sin⟩ (Vec.zero : Vec ℝ) ⟨1, 2, 3⟩ = ⟨1, 2, 3⟩ :=
  ⟨real_sqrt_spec,
    (vec_unit3_zero_length ⟨Real.sqrt, Real.sin⟩ real_sqrt_spec ⟨1, 2, 3⟩ 0 0 (fun _ => 0)).1⟩

/-- C34, an instance: the vector `(0, 0, 2)`. -/
theorem vec_unit3_normalises_witness :
    (⟨0, 0, 2⟩ : Vec ℝ) ≠ Vec.zero ∧
    vec_dot3 (vec_unit3 ⟨Real.sqrt, Real.sin⟩ (⟨0, 0, 2⟩ : Vec ℝ) ⟨7, 7, 7⟩)
      (vec_unit3 ⟨Real.sqrt, Real.sin⟩ (⟨0, 0, 2⟩ : Vec ℝ) ⟨7, 7, 7⟩) = 1 := by
  have hv : (⟨0, 0, 2⟩ : Vec ℝ) ≠ Vec.zero := by
    intro h
    have := congrArg Vec.z h
    simp [Vec.zero] at this
  exact ⟨hv, (vec_unit3_normalises ⟨Real.sqrt, Real.sin⟩ real_sqrt_spec ⟨0, 0, 2⟩ ⟨7, 7, 7⟩
    hv).2.2.1⟩

/-- C33, an instance: the direction `(0, 0, -1)` and the normal `(0, 0, 1)`. -/
theorem vec_reflect3_mirror_witness :
    (vec_dot3 (⟨0, 0, -1⟩ : Vec ℝ) ⟨0, 0, -1⟩ = 1 ∧ vec_dot3 (⟨0, 0, 1⟩ : Vec ℝ) ⟨0, 0, 1⟩ = 1) ∧
    vec_reflect3 ⟨Real.sqrt, Real.sin⟩ (⟨0, 0, -1⟩ : Vec ℝ) ⟨0, 0, 1⟩ Vec.zero =
      mirror ⟨0, 0, -1⟩ ⟨0, 0, 1⟩ := by
  have hd : vec_dot3 (⟨0, 0, -1⟩ : Vec ℝ) ⟨0, 0, -1⟩ = 1 := by simp [vec_dot3]
  have hn : vec_dot3 (⟨0, 0, 1⟩ : Vec ℝ) ⟨0, 0, 1⟩ = 1 := by simp [vec_dot3]
  exact ⟨⟨hd, hn⟩, (vec_reflect3_mirror ⟨Real.sqrt, Real.sin⟩ real_sqrt_spec ⟨0, 0, -1⟩
    ⟨0, 0, 1⟩ Vec.zero Vec.zero hd hn).1⟩

/-- C38, an instance: the sphere with center `(0, 0, -5)` and radius 1 and the
ray from the origin down the z axis. -/
theorem hits_sphere_hit_on_sphere_witness :
    0 < sphere_disc (⟨0, 0, -5⟩ : Vec ℝ) 1 ⟨0, 0, 0⟩ ⟨0, 0, -1⟩ ∧
    vec_dot3
      (vec_diff3 ⟨0, 0, -5⟩
        (hits_sphere ⟨Real.sqrt, Real.sin⟩ ⟨0, 0, 0⟩ ⟨0, 0, -1⟩ (ex_ball (0 : ℝ))).2.hitloc)
      (vec_diff3 ⟨0, 0, -5⟩
        (hits_sphere ⟨Real.sqrt, Real.sin⟩ ⟨0, 0, 0⟩ ⟨0, 0, -1⟩ (ex_ball (0 : ℝ))).2.hitloc) =
      1 * 1 := by
  have hd : 0 < sphere_disc (⟨0, 0, -5⟩ : Vec ℝ) 1 ⟨0, 0, 0⟩ ⟨0, 0, -1⟩ := by
    simp [sphere_disc, sphere_a, sphere_b, sphere_c, vec_dot3, vec_diff3]
    norm_num
  exact ⟨hd, (hits_sphere_hit_on_sphere ⟨Real.sqrt, Real.sin⟩ real_sqrt_spec (ex_ball 0)
    ⟨0, 0, -5⟩ ⟨0, 0, 0⟩ ⟨0, 0, -1⟩ 1 rfl hd).2.2.1⟩

/-- C36, an instance: the sphere and the plane `z = -5` behind it, and the ray
from the origin down the z axis; the sphere is returned, and the test of the
plane after it leaves its hit point `base + 4 dir`. -/
theorem find_closest_obj_hit_state_witness :
    (find_closest_obj ⟨Real.sqrt, Real.sin⟩ (ex_ball_scene (0 : ℝ)) [1, 2] (.val ⟨0, 0, 0⟩)
      ⟨0, 0, -1⟩ none).1 = some 1 ∧
    ((find_closest_obj ⟨Real.sqrt, Real.sin⟩ (ex_ball_scene (0 : ℝ)) [1, 2] (.val ⟨0, 0, 0⟩)
      ⟨0, 0, -1⟩ none).2.2.heap 1).hitloc =
      vec_sum3 ⟨0, 0, 0⟩ (vec_scale3
        (find_closest_obj ⟨Real.sqrt, Real.sin⟩ (ex_ball_scene (0 : ℝ)) [1, 2]
          (.val ⟨0, 0, 0⟩) ⟨0, 0, -1⟩ none).2.1 ⟨0, 0, -1⟩) :=
  ⟨(ex_ball_primary_query 0).1,
    (find_closest_obj_hit_state ⟨Real.sqrt, Real.sin⟩ (ex_ball_scene (0 : ℝ)) [1, 2]
      (.val ⟨0, 0, 0⟩) ⟨0, 0, -1⟩ none trivial 1 (ex_ball_primary_query 0).1).2.2.1⟩

/-- C37, an instance: the top-level call on the scene of the mirror sphere,
with accumulated distance 0. -/
theorem ray_trace_distances_witness :
    (0 : ℝ) ≤ 0 ∧
    ∀ q, (find_closest_obj ⟨Real.sqrt, Real.sin⟩ (ex_ball_scene (1 / 2 : ℝ)) [1, 2]
        (.val ⟨0, 0, 0⟩) ⟨0, 0, -1⟩ none).1 = some q →
      0 < (0 : ℝ) + (find_closest_obj ⟨Real.sqrt, Real.sin⟩ (ex_ball_scene (1 / 2 : ℝ)) [1, 2]
        (.val ⟨0, 0, 0⟩) ⟨0, 0, -1⟩ none).2.1 :=
  ⟨le_refl 0,
    (ray_trace_distances ⟨Real.sqrt, Real.sin⟩ ⟨[], [1, 2]⟩
      ⟨ex_ball_scene (1 / 2), .val ⟨0, 0, 0⟩, ⟨0, 0, -1⟩, 0⟩
      ⟨ex_ball_scene (1 / 2), .val ⟨0, 0, 0⟩, ⟨0, 0, -1⟩, 0⟩ (le_refl 0)
      Relation.ReflTransGen.refl).2.2.1⟩

/-- C32, an instance: a model without surfaces, one sample per pixel. -/
theorem make_pixel_bytes_witness :
    ∃ r total, make_pixel ⟨Real.sqrt, Real.sin⟩ ⟨[], []⟩ ⟨(2, 2), (2, 2), ⟨0, 0, 1⟩⟩ 1 0 0
        [((1 : ℝ) / 2, 1 / 2)] (ex_ball_scene 0) = some r ∧
      make_pixel_loop ⟨Real.sqrt, Real.sin⟩ ⟨[], []⟩ ⟨(2, 2), (2, 2), ⟨0, 0, 1⟩⟩ 1 0 0
        [((1 : ℝ) / 2, 1 / 2)] (ex_ball_scene 0) Vec.zero = some (total, r.2) := by
  have hs : (make_pixel ⟨Real.sqrt, Real.sin⟩ ⟨[], []⟩ ⟨(2, 2), (2, 2), ⟨0, 0, 1⟩⟩ 1 0 0
      [((1 : ℝ) / 2, 1 / 2)] (ex_ball_scene 0)).isSome = true := by
    simp [make_pixel, make_pixel_loop, ray_trace, find_closest_obj, find_closest_loop, MAX_DIST]
  obtain ⟨r, hr⟩ := Option.isSome_iff_exists.mp hs
  obtain ⟨total, ht, -⟩ := (make_pixel_bytes ⟨Real.sqrt, Real.sin⟩ ⟨[], []⟩
    ⟨(2, 2), (2, 2), ⟨0, 0, 1⟩⟩ 1 0 0 [((1 : ℝ) / 2, 1 / 2)] (ex_ball_scene 0)).2 r hr
  exact ⟨r, total, hr, ht⟩

end VecInstances

end Raytracer
